import Mathlib

/-!
# Structure-from-Motion reconstruction driver (`apps/sfmrecon/sfmrecon.cc`)

A shallow embedding of `sfm_reconstruct`.  The numeric engine (feature
extraction, matching, track building, pose estimation, bundle adjustment)
lives in `libs/sfm` and is not part of the embedded sources; the driver only
sequences calls into it and branches on a handful of answers.  The embedding
therefore records

* every call into the engine and every operation on the viewports and on the
  pairwise matching as an `Event`, in program order (console output, timers
  and the log file are left out), and
* every answer of the engine the driver branches on as a field of `Env`.

The two `int` counters of the growth loop (`num_cameras_reconstructed`,
`full_ba_num_skipped`) start at 2 and 0 and are only incremented or reset to
0, so they are embedded as `Nat`; the embedding covers runs with fewer than
`2^31 - 2` view additions (beyond that the C++ `int` overflows).  View ids are
compared against 0 by the driver and are embedded as `Int`.
-/

namespace SfmRecon

/-! ## Data model -/

/-- Modelled from the spec: the `Viewport` type of `sfm/bundler_common.h` is not
among the embedded sources.  A viewport owns the descriptors and the colours of
its features; the payloads are kept abstract as numbers. -/
structure Viewport where
  descriptors : List Nat
  colors : List Nat
deriving DecidableEq, Repr

/-- Modelled from the spec: the `TwoViewMatching` type of
`sfm/bundler_common.h` is not among the embedded sources.  A pairwise match
entry is keyed by a pair of view indices and holds the verified
correspondences (feature index in view 1, feature index in view 2). -/
structure TwoViewMatching where
  view_1_id : Int
  view_2_id : Int
  correspondences : List (Nat × Nat)
deriving DecidableEq, Repr

abbrev ViewportList := List Viewport

abbrev PairwiseMatching := List TwoViewMatching

/-- `AppSettings` (sfmrecon.cc:33-51).  The two `float` settings hold the
rational number the float stands for; they are only stored and passed on.
The values after `:=` are those `main` sets up before it reads the options
(446-460); `log_file` is default-constructed there. -/
structure AppSettings where
  scene_path : String := ""
  original_name : String := "original"
  undistorted_name : String := "undistorted"
  exif_name : String := "exif"
  prebundle_file : String := "prebundle.sfm"
  log_file : String := ""
  max_image_size : Int := 6000000
  initial_pair_1 : Int
  initial_pair_2 : Int
  lowres_matching : Bool := true
  skip_sfm : Bool
  always_full_ba : Bool
  fixed_intrinsics : Bool := false
  video_matching : Int := 0
  track_error_thres_factor : ℚ := 25
  new_track_error_thres : ℚ := 10
deriving DecidableEq, Repr

/-- `#define RAND_SEED_MATCHING 0` (sfmrecon.cc:30). -/
def RAND_SEED_MATCHING : Nat := 0

/-- `#define RAND_SEED_SFM 0` (sfmrecon.cc:31). -/
def RAND_SEED_SFM : Nat := 0

/-- The calls `sfm_reconstruct` makes, with the arguments that matter for the
data flow.  Source lines are those of sfmrecon.cc. -/
inductive Event where
  /-- `util::system::rand_seed` (151, 188). -/
  | rand_seed (seed : Nat)
  /-- `bundler_features.compute(scene, viewports)` (90). -/
  | features_compute
  /-- `bundler_matching.compute(*viewports, pairwise_matching)` (110); the
  argument is the matching it produced. -/
  | matching_compute (produced : PairwiseMatching)
  /-- `save_prebundle_to_file(viewports, pairwise_matching, path)` (154). -/
  | save_prebundle_to_file (viewports : ViewportList) (pairwise_matching : PairwiseMatching)
  /-- `load_prebundle_from_file(path, &viewports, &pairwise_matching)` (159);
  the arguments are what it stored into the two out-parameters. -/
  | load_prebundle_from_file (viewports : ViewportList) (pairwise_matching : PairwiseMatching)
  /-- `scene->cache_cleanup()` (170). -/
  | cache_cleanup
  /-- `viewports[i].features.clear_descriptors()` for all i (171-172). -/
  | clear_descriptors
  /-- `pairwise_matching.empty()` (117, 175) with its answer. -/
  | pairwise_matching_empty (answer : Bool)
  /-- `std::sort(pairwise_matching.begin(), pairwise_matching.end())` (185). -/
  | sort_pairwise_matching
  /-- `bundler_tracks.compute(pairwise_matching, &viewports, &tracks)` (195). -/
  | tracks_compute (pairwise_matching : PairwiseMatching) (viewports : ViewportList)
  /-- `viewports[i].features.colors.clear()` for all i (200-201). -/
  | clear_colors
  /-- `init_pair.compute(viewports, pairwise_matching, &init_pair_result)` (216). -/
  | init_pair_compute (viewports : ViewportList) (pairwise_matching : PairwiseMatching)
  /-- `pairwise_matching.clear()` (237). -/
  | pairwise_matching_clear
  /-- `incremental.initialize(&viewports, &tracks)` (255). -/
  | incremental_init
  /-- `incremental.reconstruct_initial_pair(view_1_id, view_2_id)` (259). -/
  | reconstruct_initial_pair (view_1_id view_2_id : Int)
  /-- `incremental.triangulate_new_tracks()` (263, 308). -/
  | triangulate_new_tracks
  /-- `incremental.invalidate_large_error_tracks()` (266, 309). -/
  | invalidate_large_error_tracks
  /-- `incremental.bundle_adjustment_full()` (270, 324, 332). -/
  | bundle_adjustment_full
  /-- `incremental.find_next_views(&next_views)` (278) with the ids returned. -/
  | find_next_views (next_views : List Int)
  /-- `incremental.reconstruct_next_view(view_id)` (293) with its answer. -/
  | reconstruct_next_view (view_id : Int) (ok : Bool)
  /-- `incremental.bundle_adjustment_single_cam(view_id)` (307). -/
  | bundle_adjustment_single_cam (view_id : Int)
  /-- The branch "Skipping full bundle adjustment" (315-320), with the value
  of `full_ba_skip_views`. -/
  | skip_full_ba (full_ba_skip_views : Nat)
  /-- `incremental.normalize_scene()` (341). -/
  | normalize_scene
  /-- `incremental.create_bundle()` (345). -/
  | create_bundle
  /-- `mve::save_mve_bundle(bundle, ...)` (346). -/
  | save_mve_bundle
  /-- The pose-application loop over all views (357-384). -/
  | apply_bundle_cameras
deriving DecidableEq, Repr

/-- How a (prefix of a) run of `sfm_reconstruct` ends. -/
inductive Outcome where
  /-- `std::exit(code)`. -/
  | exited (code : Nat)
  /-- The function returned to `main`, which then returns 0. -/
  | returned
  /-- The recorded answers of the engine are used up and the growth loop is
  still running: the trace is a proper prefix of the run. -/
  | running
deriving DecidableEq, Repr

structure Run where
  trace : List Event
  outcome : Outcome
deriving DecidableEq, Repr

/-- The same run with `evs` executed before it. -/
def Run.after (evs : List Event) (r : Run) : Run :=
  { trace := evs ++ r.trace, outcome := r.outcome }

/-- The answers of the collaborators that `sfm_reconstruct` branches on. -/
structure Env where
  /-- `util::fs::file_exists(prebundle_path)` (149). -/
  prebundle_exists : Bool
  /-- Viewports filled in by `Features::compute` (90). -/
  computed_viewports : ViewportList
  /-- Matching filled in by `Matching::compute` (110). -/
  computed_matching : PairwiseMatching
  /-- Viewports filled in by `load_prebundle_from_file` (159). -/
  loaded_viewports : ViewportList
  /-- Matching filled in by `load_prebundle_from_file` (159). -/
  loaded_matching : PairwiseMatching
  /-- `view_1_id`, `view_2_id` stored by `InitialPair::compute` (216). -/
  selected_pair : Int × Int
  /-- Per iteration of the growth loop: the ranked ids stored by
  `find_next_views` (278), each with the answer `reconstruct_next_view` gives
  when it is called for that candidate in this iteration (293). -/
  growth : List (List (Int × Bool))
  /-- `bundle->get_cameras().size()` (349). -/
  bundle_cameras : Nat
  /-- `scene->get_views().size()` (350). -/
  scene_views : Nat

/-! ## The growth loop (sfmrecon.cc:272-327) -/

/-- Why the `while (true)` loop was left. -/
inductive LoopStatus where
  /-- `next_views.empty()`: "SfM reconstruction finished." (280-284). -/
  | finished
  /-- `next_view_id < 0`: "No valid next view. Exiting." (300-304). -/
  | no_valid_view
  /-- Not left yet: the recorded answers are used up. -/
  | pending
deriving DecidableEq, Repr

structure Growth where
  events : List Event
  num_cameras_reconstructed : Nat
  full_ba_num_skipped : Nat
  status : LoopStatus
deriving DecidableEq, Repr

/-- The same loop result with `evs` executed before it. -/
def Growth.after (evs : List Event) (g : Growth) : Growth :=
  { g with events := evs ++ g.events }

/-- The inner `for` loop (286-298): `next_view_id` starts at -1; candidates
are tried in order and the first success stores its id and breaks. -/
def try_next_views : List (Int × Bool) → List Event × Int
  | [] => ([], -1)
  | (view_id, ok) :: rest =>
    if ok then ([Event.reconstruct_next_view view_id true], view_id)
    else
      ((Event.reconstruct_next_view view_id false) :: (try_next_views rest).1,
        (try_next_views rest).2)

/-- `full_ba_skip_views` (313-314):
`conf.always_full_ba ? 0 : std::min(5, num_cameras_reconstructed / 15)`. -/
def full_ba_skip_views (conf : AppSettings) (num_cameras_reconstructed : Nat) : Nat :=
  if conf.always_full_ba then 0 else min 5 (num_cameras_reconstructed / 15)

/-- The `while (true)` loop (275-327), run on the recorded answers `script`
from the loop state `num_cameras_reconstructed = n`, `full_ba_num_skipped = c`. -/
def growth_loop (conf : AppSettings) : List (List (Int × Bool)) → Nat → Nat → Growth
  | [], n, c =>
    { events := [], num_cameras_reconstructed := n, full_ba_num_skipped := c,
      status := LoopStatus.pending }
  | next_views :: script, n, c =>
    if next_views.isEmpty then
      { events := [Event.find_next_views []], num_cameras_reconstructed := n,
        full_ba_num_skipped := c, status := LoopStatus.finished }
    else if (try_next_views next_views).2 < 0 then
      { events := Event.find_next_views (next_views.map Prod.fst)
          :: (try_next_views next_views).1,
        num_cameras_reconstructed := n, full_ba_num_skipped := c,
        status := LoopStatus.no_valid_view }
    else if c < full_ba_skip_views conf (n + 1) then
      (growth_loop conf script (n + 1) (c + 1)).after
        (Event.find_next_views (next_views.map Prod.fst)
          :: (try_next_views next_views).1
          ++ [Event.bundle_adjustment_single_cam (try_next_views next_views).2,
              Event.triangulate_new_tracks,
              Event.invalidate_large_error_tracks,
              Event.skip_full_ba (full_ba_skip_views conf (n + 1))])
    else
      (growth_loop conf script (n + 1) 0).after
        (Event.find_next_views (next_views.map Prod.fst)
          :: (try_next_views next_views).1
          ++ [Event.bundle_adjustment_single_cam (try_next_views next_views).2,
              Event.triangulate_new_tracks,
              Event.invalidate_large_error_tracks,
              Event.bundle_adjustment_full])

/-- The final bundle adjustment (329-333): `if (full_ba_num_skipped > 0)`. -/
def final_bundle_adjustment (full_ba_num_skipped : Nat) : List Event :=
  if full_ba_num_skipped > 0 then [Event.bundle_adjustment_full] else []

/-! ## The driver (sfmrecon.cc:124-387) -/

/-- Modelled from the spec: `operator<` of `TwoViewMatching`
(`sfm/bundler_common.h`) is not among the embedded sources; the spec says the
pairwise matches are sorted "by view-pair order", i.e. lexicographically by
the two view indices. -/
def TwoViewMatching.le (a b : TwoViewMatching) : Bool :=
  decide (a.view_1_id < b.view_1_id)
    || (decide (a.view_1_id = b.view_1_id) && decide (a.view_2_id ≤ b.view_2_id))

/-- `std::sort(pairwise_matching.begin(), pairwise_matching.end())` (185). -/
def sort_pairwise_matching (pm : PairwiseMatching) : PairwiseMatching :=
  pm.insertionSort (fun a b => TwoViewMatching.le a b = true)

/-- `features.clear_descriptors()` (172). -/
def Viewport.clear_descriptors (v : Viewport) : Viewport :=
  { v with descriptors := [] }

/-- `features.colors.clear()` (201). -/
def Viewport.clear_colors (v : Viewport) : Viewport :=
  { v with colors := [] }

/-- `static_cast<int>(n)` for a `std::size_t` n and a 32-bit `int` (225, 226). -/
def static_cast_int (n : Nat) : Int :=
  if n % 2 ^ 32 < 2 ^ 31 then ((n % 2 ^ 32 : Nat) : Int)
  else ((n % 2 ^ 32 : Nat) : Int) - 2 ^ 32

/-- `features_and_matching` (74-122): feature computation, matching, and
`std::exit(1)` when the matching is empty; `Outcome.returned` is the normal
return to the caller. -/
def features_and_matching (env : Env) : Run :=
  { trace := [Event.features_compute, Event.matching_compute env.computed_matching,
      Event.pairwise_matching_empty env.computed_matching.isEmpty],
    outcome := if env.computed_matching.isEmpty then Outcome.exited 1 else Outcome.returned }

/-- Lines 329-387: the conditional final bundle adjustment, normalization,
bundle creation, the camera-count check and the pose application. -/
def finish_reconstruction (env : Env) (full_ba_num_skipped : Nat) : Run :=
  Run.after
    (final_bundle_adjustment full_ba_num_skipped
      ++ [Event.normalize_scene, Event.create_bundle, Event.save_mve_bundle])
    (if env.bundle_cameras ≠ env.scene_views then
      { trace := [], outcome := Outcome.exited 1 }
    else
      { trace := [Event.apply_bundle_cameras], outcome := Outcome.returned })

/-- Lines 236-387: clearing the matching, seeding the reconstruction from the
initial pair, the growth loop (started with `num_cameras_reconstructed = 2`,
`full_ba_num_skipped = 0`) and what follows it. -/
def incremental_sfm (conf : AppSettings) (env : Env) (view_1_id view_2_id : Int) : Run :=
  Run.after
    ([Event.pairwise_matching_clear,
      Event.incremental_init,
      Event.reconstruct_initial_pair view_1_id view_2_id,
      Event.triangulate_new_tracks,
      Event.invalidate_large_error_tracks,
      Event.bundle_adjustment_full]
      ++ (growth_loop conf env.growth 2 0).events)
    (match (growth_loop conf env.growth 2 0).status with
     | LoopStatus.pending => { trace := [], outcome := Outcome.running }
     | _ => finish_reconstruction env (growth_loop conf env.growth 2 0).full_ba_num_skipped)

/-- The pair `init_pair_result` holds at line 224: the answer of the selector
when one of the configured indices is negative (205-217), the configured pair
otherwise (218-222). -/
def init_pair_result (conf : AppSettings) (env : Env) : Int × Int :=
  if conf.initial_pair_1 < 0 ∨ conf.initial_pair_2 < 0 then env.selected_pair
  else (conf.initial_pair_1, conf.initial_pair_2)

/-- Lines 163-387, entered with the viewports and the pairwise matching that
lines 147-161 produced. -/
def sfm_after_prebundle (conf : AppSettings) (env : Env)
    (viewports : ViewportList) (pairwise_matching : PairwiseMatching) : Run :=
  if conf.skip_sfm then
    { trace := [], outcome := Outcome.exited 0 }
  else if pairwise_matching.isEmpty then
    { trace := [Event.cache_cleanup, Event.clear_descriptors,
        Event.pairwise_matching_empty true],
      outcome := Outcome.exited 1 }
  else
    Run.after
      ([Event.cache_cleanup, Event.clear_descriptors,
        Event.pairwise_matching_empty false,
        Event.sort_pairwise_matching,
        Event.rand_seed RAND_SEED_SFM,
        Event.tracks_compute (sort_pairwise_matching pairwise_matching)
          (viewports.map Viewport.clear_descriptors),
        Event.clear_colors]
        ++ (if conf.initial_pair_1 < 0 ∨ conf.initial_pair_2 < 0 then
              [Event.init_pair_compute
                ((viewports.map Viewport.clear_descriptors).map Viewport.clear_colors)
                (sort_pairwise_matching pairwise_matching)]
            else []))
      (if (init_pair_result conf env).1 < 0 ∨ (init_pair_result conf env).2 < 0
          ∨ (init_pair_result conf env).1 ≥ static_cast_int viewports.length
          ∨ (init_pair_result conf env).2 ≥ static_cast_int viewports.length then
        { trace := [], outcome := Outcome.exited 1 }
      else
        incremental_sfm conf env (init_pair_result conf env).1 (init_pair_result conf env).2)

/-- `sfm_reconstruct` (124-387). -/
def sfm_reconstruct (conf : AppSettings) (env : Env) : Run :=
  if !env.prebundle_exists then
    match (features_and_matching env).outcome with
    | Outcome.returned =>
      Run.after
        (Event.rand_seed RAND_SEED_MATCHING :: (features_and_matching env).trace
          ++ [Event.save_prebundle_to_file env.computed_viewports env.computed_matching])
        (sfm_after_prebundle conf env env.computed_viewports env.computed_matching)
    | o =>
      { trace := Event.rand_seed RAND_SEED_MATCHING :: (features_and_matching env).trace,
        outcome := o }
  else if !conf.skip_sfm then
    Run.after [Event.load_prebundle_from_file env.loaded_viewports env.loaded_matching]
      (sfm_after_prebundle conf env env.loaded_viewports env.loaded_matching)
  else
    sfm_after_prebundle conf env [] []

/-! ## Vocabulary of the statements -/

/-- Every id returned by `find_next_views` is an index of a viewport, hence
not negative. -/
def valid_view_ids (next_views : List (Int × Bool)) : Prop :=
  ∀ x ∈ next_views, 0 ≤ x.1

/-- An iteration that adds a view: the ids are valid and
`reconstruct_next_view` succeeds for some candidate. -/
def view_addition (next_views : List (Int × Bool)) : Prop :=
  valid_view_ids next_views ∧ ∃ x ∈ next_views, x.2 = true

/-- The decision taken at lines 315-326 that an event records: `true` for a
run of full bundle adjustment, `false` for a skipped one. -/
def ba_decision : Event → Option Bool
  | Event.bundle_adjustment_full => some true
  | Event.skip_full_ba _ => some false
  | _ => none

/-- The full-bundle-adjustment decisions of a trace, in program order. -/
def ba_decisions (evs : List Event) : List Bool :=
  evs.filterMap ba_decision

/-- Number of runs of full bundle adjustment in a trace. -/
def full_ba_runs (evs : List Event) : Nat :=
  evs.count Event.bundle_adjustment_full

/-- The smallest q with L ≤ q * d, for d > 0: the ceiling of L / d. -/
def ceil_div (L d : Nat) : Nat :=
  (L + (d - 1)) / d

/-- The decisions of lines 313-326 for L successive view additions from the
loop state (n, c). -/
def ba_schedule (conf : AppSettings) : Nat → Nat → Nat → List Bool
  | 0, _, _ => []
  | L + 1, n, c =>
    if c < full_ba_skip_views conf (n + 1) then false :: ba_schedule conf L (n + 1) (c + 1)
    else true :: ba_schedule conf L (n + 1) 0

/-- The value of `full_ba_num_skipped` after L successive view additions from
the loop state (n, c). -/
def skipped_after (conf : AppSettings) : Nat → Nat → Nat → Nat
  | 0, _, c => c
  | L + 1, n, c =>
    if c < full_ba_skip_views conf (n + 1) then skipped_after conf L (n + 1) (c + 1)
    else skipped_after conf L (n + 1) 0

/-- Does the event record the single-camera bundle adjustment that follows a
successful `reconstruct_next_view` (307)? -/
def is_single_cam : Event → Bool
  | Event.bundle_adjustment_single_cam _ => true
  | _ => false

/-- Number of views added in a trace of the growth loop. -/
def view_additions (evs : List Event) : Nat :=
  evs.countP is_single_cam

instance (next_views : List (Int × Bool)) : Decidable (valid_view_ids next_views) := by
  unfold valid_view_ids; infer_instance

instance (next_views : List (Int × Bool)) : Decidable (view_addition next_views) := by
  unfold view_addition; infer_instance

/-- Settings of a run without options that matter here: no explicit initial
pair, SfM not skipped, throttled full bundle adjustment (452-456). -/
def default_settings : AppSettings :=
  { initial_pair_1 := -1, initial_pair_2 := -1, skip_sfm := false, always_full_ba := false }

/-- A scene of 16 views whose pre-bundle has to be computed: views 0 and 1
are selected as the initial pair, then views 2 to 15 are added one after the
other (14 additions, camera counts 3 to 16), then `find_next_views` answers
with the empty list. -/
def sixteen_views : Env :=
  { prebundle_exists := false,
    computed_viewports := List.replicate 16 { descriptors := [1, 2], colors := [3] },
    computed_matching :=
      [{ view_1_id := 1, view_2_id := 2, correspondences := [(0, 0)] },
       { view_1_id := 0, view_2_id := 1, correspondences := [(0, 1)] }],
    loaded_viewports := [],
    loaded_matching := [],
    selected_pair := (0, 1),
    growth := [[(2, true)], [(3, true)], [(4, true)], [(5, true)], [(6, true)],
      [(7, true)], [(8, true)], [(9, true)], [(10, true)], [(11, true)], [(12, true)],
      [(13, true)], [(14, true)], [(15, true)], []],
    bundle_cameras := 16,
    scene_views := 16 }

/-- The events of the incremental stage (lines 236-387): everything from
`pairwise_matching.clear()` on. -/
def incremental_event : Event → Bool
  | Event.pairwise_matching_clear => true
  | Event.incremental_init => true
  | Event.reconstruct_initial_pair _ _ => true
  | Event.triangulate_new_tracks => true
  | Event.invalidate_large_error_tracks => true
  | Event.bundle_adjustment_full => true
  | Event.find_next_views _ => true
  | Event.reconstruct_next_view _ _ => true
  | Event.bundle_adjustment_single_cam _ => true
  | Event.skip_full_ba _ => true
  | Event.normalize_scene => true
  | Event.create_bundle => true
  | Event.save_mve_bundle => true
  | Event.apply_bundle_cameras => true
  | _ => false

/-- Does the call read the contents of `pairwise_matching`?  It is the
argument saved by `save_prebundle_to_file` (154), tested by `empty()` (117,
175), sorted (185), and passed to `bundler_tracks.compute` (195) and to
`init_pair.compute` (216).  `Matching::compute` and
`load_prebundle_from_file` fill it and `clear()` (237) empties it. -/
def reads_pairwise_matching : Event → Bool
  | Event.save_prebundle_to_file _ _ => true
  | Event.pairwise_matching_empty _ => true
  | Event.sort_pairwise_matching => true
  | Event.tracks_compute _ _ => true
  | Event.init_pair_compute _ _ => true
  | _ => false

def is_tracks_compute : Event → Bool
  | Event.tracks_compute _ _ => true
  | _ => false

def is_pairwise_matching_clear : Event → Bool
  | Event.pairwise_matching_clear => true
  | _ => false

def is_init_pair_compute : Event → Bool
  | Event.init_pair_compute _ _ => true
  | _ => false

/-- The events of a trace that come after its first event satisfying p (none
if there is no such event). -/
def events_after (p : Event → Bool) (trace : List Event) : List Event :=
  (trace.dropWhile (fun e => !p e)).tail

/-- An option as `args.next_option()` hands it to the loop of `main`
(463-508), with its argument as `get_arg<int>`, `get_arg<float>` or the
tokenizer (494-502) convert it.  The argument parser returns registered
options only (428-441), and every registered option has a branch. -/
inductive CmdOption where
  | original (arg : String)
  | exif (arg : String)
  | undistorted (arg : String)
  | max_pixels (arg : Int)
  | prebundle (arg : String)
  | log_file (arg : String)
  | no_prediction
  | skip_sfm
  | always_full_ba
  | video_matching (arg : Int)
  | fixed_intrinsics
  | track_error_thres (arg : ℚ)
  | track_thres_factor (arg : ℚ)
  /-- The argument split at ',' with each token read as `int` (494-502). -/
  | initial_pair (tokens : List Int)
deriving DecidableEq, Repr

/-- "Setup defaults." (444-460). -/
def main_defaults (scene_path : String) : AppSettings :=
  { scene_path := scene_path,
    original_name := "original",
    undistorted_name := "undistorted",
    exif_name := "exif",
    prebundle_file := "prebundle.sfm",
    log_file := "",
    max_image_size := 6000000,
    initial_pair_1 := -1,
    initial_pair_2 := -1,
    lowres_matching := true,
    skip_sfm := false,
    always_full_ba := false,
    fixed_intrinsics := false,
    video_matching := 0,
    track_error_thres_factor := 25,
    new_track_error_thres := 10 }

/-- One pass through the body of the option loop (466-507); `Except.error
code` is `std::exit(code)`. -/
def read_option (conf : AppSettings) : CmdOption → Except Nat AppSettings
  | CmdOption.original arg => Except.ok { conf with original_name := arg }
  | CmdOption.exif arg => Except.ok { conf with exif_name := arg }
  | CmdOption.undistorted arg => Except.ok { conf with undistorted_name := arg }
  | CmdOption.max_pixels arg => Except.ok { conf with max_image_size := arg }
  | CmdOption.prebundle arg => Except.ok { conf with prebundle_file := arg }
  | CmdOption.log_file arg => Except.ok { conf with log_file := arg }
  | CmdOption.no_prediction => Except.ok { conf with lowres_matching := false }
  | CmdOption.skip_sfm => Except.ok { conf with skip_sfm := true }
  | CmdOption.always_full_ba => Except.ok { conf with always_full_ba := true }
  | CmdOption.video_matching arg => Except.ok { conf with video_matching := arg }
  | CmdOption.fixed_intrinsics => Except.ok { conf with fixed_intrinsics := true }
  | CmdOption.track_error_thres arg => Except.ok { conf with new_track_error_thres := arg }
  | CmdOption.track_thres_factor arg => Except.ok { conf with track_error_thres_factor := arg }
  | CmdOption.initial_pair tokens =>
    match tokens with
    | [first, second] =>
      Except.ok { conf with initial_pair_1 := first, initial_pair_2 := second }
    | _ => Except.error 1

/-- The option loop (463-508). -/
def read_options : AppSettings → List CmdOption → Except Nat AppSettings
  | conf, [] => Except.ok conf
  | conf, opt :: rest =>
    match read_option conf opt with
    | Except.ok conf1 => read_options conf1 rest
    | Except.error code => Except.error code

/-- The settings `main` hands to `check_prebundle` and `sfm_reconstruct`
(444-511). -/
def main_settings (scene_path : String) (opts : List CmdOption) : Except Nat AppSettings :=
  read_options (main_defaults scene_path) opts

/-- Modelled from the spec: `sfm::bundler::Incremental::Options`
(`sfm/bundler_incremental.h`) is not among the embedded sources; these are
the members `sfm_reconstruct` assigns (240-252).  The minimal triangulation
angle is kept in degrees (`MATH_DEG2RAD(3.0)` at 250). -/
structure IncrementalOptions where
  fundamental_already_normalized : Bool
  fundamental_threshold : ℚ
  fundamental_verbose_output : Bool
  pose_p3p_threshold : ℚ
  pose_p3p_verbose_output : Bool
  track_error_threshold_factor : ℚ
  new_track_error_threshold : ℚ
  min_triangulation_angle_deg : ℚ
  ba_fixed_intrinsics : Bool
  verbose_output : Bool
deriving DecidableEq, Repr

/-- The options of the incremental reconstructor (239-252). -/
def incremental_opts (conf : AppSettings) : IncrementalOptions :=
  { fundamental_already_normalized := false,
    fundamental_threshold := 3,
    fundamental_verbose_output := true,
    pose_p3p_threshold := 10,
    pose_p3p_verbose_output := false,
    track_error_threshold_factor := conf.track_error_thres_factor,
    new_track_error_threshold := conf.new_track_error_thres,
    min_triangulation_angle_deg := 3,
    ba_fixed_intrinsics := conf.fixed_intrinsics,
    verbose_output := true }

/-! ## Probing the pre-bundle (sfmrecon.cc:389-413) -/

/-- The operations of `check_prebundle` on `prebundle_path`. -/
inductive FileOp where
  /-- `std::ofstream out(prebundle_path.c_str())` (399). -/
  | open_for_writing
  /-- `out.close()` (402, 409). -/
  | close
  /-- `util::fs::unlink(prebundle_path.c_str())` (412). -/
  | unlink
deriving DecidableEq, Repr

/-- `check_prebundle` (389-413).  `path_exists` is the answer of
`util::fs::exists` (395) and `out_good` the answer of `out.good()` after the
file was opened for writing (400); the operations are those performed on the
path, in order. -/
def check_prebundle (path_exists out_good : Bool) : List FileOp × Outcome :=
  if path_exists then ([], Outcome.returned)
  else if !out_good then ([FileOp.open_for_writing, FileOp.close], Outcome.exited 1)
  else ([FileOp.open_for_writing, FileOp.close, FileOp.unlink], Outcome.returned)

/-! ## Applying the bundle cameras to the views (sfmrecon.cc:348-384) -/

/-- Modelled from the spec: `mve::CameraInfo` (`mve/camera.h`) is not among
the embedded sources.  A camera pose is a rotation, a translation, a focal
length and distortion coefficients; focal length 0 marks an invalid camera.
The `float` members hold the rational number the float stands for. -/
structure CameraInfo where
  flen : ℚ
  dist : ℚ × ℚ
  trans : List ℚ
  rot : List ℚ
deriving DecidableEq, Repr

/-- Modelled from the spec: `mve::View` (`mve/view.h`) is not among the
embedded sources.  Of a view the loop uses its camera and its byte-image
embeddings, known by their names. -/
structure View where
  camera : CameraInfo
  byte_images : List String
deriving DecidableEq, Repr

/-- The operations the loop body performs on a view. -/
inductive ViewOp where
  /-- `view->set_camera(cam)` (365). -/
  | set_camera (cam : CameraInfo)
  /-- `view->set_image(conf.undistorted_name, undist)` (377), where `undist`
  is the original undistorted with `cam.flen` and `cam.dist[0]` (374-376). -/
  | set_image (name : String) (flen dist_0 : ℚ)
  /-- `view->save_mve_file()` (382). -/
  | save_mve_file
  /-- `view->cache_cleanup()` (383). -/
  | cache_cleanup
deriving DecidableEq, Repr

/-- `view->set_image(name, image)`: the view has an embedding of that name
afterwards. -/
def View.set_image (v : View) (name : String) : View :=
  { v with byte_images := if name ∈ v.byte_images then v.byte_images
                          else v.byte_images ++ [name] }

/-- The body of the loop over the views (360-383) for the view pointer `view`
(`none` is `NULL`) and the bundle camera `cam` of the same index: the view
afterwards and the operations performed on it. -/
def apply_camera (conf : AppSettings) (view : Option View) (cam : CameraInfo) :
    Option View × List ViewOp :=
  match view with
  | none => (none, [])
  | some v =>
    if v.camera.flen = 0 ∧ cam.flen = 0 then (some v, [])
    else if conf.undistorted_name ≠ "" then
      if conf.original_name ∈ v.byte_images then
        (some (View.set_image { v with camera := cam } conf.undistorted_name),
          [ViewOp.set_camera cam,
            ViewOp.set_image conf.undistorted_name cam.flen cam.dist.1,
            ViewOp.save_mve_file, ViewOp.cache_cleanup])
      else (some { v with camera := cam }, [ViewOp.set_camera cam])
    else
      (some { v with camera := cam },
        [ViewOp.set_camera cam, ViewOp.save_mve_file, ViewOp.cache_cleanup])

/-- The loop over all views (357-384), entered with as many bundle cameras
as views (351-355); the iterations touch disjoint views. -/
def apply_cameras (conf : AppSettings) (views : List (Option View))
    (bundle_cams : List CameraInfo) : List (Option View × List ViewOp) :=
  List.zipWith (apply_camera conf) views bundle_cams

/-! ## Vocabulary of the statements on the pre-bundle and the view additions -/

/-- What `bundler_tracks.compute` is handed in a trace: its two arguments and
the seed of the random generator, known when `rand_seed` is the call directly
before it. -/
def track_building_input :
    List Event → Option Nat → Option (Option Nat × PairwiseMatching × ViewportList)
  | [], _ => none
  | Event.rand_seed seed :: rest, _ => track_building_input rest (some seed)
  | Event.tracks_compute pm vps :: _, seed => some (seed, pm, vps)
  | _ :: rest, _ => track_building_input rest none

def is_save_prebundle : Event → Bool
  | Event.save_prebundle_to_file _ _ => true
  | _ => false

def is_load_prebundle : Event → Bool
  | Event.load_prebundle_from_file _ _ => true
  | _ => false

def is_matching_compute : Event → Bool
  | Event.matching_compute _ => true
  | _ => false

/-- The events of the growth loop (275-327). -/
def growth_event : Event → Bool
  | Event.find_next_views _ => true
  | Event.reconstruct_next_view _ _ => true
  | Event.bundle_adjustment_single_cam _ => true
  | Event.triangulate_new_tracks => true
  | Event.invalidate_large_error_tracks => true
  | Event.skip_full_ba _ => true
  | Event.bundle_adjustment_full => true
  | _ => false

/-- The view of a successful `reconstruct_next_view`. -/
def reconstructed_view : Event → Option Int
  | Event.reconstruct_next_view view_id true => some view_id
  | _ => none

/-- The view of a single-camera bundle adjustment. -/
def single_cam_view : Event → Option Int
  | Event.bundle_adjustment_single_cam view_id => some view_id
  | _ => none

/-- The same scene as `sixteen_views` with a matching that found no pairs. -/
def no_pairs : Env :=
  { sixteen_views with computed_matching := [] }

/-- Does every maximal run of skipped additions (`false`) in a list of
decisions have length at most 5, the first one at most `budget`? -/
def skip_runs_within (budget : Nat) : List Bool → Bool
  | [] => true
  | true :: rest => skip_runs_within 5 rest
  | false :: rest => decide (0 < budget) && skip_runs_within (budget - 1) rest

end SfmRecon

namespace Sfm

/-! # Exhaustive nearest neighbor search (`libs/sfm/nearest_neighbor.h`)

The header declares the class and defines its constructor and accessors;
the body of `find` is in a file that is not among the embedded sources.
Elements are embedded as integers (the `short` and `unsigned short`
instances; arithmetic is exact). -/

/-- `NearestNeighbor<T>::Result` (46-52). -/
structure Result where
  dist_1st_best : Int
  dist_2nd_best : Int
  index_1st_best : Int
  index_2nd_best : Int
deriving DecidableEq, Repr

/-- The members of `NearestNeighbor<T>` (65-68); `elements` is the memory
block of `num_elements * dimensions` values. -/
structure NearestNeighbor where
  dimensions : Nat
  elements : List Int
  num_elements : Nat
deriving DecidableEq, Repr

/-- The constructor (73-80). -/
def NearestNeighbor.init : NearestNeighbor :=
  { dimensions := 64, elements := [], num_elements := 0 }

/-- `set_elements` (82-88). -/
def NearestNeighbor.set_elements (nn : NearestNeighbor) (elements : List Int)
    (num_elements : Nat) : NearestNeighbor :=
  { nn with elements := elements, num_elements := num_elements }

/-- `set_element_dimensions` (90-95). -/
def NearestNeighbor.set_element_dimensions (nn : NearestNeighbor)
    (element_dimensions : Nat) : NearestNeighbor :=
  { nn with dimensions := element_dimensions }

/-- `get_element_dimensions` (97-102). -/
def NearestNeighbor.get_element_dimensions (nn : NearestNeighbor) : Nat :=
  nn.dimensions

/-- Candidate i of the memory block. -/
def NearestNeighbor.element (nn : NearestNeighbor) (i : Nat) : List Int :=
  (nn.elements.drop (i * nn.dimensions)).take nn.dimensions

/-- Modelled from the spec: the inner product `<Q | C>` of the header comment
(16-27). -/
def inner_product : List Int → List Int → Int
  | q :: qs, c :: cs => q * c + inner_product qs cs
  | _, _ => 0

/-- Modelled from the spec: the squared norm `||Q||^2`. -/
def sq_norm (v : List Int) : Int :=
  inner_product v v

/-- Modelled from the spec: the squared distance as the header and the spec
compute it, `||Q||^2 + ||C||^2 - 2 * <Q | C>`. -/
def sq_distance (q c : List Int) : Int :=
  sq_norm q + sq_norm c - 2 * inner_product q c

/-- Modelled from the spec: the squared distance `||Q - C||^2`, the sum of the
squared differences of the components. -/
def sq_difference : List Int → List Int → Int
  | q :: qs, c :: cs => (q - c) ^ 2 + sq_difference qs cs
  | _, _ => 0

/-- The candidates with their squared distance to the query, in index
order. -/
def NearestNeighbor.distances (nn : NearestNeighbor) (query : List Int) : List (Nat × Int) :=
  (List.range nn.num_elements).map (fun i => (i, sq_distance query (nn.element i)))

/-- The entry with the smallest distance, the first of them in list order. -/
def nearest : List (Nat × Int) → Option (Nat × Int)
  | [] => none
  | x :: rest =>
    match nearest rest with
    | none => some x
    | some y => if y.2 < x.2 then some y else some x

/-- Modelled from the spec: the body of `NearestNeighbor<T>::find` (declared
at line 61) is not among the embedded sources.  The spec: `find(query)`
returns the squared distance and index of the nearest and second-nearest
candidate, the distance being `||Q||^2 + ||C||^2 - 2 * <Q | C>`; with zero
candidates it returns a sentinel "no match" result.  The spec does not say
what the sentinel holds: it is the parameter `no_match`, whose second-best
members are also returned when there is a single candidate. -/
def NearestNeighbor.find (nn : NearestNeighbor) (no_match : Result) (query : List Int) :
    Result :=
  match nearest (nn.distances query) with
  | none => no_match
  | some first =>
    match nearest ((nn.distances query).filter (fun x => x.1 != first.1)) with
    | none =>
      { dist_1st_best := first.2, dist_2nd_best := no_match.dist_2nd_best,
        index_1st_best := first.1, index_2nd_best := no_match.index_2nd_best }
    | some second =>
      { dist_1st_best := first.2, dist_2nd_best := second.2,
        index_1st_best := first.1, index_2nd_best := second.1 }

end Sfm

namespace MakeScene

/-! # Scene creation (`apps/makescene/makescene.cc`)

`main`, `import_images`, `find_max_scene_id`, `limit_image_size`,
`remove_file_extension` and the part of `import_bundle` that decides which
cameras become views.  Image decoding, the bundle readers and the file
system are collaborators; their answers are arguments of the embedded
functions.  `float` values hold the rational number the float stands for. -/

/-- `AppSettings` (makescene.cc:60-74). -/
structure AppSettings where
  input_path : String
  output_path : String
  bundle_id : Int
  import_orig : Bool
  skip_invalid : Bool
  images_only : Bool
  append_images : Bool
  max_pixels : Int
  bundle_path : String
  views_path : String
deriving DecidableEq, Repr

/-- An option as `args.next_option()` hands it to the loop of `main`
(1019-1036); the parser returns registered options only (999-1004) and every
registered option has a branch. -/
inductive CmdOption where
  | original
  | bundle_id (arg : Int)
  | keep_invalid
  | images_only
  | append_images
  | max_pixels (arg : Int)
deriving DecidableEq, Repr

/-- "Setup defaults." (1007-1016); `max_pixels` is
`std::numeric_limits<int>::max()`, the computed paths are still empty. -/
def main_defaults (input_path output_path : String) : AppSettings :=
  { input_path := input_path,
    output_path := output_path,
    bundle_id := 0,
    import_orig := false,
    skip_invalid := true,
    images_only := false,
    append_images := false,
    max_pixels := 2147483647,
    bundle_path := "",
    views_path := "" }

/-- The body of the option loop (1022-1035). -/
def read_option (conf : AppSettings) : CmdOption → AppSettings
  | CmdOption.original => { conf with import_orig := true }
  | CmdOption.bundle_id arg => { conf with bundle_id := arg }
  | CmdOption.keep_invalid => { conf with skip_invalid := false }
  | CmdOption.images_only => { conf with images_only := true }
  | CmdOption.append_images => { conf with append_images := true }
  | CmdOption.max_pixels arg => { conf with max_pixels := arg }

/-- The calls of `main` after the options are read (1038-1075). -/
inductive Call where
  /-- `args.generate_helptext(std::cerr)` (1041). -/
  | generate_helptext
  /-- `wait_for_user_confirmation()` (1063). -/
  | wait_for_user_confirmation
  /-- `import_images(conf)` (1073). -/
  | import_images (conf : AppSettings)
  /-- `import_bundle(conf)` (1075). -/
  | import_bundle (conf : AppSettings)
deriving DecidableEq, Repr

/-- `main` (966-1078) for the two non-option arguments, the options in the
order of the command line and the answer of `util::fs::dir_exists` for the
output path (1057): the calls made and the status returned. -/
def main (input_path output_path : String) (opts : List CmdOption)
    (output_path_exists : Bool) : List Call × Int :=
  let conf := opts.foldl read_option (main_defaults input_path output_path)
  if conf.input_path.isEmpty || conf.output_path.isEmpty then
    ([Call.generate_helptext], 1)
  else if conf.append_images && !conf.images_only then
    ([], 1)
  else
    let conf1 :=
      { conf with views_path := conf.output_path ++ "/" ++ "views/",
                  bundle_path := conf.input_path ++ "/" ++ "bundle/" }
    if output_path_exists && !conf1.append_images then
      ([Call.wait_for_user_confirmation,
        if conf1.images_only then Call.import_images conf1 else Call.import_bundle conf1], 0)
    else if !output_path_exists && conf1.append_images then
      ([], 1)
    else
      ([if conf1.images_only then Call.import_images conf1 else Call.import_bundle conf1], 0)

/-! ## `remove_file_extension` (266-273) -/

/-- `std::string::find_last_of(ch)`: the largest position holding `ch`, `none`
for `npos`. -/
def find_last_of (s : List Char) (ch : Char) : Option Nat :=
  match s with
  | [] => none
  | c :: rest =>
    match find_last_of rest ch with
    | some pos => some (pos + 1)
    | none => if c = ch then some 0 else none

/-- `remove_file_extension` (266-273); `substr(0, pos)` is the first `pos`
characters. -/
def remove_file_extension (filename : List Char) : List Char :=
  match find_last_of filename '.' with
  | some pos => filename.take pos
  | none => filename

/-! ## `limit_image_size` (277-284) -/

/-- An image, by its width and height. -/
structure Image where
  width : Nat
  height : Nat
deriving DecidableEq, Repr

/-- `get_pixel_amount()`: width times height. -/
def Image.get_pixel_amount (img : Image) : Nat :=
  img.width * img.height

/-- Modelled from the spec: `mve::image::rescale_half_size` is not among the
embedded sources; half-sizing maps a w x h image to a ceil(w/2) x ceil(h/2)
image. -/
def rescale_half_size (img : Image) : Image :=
  { width := (img.width + 1) / 2, height := (img.height + 1) / 2 }

/-- `limit_image_size` (277-284) with a bound on the number of passes through
the `while` loop: `none` when the loop is still running after `fuel`
passes. -/
def limit_image_size : Nat → Image → Int → Option Image
  | 0, img, max_pixels =>
    if (img.get_pixel_amount : Int) > max_pixels then none else some img
  | fuel + 1, img, max_pixels =>
    if (img.get_pixel_amount : Int) > max_pixels then
      limit_image_size fuel (rescale_half_size img) max_pixels
    else some img

/-! ## `find_max_scene_id` and `import_images` (851-962) -/

/-- `static_cast<int>(n)` for a `std::size_t` n and a 32-bit `int` (878). -/
def static_cast_int (n : Nat) : Int :=
  if n % 2 ^ 32 < 2 ^ 31 then ((n % 2 ^ 32 : Nat) : Int)
  else ((n % 2 ^ 32 : Nat) : Int) - 2 ^ 32

/-- An entry of the scanned views directory: its name and the id of the view
`mve::View::create` loads from it (`none` when loading throws, 867-873). -/
structure SceneFile where
  name : List Char
  view_id : Option Nat
deriving DecidableEq, Repr

/-- `util::string::right(str, 4)`: the last (at most) 4 characters. -/
def right4 (s : List Char) : List Char :=
  s.drop (s.length - 4)

/-- The loop of `find_max_scene_id` (859-876). -/
def max_view_id_loop : List SceneFile → Nat → Nat
  | [], max_view_id => max_view_id
  | f :: rest, max_view_id =>
    if right4 f.name ≠ ['.', 'm', 'v', 'e'] then max_view_id_loop rest max_view_id
    else
      match f.view_id with
      | none => max_view_id_loop rest max_view_id
      | some id => max_view_id_loop rest (max max_view_id id)

/-- `find_max_scene_id` (851-879); `scan` is the result of `dir.scan`, `none`
when it throws. -/
def find_max_scene_id (scan : Option (List SceneFile)) : Int :=
  match scan with
  | none => -1
  | some dir => static_cast_int (max_view_id_loop dir 0)

/-- An entry of the scanned input directory: its name, whether it is a
directory, and whether `load_any_image` returns an image for it (932-935). -/
structure DirEntry where
  name : List Char
  is_dir : Bool
  loadable : Bool
deriving DecidableEq, Repr

/-- A view written by `import_images`: `set_id` (939), `set_name` (940); the
file name `view_NNNN.mve` is made from the id (952-954). -/
structure WrittenView where
  id : Nat
  name : List Char
deriving DecidableEq, Repr

/-- The state of the import loop: the views written so far, `id_cnt` and
`num_imported`. -/
structure ImportState where
  written : List WrittenView
  id_cnt : Nat
  num_imported : Nat
deriving DecidableEq, Repr

/-- The loop over the directory entries (920-959). -/
def import_loop : List DirEntry → ImportState → ImportState
  | [], st => st
  | e :: rest, st =>
    if e.is_dir then import_loop rest st
    else if !e.loadable then import_loop rest st
    else
      import_loop rest
        { written := st.written ++ [{ id := st.id_cnt, name := remove_file_extension e.name }],
          id_cnt := st.id_cnt + 1,
          num_imported := st.num_imported + 1 }

/-- Modelled from the spec: `operator<` of `util::fs::File` is not among the
embedded sources; entries are sorted by file name, lexicographically by
character code. -/
def name_le : List Char → List Char → Bool
  | [], _ => true
  | _ :: _, [] => false
  | a :: as, b :: bs => decide (a.toNat < b.toNat) || (decide (a.toNat = b.toNat) && name_le as bs)

/-- `std::sort(dir.begin(), dir.end())` (917). -/
def sort_dir (dir : List DirEntry) : List DirEntry :=
  dir.insertionSort (fun a b => name_le a.name b.name = true)

/-- The sum `a + b` of two 32-bit `int` values (918).  Signed overflow is
undefined in C++; the sum wraps around as the machine addition does. -/
def int_add (a b : Int) : Int :=
  (a + b + 2 ^ 31) % 2 ^ 32 - 2 ^ 31

/-- `static_cast<std::size_t>(i)` for an `int` i and a 64-bit `std::size_t`
(918). -/
def static_cast_size_t (i : Int) : Nat :=
  (i % 2 ^ 64).toNat

/-- `import_images` (883-962) from line 897 on, for the scanned input
directory and the scan of the views directory: `Except.error 1` is the
`std::exit(1)` at 912; otherwise the final state of the loop, whose
`num_imported` is the number reported at 961. -/
def import_images (conf : AppSettings) (dir : List DirEntry)
    (views_scan : Option (List SceneFile)) : Except Nat ImportState :=
  let max_scene_id : Int := if conf.append_images then find_max_scene_id views_scan else -1
  if conf.append_images ∧ max_scene_id < 0 then Except.error 1
  else
    Except.ok (import_loop (sort_dir dir)
      { written := [], id_cnt := static_cast_size_t (int_add max_scene_id 1),
        num_imported := 0 })

/-! ## Cameras in `import_bundle` (554-847) -/

/-- `BundleFormat` (544-551). -/
inductive BundleFormat where
  | noah_bundler
  | photosynther
  | unknown
deriving DecidableEq, Repr

/-- Modelled from the spec: `mve::CameraInfo` (`mve/camera.h`) is not among
the embedded sources: focal length, rotation (row-major, `rot[0..8]`) and
translation (`trans[0..2]`). -/
structure CameraInfo where
  flen : ℚ
  rot0 : ℚ
  rot1 : ℚ
  rot2 : ℚ
  rot3 : ℚ
  rot4 : ℚ
  rot5 : ℚ
  rot6 : ℚ
  rot7 : ℚ
  rot8 : ℚ
  trans0 : ℚ
  trans1 : ℚ
  trans2 : ℚ
deriving DecidableEq, Repr

/-- Modelled from the spec: `math::matrix_determinant` of the 3x3 rotation
(750-751) is not among the embedded sources; the determinant in exact
arithmetic. -/
def rot_determinant (cam : CameraInfo) : ℚ :=
  cam.rot0 * (cam.rot4 * cam.rot8 - cam.rot5 * cam.rot7)
    - cam.rot1 * (cam.rot3 * cam.rot8 - cam.rot5 * cam.rot6)
    + cam.rot2 * (cam.rot3 * cam.rot7 - cam.rot4 * cam.rot6)

/-- "Check focal length of camera, fix negative focal length." (732-741). -/
def fix_negative_flen (cam : CameraInfo) : CameraInfo :=
  if cam.flen < 0 then
    { flen := -cam.flen,
      rot0 := -cam.rot0, rot1 := -cam.rot1, rot2 := -cam.rot2,
      rot3 := -cam.rot3, rot4 := -cam.rot4, rot5 := -cam.rot5,
      rot6 := -cam.rot6, rot7 := -cam.rot7, rot8 := -cam.rot8,
      trans0 := -cam.trans0, trans1 := -cam.trans1, trans2 := -cam.trans2 }
  else cam

/-- "Convert from Noah Bundler camera conventions." (743-747): negate
`rot[3..8]` and `trans[1..2]`. -/
def negate_lower_rows (cam : CameraInfo) : CameraInfo :=
  { cam with rot3 := -cam.rot3, rot4 := -cam.rot4, rot5 := -cam.rot5,
             rot6 := -cam.rot6, rot7 := -cam.rot7, rot8 := -cam.rot8,
             trans1 := -cam.trans1, trans2 := -cam.trans2 }

/-- The Noah-Bundler fix of a camera (729-747). -/
def noah_convert (cam : CameraInfo) : CameraInfo :=
  negate_lower_rows (fix_negative_flen cam)

/-- What the loop body does with a camera up to line 758. -/
inductive CameraFate where
  /-- "Skipping ...: Invalid camera." (710-716). -/
  | invalid_camera
  /-- "Skipping ...: Bad rotation matrix." (752-757). -/
  | bad_rotation
  /-- The body goes on to create the view with this camera (760-764) and
  writes its file (834). -/
  | view_created (cam : CameraInfo)
deriving DecidableEq, Repr

/-- The loop body from 708 to 764 for one camera. -/
def camera_fate (skip_invalid : Bool) (bundler_fmt : BundleFormat) (cam : CameraInfo) :
    CameraFate :=
  if cam.flen = 0 ∧ (skip_invalid = true ∨ bundler_fmt = BundleFormat.photosynther) then
    CameraFate.invalid_camera
  else if bundler_fmt = BundleFormat.noah_bundler then
    if rot_determinant (noah_convert cam) < 0 then CameraFate.bad_rotation
    else CameraFate.view_created (noah_convert cam)
  else CameraFate.view_created cam

/-- The answers `import_bundle` branches on before its loop. -/
structure BundleEnv where
  /-- The input path ends in ".nvm" and is an existing file (561-562). -/
  is_nvm : Bool
  /-- `views.txt` exists in the input path (581-582). -/
  has_views_txt : Bool
  /-- The file `synth_N.out` exists (600). -/
  synth_exists : Bool
  /-- The file `bundle.out` or `bundle_NNN.out` exists (624). -/
  noah_exists : Bool
  /-- The cameras of the loaded bundle, `none` when the reader throws
  (633-649). -/
  cameras : Option (List CameraInfo)
  /-- The number of names `read_noah_imagelist` returns (668), `none` when it
  cannot read the list file and exits (95-100). -/
  num_orig_files : Option Nat

/-- How `import_bundle` ends. -/
inductive ImportResult where
  /-- `import_bundle_nvm(conf)` was called (565). -/
  | nvm
  /-- `import_bundle_openmvg(conf)` was called (584). -/
  | openmvg
  /-- `std::exit(code)`. -/
  | exited (code : Nat)
  /-- The loop over the cameras was run: the format detected, the value of
  `import_original` in the loop, whether the user was asked to confirm (657),
  and the fate of every camera. -/
  | imported (bundler_fmt : BundleFormat) (import_original : Bool) (asked : Bool)
      (fates : List CameraFate)
deriving DecidableEq, Repr

/-- Format detection (588-629). -/
def detect_format (env : BundleEnv) : BundleFormat :=
  if env.synth_exists then BundleFormat.photosynther
  else if env.noah_exists then BundleFormat.noah_bundler
  else BundleFormat.unknown

/-- `import_bundle` (554-847) up to the fate of each camera. -/
def import_bundle (conf : AppSettings) (env : BundleEnv) : ImportResult :=
  if env.is_nvm then ImportResult.nvm
  else if env.has_views_txt then ImportResult.openmvg
  else
    match detect_format env with
    | BundleFormat.unknown => ImportResult.exited 1
    | BundleFormat.photosynther =>
      match env.cameras with
      | none => ImportResult.exited 1
      | some cams =>
        ImportResult.imported BundleFormat.photosynther false conf.import_orig
          (cams.map (camera_fate conf.skip_invalid BundleFormat.photosynther))
    | BundleFormat.noah_bundler =>
      match env.cameras with
      | none => ImportResult.exited 1
      | some cams =>
        match env.num_orig_files with
        | none => ImportResult.exited 1
        | some num =>
          if num = 0 then ImportResult.exited 1
          else if num ≠ cams.length then ImportResult.exited 1
          else
            ImportResult.imported BundleFormat.noah_bundler conf.import_orig false
              (cams.map (camera_fate conf.skip_invalid BundleFormat.noah_bundler))

/-- A camera as Bundler writes it for an image it did not register: focal
length 0, rotation and translation all zero. -/
def unregistered_camera : CameraInfo :=
  { flen := 0, rot0 := 0, rot1 := 0, rot2 := 0, rot3 := 0, rot4 := 0, rot5 := 0,
    rot6 := 0, rot7 := 0, rot8 := 0, trans0 := 0, trans1 := 0, trans2 := 0 }

/-- A camera with focal length 0 whose rotation entries are those of a
reflection, `diag(-1, 1, 1)`. -/
def mirrored_camera : CameraInfo :=
  { flen := 0, rot0 := -1, rot1 := 0, rot2 := 0, rot3 := 0, rot4 := 1, rot5 := 0,
    rot6 := 0, rot7 := 0, rot8 := 1, trans0 := 0, trans1 := 0, trans2 := 0 }

/-- The settings of `makescene --keep-invalid in out` (1003-1044). -/
def keep_invalid_settings : AppSettings :=
  (read_option (main_defaults "in" "out") CmdOption.keep_invalid)

/-- An input directory holding a Noah-Bundler bundle of one camera, with
one original image listed. -/
def noah_bundle_of (cam : CameraInfo) : BundleEnv :=
  { is_nvm := false, has_views_txt := false, synth_exists := false, noah_exists := true,
    cameras := some [cam], num_orig_files := some 1 }

end MakeScene

namespace SfmRecon

/-! ## Lemmas on the growth loop -/

theorem ceil_div_le_iff (L d q : Nat) (hd : 0 < d) : ceil_div L d ≤ q ↔ L ≤ q * d := by
  unfold ceil_div
  rw [← Nat.lt_succ_iff, Nat.div_lt_iff_lt_mul hd, Nat.succ_mul]
  omega

theorem try_next_views_fst_decisions (cands : List (Int × Bool)) :
    ba_decisions (try_next_views cands).1 = [] := by
  induction cands with
  | nil => rfl
  | cons x rest ih =>
    obtain ⟨v, ok⟩ := x
    cases ok
    · simpa [try_next_views, ba_decisions, ba_decision] using ih
    · simp [try_next_views, ba_decisions, ba_decision]

theorem try_next_views_nonneg_iff (cands : List (Int × Bool)) (hv : valid_view_ids cands) :
    0 ≤ (try_next_views cands).2 ↔ ∃ x ∈ cands, x.2 = true := by
  induction cands with
  | nil => simp [try_next_views]
  | cons x rest ih =>
    obtain ⟨v, ok⟩ := x
    have hv0 : 0 ≤ v := hv (v, ok) (List.mem_cons_self _ _)
    have hvr : valid_view_ids rest := fun y hy => hv y (List.mem_cons_of_mem _ hy)
    cases ok
    · simpa [try_next_views] using ih hvr
    · simpa [try_next_views] using hv0

theorem growth_loop_view_addition (conf : AppSettings) (cands : List (Int × Bool))
    (script : List (List (Int × Bool))) (n c : Nat) (h : view_addition cands) :
    growth_loop conf (cands :: script) n c =
      if c < full_ba_skip_views conf (n + 1) then
        (growth_loop conf script (n + 1) (c + 1)).after
          (Event.find_next_views (cands.map Prod.fst)
            :: (try_next_views cands).1
            ++ [Event.bundle_adjustment_single_cam (try_next_views cands).2,
                Event.triangulate_new_tracks,
                Event.invalidate_large_error_tracks,
                Event.skip_full_ba (full_ba_skip_views conf (n + 1))])
      else
        (growth_loop conf script (n + 1) 0).after
          (Event.find_next_views (cands.map Prod.fst)
            :: (try_next_views cands).1
            ++ [Event.bundle_adjustment_single_cam (try_next_views cands).2,
                Event.triangulate_new_tracks,
                Event.invalidate_large_error_tracks,
                Event.bundle_adjustment_full]) := by
  have hne : cands.isEmpty = false := by
    obtain ⟨_, x, hx, _⟩ := h
    cases cands with
    | nil => simp at hx
    | cons _ _ => rfl
  have hpos : ¬ (try_next_views cands).2 < 0 :=
    not_lt.mpr ((try_next_views_nonneg_iff cands h.1).mpr h.2)
  rw [growth_loop]
  simp only [hne, hpos, if_false, Bool.false_eq_true]

theorem growth_loop_decisions (conf : AppSettings) (script : List (List (Int × Bool)))
    (hs : ∀ cands ∈ script, view_addition cands) (n c : Nat) :
    ba_decisions (growth_loop conf script n c).events = ba_schedule conf script.length n c
    ∧ (growth_loop conf script n c).full_ba_num_skipped = skipped_after conf script.length n c
    ∧ (growth_loop conf script n c).num_cameras_reconstructed = n + script.length
    ∧ (growth_loop conf script n c).status = LoopStatus.pending := by
  induction script generalizing n c with
  | nil => simp [growth_loop, ba_decisions, ba_schedule, skipped_after]
  | cons cands script ih =>
    have hc : view_addition cands := hs cands (List.mem_cons_self _ _)
    have hr : ∀ x ∈ script, view_addition x := fun x hx => hs x (List.mem_cons_of_mem _ hx)
    rw [growth_loop_view_addition conf cands script n c hc]
    have htry := try_next_views_fst_decisions cands
    unfold ba_decisions at htry
    by_cases hlt : c < full_ba_skip_views conf (n + 1)
    · obtain ⟨h1, h2, h3, h4⟩ := ih hr (n + 1) (c + 1)
      unfold ba_decisions at h1
      simp only [hlt, if_true, Growth.after, List.length_cons, ba_schedule, skipped_after]
      refine ⟨?_, h2, ?_, h4⟩
      · simp [ba_decisions, List.filterMap_append, List.filterMap_cons, ba_decision, htry, h1]
      · rw [h3]; omega
    · obtain ⟨h1, h2, h3, h4⟩ := ih hr (n + 1) 0
      unfold ba_decisions at h1
      simp only [hlt, if_false, Growth.after, List.length_cons, ba_schedule, skipped_after]
      refine ⟨?_, h2, ?_, h4⟩
      · simp [ba_decisions, List.filterMap_append, List.filterMap_cons, ba_decision, htry, h1]
      · rw [h3]; omega

/-! ## Lemmas on the schedule of full bundle adjustment -/

theorem full_ba_runs_eq_count (evs : List Event) :
    full_ba_runs evs = (ba_decisions evs).count true := by
  induction evs with
  | nil => rfl
  | cons e rest ih =>
    unfold full_ba_runs ba_decisions at *
    cases e <;> simp [List.count_cons, List.filterMap_cons, ba_decision, ih]

theorem ba_schedule_constant (conf : AppSettings) (s d : Nat) :
    ∀ n c, c + d = s → (∀ k, k < d + 1 → full_ba_skip_views conf (n + 1 + k) = s) →
      ba_schedule conf (d + 1) n c = List.replicate d false ++ [true]
      ∧ skipped_after conf (d + 1) n c = 0 := by
  induction d with
  | zero =>
    intro n c hc hk
    have h0 := hk 0 (by omega)
    simp only [Nat.add_zero] at h0 hc
    simp [ba_schedule, skipped_after, h0, hc]
  | succ d ih =>
    intro n c hc hk
    have h0 := hk 0 (by omega)
    simp only [Nat.add_zero] at h0
    have hlt : c < full_ba_skip_views conf (n + 1) := by omega
    have hrest := ih (n + 1) (c + 1) (by omega) (fun k hk' => by
      have := hk (k + 1) (by omega)
      rw [← this]; congr 1; omega)
    rw [ba_schedule, skipped_after]
    simp only [hlt, if_true, hrest.1, hrest.2, List.replicate_succ, List.cons_append, and_self]

theorem ba_schedule_count_le (conf : AppSettings) (s L : Nat) :
    ∀ n c, (∀ k, k < L → full_ba_skip_views conf (n + 1 + k) = s) →
      (ba_schedule conf L n c).count true ≤ (L + min c s) / (s + 1) := by
  induction L with
  | zero => intro n c _; simp [ba_schedule]
  | succ L ih =>
    intro n c hk
    have h0 := hk 0 (by omega)
    simp only [Nat.add_zero] at h0
    have hrest : ∀ k, k < L → full_ba_skip_views conf (n + 1 + 1 + k) = s := fun k hk' => by
      have := hk (k + 1) (by omega)
      rw [← this]; congr 1; omega
    rw [ba_schedule, h0]
    by_cases hlt : c < s
    · simp only [hlt, if_true]
      have h1 := ih (n + 1) (c + 1) hrest
      have e1 : L + min (c + 1) s = L + 1 + min c s := by omega
      rw [e1] at h1
      simpa using h1
    · simp only [hlt, if_false]
      have h1 := ih (n + 1) 0 hrest
      have e1 : L + 1 + min c s = L + (s + 1) := by omega
      have e2 : L + min 0 s = L := by omega
      rw [e2] at h1
      have e3 : (L + (s + 1)) / (s + 1) = L / (s + 1) + 1 :=
        Nat.add_div_right L (Nat.succ_pos s)
      rw [e1, e3]
      simp only [List.count_cons_self]
      omega

theorem ba_schedule_stretch (conf : AppSettings) (s L n c : Nat)
    (hk : ∀ k, k < L → full_ba_skip_views conf (n + 1 + k) = s) :
    (ba_schedule conf L n c).count true ≤ ceil_div L (s + 1) := by
  have h := ba_schedule_count_le conf s L n c hk
  have hle : (L + min c s) / (s + 1) ≤ (L + s) / (s + 1) :=
    Nat.div_le_div_right (by omega)
  unfold ceil_div
  simpa using le_trans h hle

theorem ba_schedule_append (conf : AppSettings) (L1 L2 : Nat) :
    ∀ n c, ba_schedule conf (L1 + L2) n c =
      ba_schedule conf L1 n c ++ ba_schedule conf L2 (n + L1) (skipped_after conf L1 n c) := by
  induction L1 with
  | zero => intro n c; simp [ba_schedule, skipped_after]
  | succ L1 ih =>
    intro n c
    have e : L1 + 1 + L2 = (L1 + L2) + 1 := by omega
    have e2 : n + (L1 + 1) = n + 1 + L1 := by omega
    rw [e, ba_schedule, ba_schedule, skipped_after, e2]
    by_cases hlt : c < full_ba_skip_views conf (n + 1)
    · simp only [hlt, if_true, ih, List.cons_append]
    · simp only [hlt, if_false, ih, List.cons_append]

theorem ba_schedule_split_le (conf : AppSettings) (s L1 L2 n c : Nat)
    (hk : ∀ k, k < L1 → full_ba_skip_views conf (n + 1 + k) = s) :
    ∃ c1, (ba_schedule conf (L1 + L2) n c).count true
      ≤ ceil_div L1 (s + 1) + (ba_schedule conf L2 (n + L1) c1).count true := by
  refine ⟨skipped_after conf L1 n c, ?_⟩
  rw [ba_schedule_append, List.count_append]
  exact Nat.add_le_add_right (ba_schedule_stretch conf s L1 n c hk) _

theorem try_next_views_fst_additions (cands : List (Int × Bool)) :
    view_additions (try_next_views cands).1 = 0 := by
  induction cands with
  | nil => rfl
  | cons x rest ih =>
    obtain ⟨v, ok⟩ := x
    cases ok
    · simpa [try_next_views, view_additions, is_single_cam] using ih
    · simp [try_next_views, view_additions, is_single_cam]

theorem growth_loop_always_full_ba (conf : AppSettings) (h : conf.always_full_ba = true)
    (script : List (List (Int × Bool))) :
    ∀ n, ba_decisions (growth_loop conf script n 0).events
        = List.replicate (view_additions (growth_loop conf script n 0).events) true
      ∧ (growth_loop conf script n 0).full_ba_num_skipped = 0 := by
  have hs : ∀ m, full_ba_skip_views conf m = 0 := fun m => by simp [full_ba_skip_views, h]
  induction script with
  | nil => intro n; simp [growth_loop, ba_decisions, view_additions]
  | cons cands script ih =>
    intro n
    have hd := try_next_views_fst_decisions cands
    have ha := try_next_views_fst_additions cands
    unfold ba_decisions at hd
    unfold view_additions at ha
    obtain ⟨h1, h2⟩ := ih (n + 1)
    unfold ba_decisions view_additions at h1
    rw [growth_loop]
    simp only [hs, Nat.lt_irrefl, if_false]
    split_ifs
    · simp [ba_decisions, view_additions, ba_decision, is_single_cam]
    · simp [ba_decisions, view_additions, ba_decision, is_single_cam, hd, ha]
    · refine ⟨?_, h2⟩
      simp [ba_decisions, view_additions, Growth.after, List.filterMap_append,
        List.countP_cons, List.countP_append, ba_decision, is_single_cam, hd, ha, h1,
        List.replicate_succ]

/-! ## Throttling of full bundle adjustment -/

/-- C1: with `always_full_ba = false`, a successful view addition from the loop
state (n, c) computes the skip value min(5, (n + 1) / 15) for the new camera
count n + 1; the addition is skipped (decision `false`) iff c is below that
value, the counter then becoming c + 1, and otherwise full bundle adjustment
runs (decision `true`) and the counter becomes 0.  Consequently, after a full
bundle adjustment (counter 0) and while the skip value stays s, the next s
additions are skipped and the one after them runs full bundle adjustment. -/
theorem full_ba_throttle_schedule (conf : AppSettings) (h : conf.always_full_ba = false)
    (cands : List (Int × Bool)) (hadd : view_addition cands) (n c : Nat)
    (script : List (List (Int × Bool))) (hs : ∀ x ∈ script, view_addition x)
    (m s : Nat) (hlen : script.length = s + 1)
    (hconst : ∀ k, k < s + 1 → min 5 ((m + 1 + k) / 15) = s) :
    full_ba_skip_views conf (n + 1) = min 5 ((n + 1) / 15)
    ∧ (growth_loop conf [cands] n c).num_cameras_reconstructed = n + 1
    ∧ ba_decisions (growth_loop conf [cands] n c).events
        = [!decide (c < min 5 ((n + 1) / 15))]
    ∧ (growth_loop conf [cands] n c).full_ba_num_skipped
        = (if c < min 5 ((n + 1) / 15) then c + 1 else 0)
    ∧ ba_decisions (growth_loop conf script m 0).events = List.replicate s false ++ [true]
    ∧ (growth_loop conf script m 0).full_ba_num_skipped = 0 := by
  have hsv : ∀ k, full_ba_skip_views conf k = min 5 (k / 15) := fun k => by
    simp [full_ba_skip_views, h]
  have hone := growth_loop_decisions conf [cands]
    (fun x hx => by rw [List.mem_singleton.mp hx]; exact hadd) n c
  have hrun := growth_loop_decisions conf script hs m 0
  have hsched := ba_schedule_constant conf s s m 0 (by omega)
    (fun k hk => by rw [hsv]; exact hconst k hk)
  refine ⟨hsv _, ?_, ?_, ?_, ?_, ?_⟩
  · simpa using hone.2.2.1
  · rw [hone.1]
    by_cases hlt : c < min 5 ((n + 1) / 15)
    · simp [ba_schedule, hsv, hlt]
    · simp [ba_schedule, hsv, hlt]
  · rw [hone.2.1]
    by_cases hlt : c < min 5 ((n + 1) / 15)
    · simp [skipped_after, hsv, hlt]
    · simp [skipped_after, hsv, hlt]
  · rw [hrun.1, hlen]; exact hsched.1
  · rw [hrun.2.1, hlen]; exact hsched.2

theorem full_ba_throttle_schedule_witness :
    default_settings.always_full_ba = false
    ∧ view_addition [(7, false), (9, true)]
    ∧ (∀ x ∈ [[((3 : Int), true)], [(4, true)]], view_addition x)
    ∧ ([[((3 : Int), true)], [(4, true)]].length = 1 + 1)
    ∧ (∀ k, k < 1 + 1 → min 5 ((14 + 1 + k) / 15) = 1)
    ∧ (full_ba_skip_views default_settings (29 + 1) = min 5 ((29 + 1) / 15)
      ∧ (growth_loop default_settings [[(7, false), (9, true)]] 29 1).num_cameras_reconstructed
          = 29 + 1
      ∧ ba_decisions (growth_loop default_settings [[(7, false), (9, true)]] 29 1).events
          = [!decide (1 < min 5 ((29 + 1) / 15))]
      ∧ (growth_loop default_settings [[(7, false), (9, true)]] 29 1).full_ba_num_skipped
          = (if 1 < min 5 ((29 + 1) / 15) then 1 + 1 else 0)
      ∧ ba_decisions (growth_loop default_settings [[(3, true)], [(4, true)]] 14 0).events
          = List.replicate 1 false ++ [true]
      ∧ (growth_loop default_settings [[(3, true)], [(4, true)]] 14 0).full_ba_num_skipped = 0) :=
  ⟨rfl, by decide, by decide, rfl, by omega,
    full_ba_throttle_schedule default_settings rfl [(7, false), (9, true)] (by decide) 29 1
      [[(3, true)], [(4, true)]] (by decide) 14 1 rfl (by omega)⟩

/-- C3: with `always_full_ba = false`, a stretch of L successive view additions
(here `script`, started in any loop state (n, c)) during which the skip value
min(5, n / 15) is constantly s runs full bundle adjustment at most
ceil(L / (s + 1)) times inside the loop; and 150 successive additions after
the seed pair (camera counts 3 to 152) run it at most
ceil(12/1) + ceil(15/2) + ceil(15/3) + ceil(15/4) + ceil(15/5) + ceil(78/6)
times, the sum of the bounds of the six stretches s = 0, ..., 5. -/
theorem full_ba_runs_bound (conf : AppSettings) (h : conf.always_full_ba = false)
    (script : List (List (Int × Bool))) (hs : ∀ x ∈ script, view_addition x)
    (n c s : Nat) (hconst : ∀ k, k < script.length → min 5 ((n + 1 + k) / 15) = s)
    (script150 : List (List (Int × Bool))) (hs150 : ∀ x ∈ script150, view_addition x)
    (hlen : script150.length = 150) :
    full_ba_runs (growth_loop conf script n c).events ≤ ceil_div script.length (s + 1)
    ∧ (growth_loop conf script150 2 0).num_cameras_reconstructed = 152
    ∧ full_ba_runs (growth_loop conf script150 2 0).events
        ≤ ceil_div 12 1 + ceil_div 15 2 + ceil_div 15 3 + ceil_div 15 4 + ceil_div 15 5
          + ceil_div 78 6 := by
  have hsv : ∀ k, full_ba_skip_views conf k = min 5 (k / 15) := fun k => by
    simp [full_ba_skip_views, h]
  refine ⟨?_, ?_, ?_⟩
  · rw [full_ba_runs_eq_count, (growth_loop_decisions conf script hs n c).1]
    exact ba_schedule_stretch conf s script.length n c (fun k hk => by
      rw [hsv]; exact hconst k hk)
  · rw [(growth_loop_decisions conf script150 hs150 2 0).2.2.1, hlen]
  · rw [full_ba_runs_eq_count, (growth_loop_decisions conf script150 hs150 2 0).1, hlen]
    obtain ⟨c1, h1⟩ := ba_schedule_split_le conf 0 12 138 2 0
      (fun k hk => by rw [hsv]; omega)
    obtain ⟨c2, h2⟩ := ba_schedule_split_le conf 1 15 123 (2 + 12) c1
      (fun k hk => by rw [hsv]; omega)
    obtain ⟨c3, h3⟩ := ba_schedule_split_le conf 2 15 108 (2 + 12 + 15) c2
      (fun k hk => by rw [hsv]; omega)
    obtain ⟨c4, h4⟩ := ba_schedule_split_le conf 3 15 93 (2 + 12 + 15 + 15) c3
      (fun k hk => by rw [hsv]; omega)
    obtain ⟨c5, h5⟩ := ba_schedule_split_le conf 4 15 78 (2 + 12 + 15 + 15 + 15) c4
      (fun k hk => by rw [hsv]; omega)
    have h6 := ba_schedule_stretch conf 5 78 (2 + 12 + 15 + 15 + 15 + 15) c5
      (fun k hk => by rw [hsv]; omega)
    simp only [Nat.reduceAdd] at h1 h2 h3 h4 h5 h6 ⊢
    omega

theorem full_ba_runs_bound_witness :
    default_settings.always_full_ba = false
    ∧ (∀ x ∈ List.replicate 15 [((4 : Int), false), (6, true)], view_addition x)
    ∧ (∀ k, k < (List.replicate 15 [((4 : Int), false), (6, true)]).length →
        min 5 ((29 + 1 + k) / 15) = 2)
    ∧ (∀ x ∈ List.replicate 150 [((8 : Int), true)], view_addition x)
    ∧ (List.replicate 150 [((8 : Int), true)]).length = 150
    ∧ (full_ba_runs (growth_loop default_settings
          (List.replicate 15 [((4 : Int), false), (6, true)]) 29 7).events
        ≤ ceil_div (List.replicate 15 [((4 : Int), false), (6, true)]).length (2 + 1)
      ∧ (growth_loop default_settings
          (List.replicate 150 [((8 : Int), true)]) 2 0).num_cameras_reconstructed = 152
      ∧ full_ba_runs (growth_loop default_settings
          (List.replicate 150 [((8 : Int), true)]) 2 0).events
        ≤ ceil_div 12 1 + ceil_div 15 2 + ceil_div 15 3 + ceil_div 15 4 + ceil_div 15 5
          + ceil_div 78 6) :=
  ⟨rfl,
    fun x hx => by rw [List.eq_of_mem_replicate hx]; decide,
    fun k hk => by rw [List.length_replicate] at hk; omega,
    fun x hx => by rw [List.eq_of_mem_replicate hx]; decide,
    List.length_replicate _ _,
    full_ba_runs_bound default_settings rfl
      (List.replicate 15 [((4 : Int), false), (6, true)])
      (fun x hx => by rw [List.eq_of_mem_replicate hx]; decide) 29 7 2
      (fun k hk => by rw [List.length_replicate] at hk; omega)
      (List.replicate 150 [((8 : Int), true)])
      (fun x hx => by rw [List.eq_of_mem_replicate hx]; decide)
      (List.length_replicate _ _)⟩

/-- C4: with `always_full_ba = true` the skip value is 0 for every camera
count; started with counter 0 the growth loop never skips, the counter stays
0, every view addition is followed by a run of full bundle adjustment (the
decisions of the loop are one `true` per added view, and the events of an
iteration that adds a view end with `bundle_adjustment_full`), and the final
bundle adjustment after the loop is not run. -/
theorem always_full_ba_every_view (conf : AppSettings) (h : conf.always_full_ba = true)
    (script : List (List (Int × Bool))) (n : Nat)
    (cands : List (Int × Bool)) (hadd : view_addition cands) :
    (∀ m, full_ba_skip_views conf m = 0)
    ∧ (∀ e ∈ (growth_loop conf script n 0).events, ba_decision e ≠ some false)
    ∧ (growth_loop conf script n 0).full_ba_num_skipped = 0
    ∧ ba_decisions (growth_loop conf script n 0).events
        = List.replicate (view_additions (growth_loop conf script n 0).events) true
    ∧ final_bundle_adjustment (growth_loop conf script n 0).full_ba_num_skipped = []
    ∧ (growth_loop conf [cands] n 0).events
        = Event.find_next_views (cands.map Prod.fst) :: (try_next_views cands).1
          ++ [Event.bundle_adjustment_single_cam (try_next_views cands).2,
              Event.triangulate_new_tracks,
              Event.invalidate_large_error_tracks,
              Event.bundle_adjustment_full] := by
  have hsv : ∀ m, full_ba_skip_views conf m = 0 := fun m => by simp [full_ba_skip_views, h]
  obtain ⟨h1, h2⟩ := growth_loop_always_full_ba conf h script n
  refine ⟨hsv, ?_, h2, h1, ?_, ?_⟩
  · intro e he hfalse
    have hmem : false ∈ ba_decisions (growth_loop conf script n 0).events := by
      unfold ba_decisions
      exact List.mem_filterMap.mpr ⟨e, he, hfalse⟩
    rw [h1] at hmem
    simpa using List.eq_of_mem_replicate hmem
  · simp [final_bundle_adjustment, h2]
  · rw [growth_loop_view_addition conf cands [] n 0 hadd]
    simp [hsv, growth_loop, Growth.after]

theorem always_full_ba_every_view_witness :
    ({ default_settings with always_full_ba := true } : AppSettings).always_full_ba = true
    ∧ view_addition [(5, false), (3, true)]
    ∧ ((∀ m, full_ba_skip_views { default_settings with always_full_ba := true } m = 0)
      ∧ (∀ e ∈ (growth_loop { default_settings with always_full_ba := true }
            (List.replicate 40 [((1 : Int), true)] ++ [[]]) 2 0).events,
          ba_decision e ≠ some false)
      ∧ (growth_loop { default_settings with always_full_ba := true }
            (List.replicate 40 [((1 : Int), true)] ++ [[]]) 2 0).full_ba_num_skipped = 0
      ∧ ba_decisions (growth_loop { default_settings with always_full_ba := true }
            (List.replicate 40 [((1 : Int), true)] ++ [[]]) 2 0).events
          = List.replicate (view_additions (growth_loop
              { default_settings with always_full_ba := true }
              (List.replicate 40 [((1 : Int), true)] ++ [[]]) 2 0).events) true
      ∧ final_bundle_adjustment (growth_loop { default_settings with always_full_ba := true }
            (List.replicate 40 [((1 : Int), true)] ++ [[]]) 2 0).full_ba_num_skipped = []
      ∧ (growth_loop { default_settings with always_full_ba := true }
            [[(5, false), (3, true)]] 2 0).events
          = Event.find_next_views ([((5 : Int), false), (3, true)].map Prod.fst)
            :: (try_next_views [(5, false), (3, true)]).1
            ++ [Event.bundle_adjustment_single_cam (try_next_views [(5, false), (3, true)]).2,
                Event.triangulate_new_tracks,
                Event.invalidate_large_error_tracks,
                Event.bundle_adjustment_full]) :=
  ⟨rfl, by decide,
    always_full_ba_every_view { default_settings with always_full_ba := true } rfl
      (List.replicate 40 [((1 : Int), true)] ++ [[]]) 2 [(5, false), (3, true)] (by decide)⟩

/-! ## The final bundle adjustment -/

theorem growth_loop_skipped_pos (conf : AppSettings) (script : List (List (Int × Bool))) :
    ∀ n c, 0 < (growth_loop conf script n c).full_ba_num_skipped
      ↔ (ba_decisions (growth_loop conf script n c).events).getLast?.getD (decide (c = 0))
          = false := by
  induction script with
  | nil => intro n c; simp [growth_loop, ba_decisions, Nat.pos_iff_ne_zero]
  | cons cands script ih =>
    intro n c
    have hd := try_next_views_fst_decisions cands
    unfold ba_decisions at hd
    rw [growth_loop]
    split_ifs
    · simp [ba_decisions, ba_decision, Nat.pos_iff_ne_zero]
    · simp [ba_decisions, ba_decision, hd, Nat.pos_iff_ne_zero]
    · have h1 := ih (n + 1) (c + 1)
      unfold ba_decisions at h1
      simp only [Growth.after, ba_decisions, List.filterMap_cons, List.filterMap_append, hd,
        ba_decision, List.nil_append, List.filterMap_nil, List.cons_append,
        List.getLast?_cons, Option.getD_some]
      simpa using h1
    · have h1 := ih (n + 1) 0
      unfold ba_decisions at h1
      simp only [Growth.after, ba_decisions, List.filterMap_cons, List.filterMap_append, hd,
        ba_decision, List.nil_append, List.filterMap_nil, List.cons_append,
        List.getLast?_cons, Option.getD_some]
      simpa using h1

/-- C2, as the code has it: the final full bundle adjustment after the growth
loop is executed iff the counter of additions skipped since the last in-loop
full bundle adjustment is positive when the loop is left, that is, iff the
most recent decision of the loop was to skip; it is not executed when there
was no decision or the most recent one was a run of full bundle adjustment,
however many additions were skipped before that run. -/
theorem final_full_ba_iff_last_skipped (conf : AppSettings)
    (script : List (List (Int × Bool))) :
    (final_bundle_adjustment (growth_loop conf script 2 0).full_ba_num_skipped
        = [Event.bundle_adjustment_full]
      ↔ (ba_decisions (growth_loop conf script 2 0).events).getLast? = some false)
    ∧ (final_bundle_adjustment (growth_loop conf script 2 0).full_ba_num_skipped = []
      ↔ (ba_decisions (growth_loop conf script 2 0).events).getLast? ≠ some false) := by
  have h := growth_loop_skipped_pos conf script 2 0
  have hlast : (ba_decisions (growth_loop conf script 2 0).events).getLast?.getD
        (decide (0 = 0)) = false
      ↔ (ba_decisions (growth_loop conf script 2 0).events).getLast? = some false := by
    cases (ba_decisions (growth_loop conf script 2 0).events).getLast? <;> simp
  rw [hlast] at h
  unfold final_bundle_adjustment
  by_cases hp : 0 < (growth_loop conf script 2 0).full_ba_num_skipped
  · have := h.mp hp
    simp [hp, this]
  · have hn : ¬ (ba_decisions (growth_loop conf script 2 0).events).getLast? = some false :=
      fun hc => hp (h.mpr hc)
    simp [hp, hn]

/-- C2 fails as stated: in the run `sixteen_views` the addition of the 15th
camera is skipped (skip value 1), the addition of the 16th runs full bundle
adjustment in the loop, and after the loop is left no final bundle adjustment
is executed: the run goes on with the normalization. -/
theorem final_full_ba_skipped_earlier :
    Event.skip_full_ba 1 ∈ (sfm_reconstruct default_settings sixteen_views).trace
    ∧ (sfm_reconstruct default_settings sixteen_views).outcome = Outcome.returned
    ∧ (sfm_reconstruct default_settings sixteen_views).trace.dropWhile
        (fun e => decide (e ≠ Event.find_next_views []))
      = [Event.find_next_views [], Event.normalize_scene, Event.create_bundle,
          Event.save_mve_bundle, Event.apply_bundle_cameras] := by
  decide

/-! ## Leaving the growth loop -/

theorem growth_loop_cons_status (conf : AppSettings) (cands : List (Int × Bool))
    (script : List (List (Int × Bool))) (n c : Nat) (hv : valid_view_ids cands) :
    (growth_loop conf (cands :: script) n c).status
      = (if cands = [] then LoopStatus.finished
        else if ∀ x ∈ cands, x.2 = false then LoopStatus.no_valid_view
        else (growth_loop conf script (n + 1)
          (if c < full_ba_skip_views conf (n + 1) then c + 1 else 0)).status) := by
  have hiff := try_next_views_nonneg_iff cands hv
  rw [growth_loop]
  by_cases he : cands = []
  · simp [he]
  · have hne : cands.isEmpty = false := by
      cases cands with
      | nil => exact absurd rfl he
      | cons _ _ => rfl
    simp only [hne, he, if_false, Bool.false_eq_true]
    by_cases hall : ∀ x ∈ cands, x.2 = false
    · have hneg : (try_next_views cands).2 < 0 := by
        by_contra hcon
        obtain ⟨x, hx, hxt⟩ := hiff.mp (not_lt.mp hcon)
        rw [hall x hx] at hxt
        exact Bool.false_ne_true hxt
      rw [if_pos hneg, if_pos hall]
    · have hpos : ¬ (try_next_views cands).2 < 0 := by
        apply not_lt.mpr
        apply hiff.mpr
        by_contra hcon
        apply hall
        intro x hx
        cases hxt : x.2
        · rfl
        · exact absurd ⟨x, hx, hxt⟩ hcon
      rw [if_neg hpos, if_neg hall]
      by_cases hlt : c < full_ba_skip_views conf (n + 1)
      · simp [hlt, Growth.after]
      · simp [hlt, Growth.after]

theorem growth_loop_left_iff (conf : AppSettings) (script : List (List (Int × Bool)))
    (hvs : ∀ x ∈ script, valid_view_ids x) :
    ∀ n c, (growth_loop conf script n c).status ≠ LoopStatus.pending
      ↔ ∃ cands ∈ script, cands = [] ∨ ∀ x ∈ cands, x.2 = false := by
  induction script with
  | nil => intro n c; simp [growth_loop]
  | cons cands script ih =>
    intro n c
    have hv : valid_view_ids cands := hvs cands (List.mem_cons_self _ _)
    have hr : ∀ x ∈ script, valid_view_ids x := fun x hx => hvs x (List.mem_cons_of_mem _ hx)
    rw [growth_loop_cons_status conf cands script n c hv]
    by_cases he : cands = []
    · simp [he]
    · by_cases hall : ∀ x ∈ cands, x.2 = false
      · rw [if_neg he, if_pos hall]
        constructor
        · intro _
          exact ⟨cands, List.mem_cons_self _ _, Or.inr hall⟩
        · intro _ hcon
          cases hcon
      · rw [if_neg he, if_neg hall, ih hr]
        constructor
        · rintro ⟨x, hx, hstop⟩
          exact ⟨x, List.mem_cons_of_mem _ hx, hstop⟩
        · rintro ⟨x, hx, hstop⟩
          rcases List.mem_cons.mp hx with rfl | hx'
          · rcases hstop with h1 | h2
            · exact absurd h1 he
            · exact absurd h2 hall
          · exact ⟨x, hx', hstop⟩

/-- C5: an iteration of the growth loop leaves the loop exactly when
`find_next_views` answers with the empty list (status `finished`) or
`reconstruct_next_view` fails for every candidate of the list (status
`no_valid_view`), and otherwise the loop goes on with the next iteration; so
the loop is left iff one of the answers is of these two kinds.  Once it is
left, for either reason, the run goes on with one more full bundle
adjustment exactly when `full_ba_num_skipped` is positive, then with
`normalize_scene`, `create_bundle` and `save_mve_bundle`; the only exit with
status 1 from there on is the camera-count check after the bundle has been
created. -/
theorem growth_loop_exit_is_normal (conf : AppSettings) (cands : List (Int × Bool))
    (script : List (List (Int × Bool))) (n c : Nat) (hv : valid_view_ids cands)
    (hvs : ∀ x ∈ script, valid_view_ids x)
    (env : Env) (view_1_id view_2_id : Int)
    (hleft : (growth_loop conf env.growth 2 0).status ≠ LoopStatus.pending) :
    (growth_loop conf (cands :: script) n c).status
      = (if cands = [] then LoopStatus.finished
        else if ∀ x ∈ cands, x.2 = false then LoopStatus.no_valid_view
        else (growth_loop conf script (n + 1)
          (if c < full_ba_skip_views conf (n + 1) then c + 1 else 0)).status)
    ∧ ((growth_loop conf script n c).status ≠ LoopStatus.pending
      ↔ ∃ cands ∈ script, cands = [] ∨ ∀ x ∈ cands, x.2 = false)
    ∧ (incremental_sfm conf env view_1_id view_2_id).trace
      = [Event.pairwise_matching_clear, Event.incremental_init,
          Event.reconstruct_initial_pair view_1_id view_2_id,
          Event.triangulate_new_tracks, Event.invalidate_large_error_tracks,
          Event.bundle_adjustment_full]
        ++ (growth_loop conf env.growth 2 0).events
        ++ (if 0 < (growth_loop conf env.growth 2 0).full_ba_num_skipped
            then [Event.bundle_adjustment_full] else [])
        ++ [Event.normalize_scene, Event.create_bundle, Event.save_mve_bundle]
        ++ (if env.bundle_cameras = env.scene_views then [Event.apply_bundle_cameras] else [])
    ∧ (incremental_sfm conf env view_1_id view_2_id).outcome
      = (if env.bundle_cameras = env.scene_views then Outcome.returned
        else Outcome.exited 1) := by
  refine ⟨growth_loop_cons_status conf cands script n c hv,
    growth_loop_left_iff conf script hvs n c, ?_, ?_⟩
  · unfold incremental_sfm finish_reconstruction final_bundle_adjustment
    cases hst : (growth_loop conf env.growth 2 0).status with
    | pending => exact absurd hst hleft
    | finished =>
      by_cases hcam : env.bundle_cameras = env.scene_views
      · simp [Run.after, hcam]
      · simp [Run.after, hcam]
    | no_valid_view =>
      by_cases hcam : env.bundle_cameras = env.scene_views
      · simp [Run.after, hcam]
      · simp [Run.after, hcam]
  · unfold incremental_sfm finish_reconstruction
    cases hst : (growth_loop conf env.growth 2 0).status with
    | pending => exact absurd hst hleft
    | finished =>
      by_cases hcam : env.bundle_cameras = env.scene_views
      · simp [Run.after, hcam]
      · simp [Run.after, hcam]
    | no_valid_view =>
      by_cases hcam : env.bundle_cameras = env.scene_views
      · simp [Run.after, hcam]
      · simp [Run.after, hcam]

theorem growth_loop_exit_is_normal_witness :
    valid_view_ids [(4, false), (5, false)]
    ∧ (∀ x ∈ [[((6 : Int), true)], []], valid_view_ids x)
    ∧ (growth_loop default_settings
        (sixteen_views.growth.take 13 ++ [[(15, false)]]) 2 0).status
        = LoopStatus.no_valid_view
    ∧ (growth_loop default_settings
        (sixteen_views.growth.take 13 ++ [[(15, false)]]) 2 0).full_ba_num_skipped = 1
    ∧ (growth_loop default_settings ([(4, false), (5, false)] :: [[(6, true)], []]) 2 0).status
        = LoopStatus.no_valid_view
    ∧ (incremental_sfm default_settings
        { sixteen_views with
          growth := sixteen_views.growth.take 13 ++ [[(15, false)]],
          bundle_cameras := 15, scene_views := 15 } 0 1).trace.dropWhile
          (fun e => decide (e ≠ Event.find_next_views [15]))
      = [Event.find_next_views [15], Event.reconstruct_next_view 15 false,
          Event.bundle_adjustment_full, Event.normalize_scene, Event.create_bundle,
          Event.save_mve_bundle, Event.apply_bundle_cameras]
    ∧ (incremental_sfm default_settings
        { sixteen_views with
          growth := sixteen_views.growth.take 13 ++ [[(15, false)]],
          bundle_cameras := 15, scene_views := 15 } 0 1).outcome = Outcome.returned := by
  have h := growth_loop_exit_is_normal default_settings [(4, false), (5, false)]
    [[(6, true)], []] 2 0 (by decide) (by decide)
    { sixteen_views with
      growth := sixteen_views.growth.take 13 ++ [[(15, false)]],
      bundle_cameras := 15, scene_views := 15 } 0 1 (by decide)
  refine ⟨by decide, by decide, by decide, by decide, ?_, ?_, ?_⟩
  · rw [h.1]; decide
  · rw [h.2.2.1]; decide
  · rw [h.2.2.2]; decide

/-! ## Trying the ranked candidates -/

theorem try_next_views_first_success (failed rest : List (Int × Bool)) (v : Int)
    (hfail : ∀ x ∈ failed, x.2 = false) :
    try_next_views (failed ++ (v, true) :: rest)
      = (failed.map (fun x => Event.reconstruct_next_view x.1 false)
          ++ [Event.reconstruct_next_view v true], v) := by
  induction failed with
  | nil => simp [try_next_views]
  | cons x failed ih =>
    obtain ⟨w, ok⟩ := x
    have hok : ok = false := hfail (w, ok) (List.mem_cons_self _ _)
    have hrest : ∀ y ∈ failed, y.2 = false := fun y hy => hfail y (List.mem_cons_of_mem _ hy)
    subst hok
    simp [try_next_views, ih hrest]

/-- C6: when the ranked list of `find_next_views` is `failed ++ (v, true) ::
rest`, where `reconstruct_next_view` fails for every candidate of `failed`,
the inner loop attempts the candidates of `failed` in list order, each
failing, then attempts v, which succeeds, and attempts no candidate of `rest`;
the view added in this iteration (single-camera bundle adjustment,
triangulation, invalidation, decision on full bundle adjustment) is v. -/
theorem first_successful_candidate_is_added (conf : AppSettings)
    (failed rest : List (Int × Bool)) (v : Int)
    (hfail : ∀ x ∈ failed, x.2 = false) (hv : 0 ≤ v) (n c : Nat) :
    try_next_views (failed ++ (v, true) :: rest)
      = (failed.map (fun x => Event.reconstruct_next_view x.1 false)
          ++ [Event.reconstruct_next_view v true], v)
    ∧ (growth_loop conf [failed ++ (v, true) :: rest] n c).events
      = Event.find_next_views ((failed ++ (v, true) :: rest).map Prod.fst)
        :: (failed.map (fun x => Event.reconstruct_next_view x.1 false)
          ++ [Event.reconstruct_next_view v true,
              Event.bundle_adjustment_single_cam v,
              Event.triangulate_new_tracks,
              Event.invalidate_large_error_tracks,
              if c < full_ba_skip_views conf (n + 1)
                then Event.skip_full_ba (full_ba_skip_views conf (n + 1))
                else Event.bundle_adjustment_full]) := by
  have htry := try_next_views_first_success failed rest v hfail
  refine ⟨htry, ?_⟩
  have hne : (failed ++ (v, true) :: rest).isEmpty = false := by
    cases failed <;> rfl
  have hpos : ¬ v < 0 := not_lt.mpr hv
  rw [growth_loop]
  simp only [hne, htry, hpos, if_false, Bool.false_eq_true]
  by_cases hlt : c < full_ba_skip_views conf (n + 1)
  · simp [hlt, Growth.after, growth_loop]
  · simp [hlt, Growth.after, growth_loop]

theorem first_successful_candidate_is_added_witness :
    (∀ x ∈ [((9 : Int), false), (4, false)], x.2 = false)
    ∧ (0 : Int) ≤ 7
    ∧ (growth_loop default_settings
        [[(9, false), (4, false)] ++ (7, true) :: [(3, true), (5, false)]] 14 0).events
      = [Event.find_next_views [9, 4, 7, 3, 5],
          Event.reconstruct_next_view 9 false,
          Event.reconstruct_next_view 4 false,
          Event.reconstruct_next_view 7 true,
          Event.bundle_adjustment_single_cam 7,
          Event.triangulate_new_tracks,
          Event.invalidate_large_error_tracks,
          Event.skip_full_ba 1] := by
  refine ⟨by decide, by decide, ?_⟩
  rw [(first_successful_candidate_is_added default_settings [(9, false), (4, false)]
    [(3, true), (5, false)] 7 (by decide) (by decide) 14 0).2]
  decide

/-! ## Fatal conditions before the reconstruction starts -/

/-- C7: if the matching computed by `features_and_matching` is empty, or the
matching loaded from the pre-bundle is empty, `sfm_reconstruct` ends with
`std::exit(1)` and `bundler_tracks.compute` is never called. -/
theorem no_matching_pairs_is_fatal (conf : AppSettings) (env : Env)
    (h : (env.prebundle_exists = false ∧ env.computed_matching = [])
      ∨ (env.prebundle_exists = true ∧ conf.skip_sfm = false ∧ env.loaded_matching = [])) :
    (sfm_reconstruct conf env).outcome = Outcome.exited 1
    ∧ ∀ e ∈ (sfm_reconstruct conf env).trace, ∀ pm vps, e ≠ Event.tracks_compute pm vps := by
  rcases h with ⟨hex, hpm⟩ | ⟨hex, hskip, hpm⟩
  · simp [sfm_reconstruct, features_and_matching, hex, hpm]
  · simp [sfm_reconstruct, sfm_after_prebundle, Run.after, hex, hskip, hpm]

theorem no_matching_pairs_is_fatal_witness :
    (({ sixteen_views with prebundle_exists := true } : Env).prebundle_exists = true
      ∧ default_settings.skip_sfm = false
      ∧ ({ sixteen_views with prebundle_exists := true } : Env).loaded_matching = [])
    ∧ (sfm_reconstruct default_settings
          { sixteen_views with prebundle_exists := true }).outcome = Outcome.exited 1
    ∧ (({ sixteen_views with computed_matching := [] } : Env).prebundle_exists = false
      ∧ ({ sixteen_views with computed_matching := [] } : Env).computed_matching = [])
    ∧ (sfm_reconstruct default_settings
          { sixteen_views with computed_matching := [] }).outcome = Outcome.exited 1 :=
  ⟨⟨rfl, rfl, rfl⟩,
    (no_matching_pairs_is_fatal default_settings { sixteen_views with prebundle_exists := true }
      (Or.inr ⟨rfl, rfl, rfl⟩)).1,
    ⟨rfl, rfl⟩,
    (no_matching_pairs_is_fatal default_settings { sixteen_views with computed_matching := [] }
      (Or.inl ⟨rfl, rfl⟩)).1⟩

/-! ## The initial pair -/

theorem static_cast_int_of_lt (n : Nat) (h : n < 2 ^ 31) : static_cast_int n = (n : Int) := by
  have h32 : n % 2 ^ 32 = n := Nat.mod_eq_of_lt (by omega)
  unfold static_cast_int
  rw [h32, if_pos h]

theorem try_next_views_events (cands : List (Int × Bool)) :
    ∀ e ∈ (try_next_views cands).1, incremental_event e = true := by
  induction cands with
  | nil => simp [try_next_views]
  | cons x rest ih =>
    obtain ⟨v, ok⟩ := x
    cases ok
    · intro e he
      simp only [try_next_views, Bool.false_eq_true, if_false, List.mem_cons] at he
      rcases he with rfl | he
      · rfl
      · exact ih e he
    · intro e he
      simp only [try_next_views, if_true, List.mem_singleton] at he
      subst he
      rfl

theorem growth_loop_events (conf : AppSettings) (script : List (List (Int × Bool))) :
    ∀ n c, ∀ e ∈ (growth_loop conf script n c).events, incremental_event e = true := by
  induction script with
  | nil => intro n c e he; simp [growth_loop] at he
  | cons cands script ih =>
    intro n c e he
    have htry := try_next_views_events cands
    rw [growth_loop] at he
    split_ifs at he
    · simp only [List.mem_singleton] at he
      subst he; rfl
    · simp only [List.mem_cons] at he
      rcases he with rfl | he
      · rfl
      · exact htry e he
    · simp only [Growth.after, List.cons_append, List.mem_cons, List.mem_append,
        List.mem_singleton] at he
      rcases he with rfl | (he | rfl | rfl | rfl | rfl | hfalse) | he
      · rfl
      · exact htry e he
      · rfl
      · rfl
      · rfl
      · rfl
      · cases hfalse
      · exact ih _ _ e he
    · simp only [Growth.after, List.cons_append, List.mem_cons, List.mem_append,
        List.mem_singleton] at he
      rcases he with rfl | (he | rfl | rfl | rfl | rfl | hfalse) | he
      · rfl
      · exact htry e he
      · rfl
      · rfl
      · rfl
      · rfl
      · cases hfalse
      · exact ih _ _ e he

theorem incremental_sfm_events (conf : AppSettings) (env : Env) (view_1_id view_2_id : Int) :
    ∀ e ∈ (incremental_sfm conf env view_1_id view_2_id).trace, incremental_event e = true := by
  intro e he
  have hg := growth_loop_events conf env.growth 2 0
  have hfin : ∀ k, ∀ x ∈ (finish_reconstruction env k).trace, incremental_event x = true := by
    intro k
    unfold finish_reconstruction final_bundle_adjustment
    split_ifs <;> simp [Run.after, incremental_event]
  unfold incremental_sfm at he
  simp only [Run.after, List.mem_append, List.mem_cons, List.not_mem_nil, or_false,
    List.cons_append, List.nil_append] at he
  rcases he with rfl | rfl | rfl | rfl | rfl | rfl | he | he
  · rfl
  · rfl
  · rfl
  · rfl
  · rfl
  · rfl
  · exact hg e he
  · cases hst : (growth_loop conf env.growth 2 0).status with
    | pending => rw [hst] at he; simp at he
    | finished => rw [hst] at he; exact hfin _ e he
    | no_valid_view => rw [hst] at he; exact hfin _ e he

/-- C8: with an explicit initial pair (both configured indices non-negative),
in a run that reaches the initial-pair stage (SfM not skipped, matching not
empty), `init_pair.compute` is never called; if both indices are smaller than
the number of viewports the run goes on into the incremental stage with
exactly the configured pair, and otherwise it ends with `std::exit(1)` right
after track building, before any pose is computed. -/
theorem explicit_initial_pair (conf : AppSettings) (env : Env)
    (viewports : ViewportList) (pairwise_matching : PairwiseMatching)
    (h1 : 0 ≤ conf.initial_pair_1) (h2 : 0 ≤ conf.initial_pair_2)
    (hskip : conf.skip_sfm = false) (hpm : pairwise_matching ≠ [])
    (hsize : viewports.length < 2 ^ 31) :
    sfm_after_prebundle conf env viewports pairwise_matching
      = (if conf.initial_pair_1 < viewports.length ∧ conf.initial_pair_2 < viewports.length then
          Run.after
            [Event.cache_cleanup, Event.clear_descriptors,
              Event.pairwise_matching_empty false, Event.sort_pairwise_matching,
              Event.rand_seed RAND_SEED_SFM,
              Event.tracks_compute (sort_pairwise_matching pairwise_matching)
                (viewports.map Viewport.clear_descriptors),
              Event.clear_colors]
            (incremental_sfm conf env conf.initial_pair_1 conf.initial_pair_2)
        else
          { trace :=
              [Event.cache_cleanup, Event.clear_descriptors,
                Event.pairwise_matching_empty false, Event.sort_pairwise_matching,
                Event.rand_seed RAND_SEED_SFM,
                Event.tracks_compute (sort_pairwise_matching pairwise_matching)
                  (viewports.map Viewport.clear_descriptors),
                Event.clear_colors],
            outcome := Outcome.exited 1 })
    ∧ ∀ e ∈ (sfm_after_prebundle conf env viewports pairwise_matching).trace,
        ∀ vps pm, e ≠ Event.init_pair_compute vps pm := by
  have hsel : ¬ (conf.initial_pair_1 < 0 ∨ conf.initial_pair_2 < 0) := by omega
  have hne : pairwise_matching.isEmpty = false := by
    cases pairwise_matching with
    | nil => exact absurd rfl hpm
    | cons _ _ => rfl
  have hres : init_pair_result conf env = (conf.initial_pair_1, conf.initial_pair_2) := by
    unfold init_pair_result
    rw [if_neg hsel]
  have heq : sfm_after_prebundle conf env viewports pairwise_matching
      = (if conf.initial_pair_1 < viewports.length ∧ conf.initial_pair_2 < viewports.length then
          Run.after
            [Event.cache_cleanup, Event.clear_descriptors,
              Event.pairwise_matching_empty false, Event.sort_pairwise_matching,
              Event.rand_seed RAND_SEED_SFM,
              Event.tracks_compute (sort_pairwise_matching pairwise_matching)
                (viewports.map Viewport.clear_descriptors),
              Event.clear_colors]
            (incremental_sfm conf env conf.initial_pair_1 conf.initial_pair_2)
        else
          { trace :=
              [Event.cache_cleanup, Event.clear_descriptors,
                Event.pairwise_matching_empty false, Event.sort_pairwise_matching,
                Event.rand_seed RAND_SEED_SFM,
                Event.tracks_compute (sort_pairwise_matching pairwise_matching)
                  (viewports.map Viewport.clear_descriptors),
                Event.clear_colors],
            outcome := Outcome.exited 1 }) := by
    unfold sfm_after_prebundle
    rw [hres, static_cast_int_of_lt _ hsize]
    simp only [hskip, hne, if_neg hsel, Bool.false_eq_true, if_false, List.append_nil]
    by_cases hin : conf.initial_pair_1 < viewports.length
        ∧ conf.initial_pair_2 < viewports.length
    · have hout : ¬ (conf.initial_pair_1 < 0 ∨ conf.initial_pair_2 < 0
          ∨ conf.initial_pair_1 ≥ (viewports.length : Int)
          ∨ conf.initial_pair_2 ≥ (viewports.length : Int)) := by omega
      rw [if_neg hout, if_pos hin]
    · have hout : conf.initial_pair_1 < 0 ∨ conf.initial_pair_2 < 0
          ∨ conf.initial_pair_1 ≥ (viewports.length : Int)
          ∨ conf.initial_pair_2 ≥ (viewports.length : Int) := by omega
      rw [if_pos hout, if_neg hin]
      simp [Run.after]
  refine ⟨heq, ?_⟩
  rw [heq]
  intro e he vps pm hcon
  subst hcon
  split_ifs at he
  · simp only [Run.after, List.mem_append, List.mem_cons, List.not_mem_nil, or_false,
      reduceCtorEq, false_or] at he
    have := incremental_sfm_events conf env _ _ _ he
    simp [incremental_event] at this
  · simp at he

theorem explicit_initial_pair_witness :
    (0 : Int) ≤ ({ default_settings with initial_pair_1 := 3, initial_pair_2 := 1 }
      : AppSettings).initial_pair_1
    ∧ (0 : Int) ≤ ({ default_settings with initial_pair_1 := 3, initial_pair_2 := 1 }
      : AppSettings).initial_pair_2
    ∧ ({ default_settings with initial_pair_1 := 3, initial_pair_2 := 1 }
      : AppSettings).skip_sfm = false
    ∧ sixteen_views.computed_matching ≠ []
    ∧ sixteen_views.computed_viewports.length < 2 ^ 31
    ∧ Event.reconstruct_initial_pair 3 1
        ∈ (sfm_after_prebundle { default_settings with initial_pair_1 := 3, initial_pair_2 := 1 }
            sixteen_views sixteen_views.computed_viewports
            sixteen_views.computed_matching).trace := by
  refine ⟨by decide, by decide, rfl, by decide, by decide, ?_⟩
  rw [(explicit_initial_pair { default_settings with initial_pair_1 := 3, initial_pair_2 := 1 }
    sixteen_views sixteen_views.computed_viewports sixteen_views.computed_matching
    (by decide) (by decide) rfl (by decide) (by decide)).1]
  decide

/-! ## Lifetime of the pairwise matching -/

theorem incremental_event_not_reads (e : Event) (h : incremental_event e = true) :
    reads_pairwise_matching e = false := by
  cases e <;> simp_all [incremental_event, reads_pairwise_matching]

theorem events_after_of_none (p : Event → Bool) (trace : List Event)
    (h : ∀ e ∈ trace, p e = false) : events_after p trace = [] := by
  unfold events_after
  have : trace.dropWhile (fun e => !p e) = [] := by
    rw [List.dropWhile_eq_nil_iff]
    intro e he
    simp [h e he]
  rw [this]
  rfl

theorem sfm_after_prebundle_reads (conf : AppSettings) (env : Env)
    (viewports : ViewportList) (pairwise_matching : PairwiseMatching) :
    (∀ e ∈ events_after is_tracks_compute
          (sfm_after_prebundle conf env viewports pairwise_matching).trace,
        reads_pairwise_matching e = true →
          is_init_pair_compute e = true
          ∧ (conf.initial_pair_1 < 0 ∨ conf.initial_pair_2 < 0))
    ∧ (∀ e ∈ events_after is_pairwise_matching_clear
          (sfm_after_prebundle conf env viewports pairwise_matching).trace,
        reads_pairwise_matching e = false) := by
  unfold sfm_after_prebundle
  by_cases hskip : conf.skip_sfm = true
  · simp [hskip, events_after]
  · by_cases hpm : pairwise_matching.isEmpty = true
    · simp [hskip, hpm, events_after, is_tracks_compute, is_pairwise_matching_clear]
    · simp only [hskip, hpm, if_false, Bool.false_eq_true]
      by_cases hsel : conf.initial_pair_1 < 0 ∨ conf.initial_pair_2 < 0
      · simp only [hsel, if_true]
        split_ifs
        · simp [Run.after, events_after, is_tracks_compute, is_pairwise_matching_clear,
            reads_pairwise_matching, is_init_pair_compute, hsel]
        · constructor
          · intro e he hr
            simp only [Run.after, events_after, is_tracks_compute, List.cons_append,
              List.nil_append, List.dropWhile_cons, Bool.not_false, Bool.not_true, if_true,
              Bool.false_eq_true, if_false, List.tail_cons, List.mem_cons] at he
            rcases he with rfl | rfl | he
            · simp [reads_pairwise_matching] at hr
            · exact ⟨rfl, trivial⟩
            · have := incremental_event_not_reads e (incremental_sfm_events conf env _ _ e he)
              rw [this] at hr
              cases hr
          · intro e he
            simp only [Run.after, events_after, is_pairwise_matching_clear, List.cons_append,
              List.nil_append, List.dropWhile_cons, Bool.not_false, Bool.not_true, if_true,
              Bool.false_eq_true, if_false] at he
            have hmem := List.mem_of_mem_tail he
            have hsub := (List.dropWhile_sublist _).subset hmem
            exact incremental_event_not_reads e (incremental_sfm_events conf env _ _ e hsub)
      · simp only [hsel, if_false]
        split_ifs
        · simp [Run.after, events_after, is_tracks_compute, is_pairwise_matching_clear,
            reads_pairwise_matching]
        · constructor
          · intro e he hr
            simp only [Run.after, events_after, is_tracks_compute, List.cons_append,
              List.nil_append, List.dropWhile_cons, Bool.not_false, Bool.not_true, if_true,
              Bool.false_eq_true, if_false, List.tail_cons, List.mem_cons] at he
            rcases he with rfl | he
            · simp [reads_pairwise_matching] at hr
            · have := incremental_event_not_reads e (incremental_sfm_events conf env _ _ e he)
              rw [this] at hr
              cases hr
          · intro e he
            simp only [Run.after, events_after, is_pairwise_matching_clear, List.cons_append,
              List.nil_append, List.dropWhile_cons, Bool.not_false, Bool.not_true, if_true,
              Bool.false_eq_true, if_false] at he
            have hmem := List.mem_of_mem_tail he
            have hsub := (List.dropWhile_sublist _).subset hmem
            exact incremental_event_not_reads e (incremental_sfm_events conf env _ _ e hsub)

theorem events_after_append_of_none (p : Event → Bool) (pre trace : List Event)
    (h : ∀ e ∈ pre, p e = false) : events_after p (pre ++ trace) = events_after p trace := by
  induction pre with
  | nil => rfl
  | cons a pre ih =>
    have ha : p a = false := h a (List.mem_cons_self _ _)
    have hr : ∀ e ∈ pre, p e = false := fun e he => h e (List.mem_cons_of_mem _ he)
    have := ih hr
    unfold events_after at this ⊢
    simp [List.dropWhile_cons, ha, this]

theorem sfm_reconstruct_trace (conf : AppSettings) (env : Env) :
    ∃ pre viewports pairwise_matching,
      (∀ e ∈ pre, is_tracks_compute e = false ∧ is_pairwise_matching_clear e = false
        ∧ incremental_event e = false)
      ∧ ((sfm_reconstruct conf env).trace = pre
        ∨ (sfm_reconstruct conf env).trace
          = pre ++ (sfm_after_prebundle conf env viewports pairwise_matching).trace) := by
  unfold sfm_reconstruct
  by_cases hex : env.prebundle_exists = true
  · by_cases hskip : conf.skip_sfm = true
    · exact ⟨[], [], [], by simp, Or.inr (by simp [hex, hskip])⟩
    · refine ⟨[Event.load_prebundle_from_file env.loaded_viewports env.loaded_matching],
        env.loaded_viewports, env.loaded_matching, ?_, Or.inr ?_⟩
      · simp [is_tracks_compute, is_pairwise_matching_clear, incremental_event]
      · simp [hex, hskip, Run.after]
  · by_cases hpm : env.computed_matching.isEmpty = true
    · refine ⟨Event.rand_seed RAND_SEED_MATCHING :: (features_and_matching env).trace,
        [], [], ?_, Or.inl ?_⟩
      · simp [features_and_matching, is_tracks_compute, is_pairwise_matching_clear,
          incremental_event]
      · simp [hex, features_and_matching, hpm]
    · refine ⟨Event.rand_seed RAND_SEED_MATCHING :: (features_and_matching env).trace
          ++ [Event.save_prebundle_to_file env.computed_viewports env.computed_matching],
        env.computed_viewports, env.computed_matching, ?_, Or.inr ?_⟩
      · simp [features_and_matching, is_tracks_compute, is_pairwise_matching_clear,
          incremental_event]
      · simp [hex, features_and_matching, hpm, Run.after]

/-- C9 fails as stated: in the run `sixteen_views`, which has no explicit
initial pair, the sorted pairwise matching is passed to `init_pair.compute`
after `bundler_tracks.compute` has returned. -/
theorem pairwise_matching_read_after_tracks :
    (events_after is_tracks_compute
        (sfm_reconstruct default_settings sixteen_views).trace).filter reads_pairwise_matching
      = [Event.init_pair_compute (List.replicate 16 { descriptors := [], colors := [] })
          [{ view_1_id := 0, view_2_id := 1, correspondences := [(0, 1)] },
           { view_1_id := 1, view_2_id := 2, correspondences := [(0, 0)] }]] := by
  decide

/-! ## Invalidation of large-error tracks -/

/-- C11: let `load_prebundle_from_file` return the viewports and the matching
that `save_prebundle_to_file` was given.  Then what `bundler_tracks.compute`
is handed (the sorted matching, the viewports with descriptors cleared, the
random generator seeded directly before the call) is the same in the run that
computes the pre-bundle and in the run that loads it; when SfM is not skipped
and the matching is not empty the seed is `RAND_SEED_SFM = 0`, and the two
runs differ only in the events before line 163: everything from there on, and
the outcome, is the same. -/
theorem load_compute_equivalence (conf : AppSettings) (env : Env) :
    track_building_input
        (sfm_reconstruct conf { env with prebundle_exists := false }).trace none
      = track_building_input
        (sfm_reconstruct conf
          { env with prebundle_exists := true,
                     loaded_viewports := env.computed_viewports,
                     loaded_matching := env.computed_matching }).trace none
    ∧ (conf.skip_sfm = false → env.computed_matching ≠ [] →
        track_building_input
            (sfm_reconstruct conf { env with prebundle_exists := false }).trace none
          = some (some RAND_SEED_SFM, sort_pairwise_matching env.computed_matching,
              env.computed_viewports.map Viewport.clear_descriptors)
        ∧ RAND_SEED_SFM = 0
        ∧ (sfm_reconstruct conf { env with prebundle_exists := false }).trace
          = [Event.rand_seed RAND_SEED_MATCHING, Event.features_compute,
              Event.matching_compute env.computed_matching,
              Event.pairwise_matching_empty false,
              Event.save_prebundle_to_file env.computed_viewports env.computed_matching]
            ++ (sfm_after_prebundle conf env env.computed_viewports
                env.computed_matching).trace
        ∧ (sfm_reconstruct conf
            { env with prebundle_exists := true,
                       loaded_viewports := env.computed_viewports,
                       loaded_matching := env.computed_matching }).trace
          = [Event.load_prebundle_from_file env.computed_viewports env.computed_matching]
            ++ (sfm_after_prebundle conf env env.computed_viewports
                env.computed_matching).trace
        ∧ (sfm_reconstruct conf { env with prebundle_exists := false }).outcome
          = (sfm_reconstruct conf
              { env with prebundle_exists := true,
                         loaded_viewports := env.computed_viewports,
                         loaded_matching := env.computed_matching }).outcome) := by
  have henv1 : sfm_after_prebundle conf { env with prebundle_exists := false }
      env.computed_viewports env.computed_matching
      = sfm_after_prebundle conf env env.computed_viewports env.computed_matching := rfl
  have henv2 : sfm_after_prebundle conf
      { env with prebundle_exists := true,
                 loaded_viewports := env.computed_viewports,
                 loaded_matching := env.computed_matching }
      env.computed_viewports env.computed_matching
      = sfm_after_prebundle conf env env.computed_viewports env.computed_matching := rfl
  have hinput : ∀ (hs : conf.skip_sfm = false) (hne : env.computed_matching.isEmpty = false),
      track_building_input
        (sfm_after_prebundle conf env env.computed_viewports env.computed_matching).trace none
      = some (some RAND_SEED_SFM, sort_pairwise_matching env.computed_matching,
          env.computed_viewports.map Viewport.clear_descriptors) := by
    intro hs hne
    unfold sfm_after_prebundle
    simp only [hs, hne, Bool.false_eq_true, if_false, Run.after, List.cons_append]
    rfl
  by_cases hs : conf.skip_sfm = true
  · constructor
    · by_cases hne : env.computed_matching.isEmpty = true
      · simp [sfm_reconstruct, features_and_matching, sfm_after_prebundle, hs, hne,
          track_building_input]
      · simp [sfm_reconstruct, features_and_matching, sfm_after_prebundle, hs, hne,
          track_building_input, Run.after]
    · intro hcon
      rw [hs] at hcon
      cases hcon
  · have hs' : conf.skip_sfm = false := by
      cases h : conf.skip_sfm
      · rfl
      · exact absurd h hs
    by_cases hne : env.computed_matching.isEmpty = true
    · constructor
      · simp [sfm_reconstruct, features_and_matching, sfm_after_prebundle, hs', hne,
          track_building_input, Run.after]
      · intro _ hcon
        exact absurd (List.isEmpty_iff.mp hne) hcon
    · have hne' : env.computed_matching.isEmpty = false := by
        cases h : env.computed_matching.isEmpty
        · rfl
        · exact absurd h hne
      have hc : sfm_reconstruct conf { env with prebundle_exists := false }
          = Run.after
            [Event.rand_seed RAND_SEED_MATCHING, Event.features_compute,
              Event.matching_compute env.computed_matching,
              Event.pairwise_matching_empty false,
              Event.save_prebundle_to_file env.computed_viewports env.computed_matching]
            (sfm_after_prebundle conf env env.computed_viewports env.computed_matching) := by
        rw [← henv1]
        simp [sfm_reconstruct, features_and_matching, hne']
      have hl : sfm_reconstruct conf
          { env with prebundle_exists := true,
                     loaded_viewports := env.computed_viewports,
                     loaded_matching := env.computed_matching }
          = Run.after
            [Event.load_prebundle_from_file env.computed_viewports env.computed_matching]
            (sfm_after_prebundle conf env env.computed_viewports env.computed_matching) := by
        rw [← henv2]
        simp [sfm_reconstruct, hs']
      have hci : track_building_input
          (sfm_reconstruct conf { env with prebundle_exists := false }).trace none
          = some (some RAND_SEED_SFM, sort_pairwise_matching env.computed_matching,
              env.computed_viewports.map Viewport.clear_descriptors) := by
        rw [hc]
        simp only [Run.after, List.cons_append, List.nil_append, track_building_input]
        exact hinput hs' hne'
      have hli : track_building_input
          (sfm_reconstruct conf
            { env with prebundle_exists := true,
                       loaded_viewports := env.computed_viewports,
                       loaded_matching := env.computed_matching }).trace none
          = some (some RAND_SEED_SFM, sort_pairwise_matching env.computed_matching,
              env.computed_viewports.map Viewport.clear_descriptors) := by
        rw [hl]
        simp only [Run.after, List.cons_append, List.nil_append, track_building_input]
        exact hinput hs' hne'
      refine ⟨by rw [hci, hli], fun _ _ => ⟨hci, rfl, ?_, ?_, ?_⟩⟩
      · rw [hc]; rfl
      · rw [hl]; rfl
      · rw [hc, hl]; rfl

/-! ## Computing, saving and loading the pre-bundle -/

theorem incremental_event_not_prebundle (e : Event) (h : incremental_event e = true) :
    e ≠ Event.features_compute ∧ is_matching_compute e = false
      ∧ is_save_prebundle e = false ∧ is_load_prebundle e = false := by
  cases e <;>
    simp_all [incremental_event, is_matching_compute, is_save_prebundle, is_load_prebundle]

theorem sfm_after_prebundle_no_prebundle_io (conf : AppSettings) (env : Env)
    (viewports : ViewportList) (pairwise_matching : PairwiseMatching) :
    ∀ e ∈ (sfm_after_prebundle conf env viewports pairwise_matching).trace,
      e ≠ Event.features_compute ∧ is_matching_compute e = false
        ∧ is_save_prebundle e = false ∧ is_load_prebundle e = false := by
  have hinc : ∀ v1 v2, ∀ e ∈ (incremental_sfm conf env v1 v2).trace,
      e ≠ Event.features_compute ∧ is_matching_compute e = false
        ∧ is_save_prebundle e = false ∧ is_load_prebundle e = false :=
    fun v1 v2 e he => incremental_event_not_prebundle e (incremental_sfm_events conf env v1 v2 e he)
  have hafter : ∀ (pre : List Event) (r : Run),
      (∀ e ∈ pre, e ≠ Event.features_compute ∧ is_matching_compute e = false
        ∧ is_save_prebundle e = false ∧ is_load_prebundle e = false) →
      (∀ e ∈ r.trace, e ≠ Event.features_compute ∧ is_matching_compute e = false
        ∧ is_save_prebundle e = false ∧ is_load_prebundle e = false) →
      ∀ e ∈ (Run.after pre r).trace,
        e ≠ Event.features_compute ∧ is_matching_compute e = false
          ∧ is_save_prebundle e = false ∧ is_load_prebundle e = false := by
    intro pre r hpre hr e he
    have he' : e ∈ pre ++ r.trace := he
    rcases List.mem_append.mp he' with h | h
    · exact hpre e h
    · exact hr e h
  unfold sfm_after_prebundle
  split_ifs
  · simp
  · simp [is_matching_compute, is_save_prebundle, is_load_prebundle]
  · exact hafter _ _
      (by simp [is_matching_compute, is_save_prebundle, is_load_prebundle]) (by simp)
  · exact hafter _ _
      (by simp [is_matching_compute, is_save_prebundle, is_load_prebundle]) (hinc _ _)
  · exact hafter _ _
      (by simp [is_matching_compute, is_save_prebundle, is_load_prebundle]) (by simp)
  · exact hafter _ _
      (by simp [is_matching_compute, is_save_prebundle, is_load_prebundle]) (hinc _ _)

/-- C12, as the code has it: `sfm_reconstruct` runs feature extraction and
matching iff the pre-bundle file does not exist, and then saves the pre-bundle
unless the matching found no pairs (in which case the run has ended inside
`features_and_matching`); when the file exists nothing is computed and
nothing is saved, and the file is loaded iff `skip_sfm` is not set. -/
theorem prebundle_computed_or_loaded (conf : AppSettings) (env : Env) :
    (Event.features_compute ∈ (sfm_reconstruct conf env).trace
      ↔ env.prebundle_exists = false)
    ∧ ((sfm_reconstruct conf env).trace.any is_matching_compute = true
      ↔ env.prebundle_exists = false)
    ∧ ((sfm_reconstruct conf env).trace.any is_save_prebundle = true
      ↔ env.prebundle_exists = false ∧ env.computed_matching ≠ [])
    ∧ ((sfm_reconstruct conf env).trace.any is_load_prebundle = true
      ↔ env.prebundle_exists = true ∧ conf.skip_sfm = false) := by
  have hT := sfm_after_prebundle_no_prebundle_io conf env
  have hmem : ∀ vps pm, Event.features_compute
      ∉ (sfm_after_prebundle conf env vps pm).trace :=
    fun vps pm hc => (hT vps pm _ hc).1 rfl
  have hany : ∀ vps pm,
      (sfm_after_prebundle conf env vps pm).trace.any is_matching_compute = false
      ∧ (sfm_after_prebundle conf env vps pm).trace.any is_save_prebundle = false
      ∧ (sfm_after_prebundle conf env vps pm).trace.any is_load_prebundle = false := by
    intro vps pm
    refine ⟨?_, ?_, ?_⟩
    · exact List.any_eq_false.mpr (fun e he => by simp [(hT vps pm e he).2.1])
    · exact List.any_eq_false.mpr (fun e he => by simp [(hT vps pm e he).2.2.1])
    · exact List.any_eq_false.mpr (fun e he => by simp [(hT vps pm e he).2.2.2])
  by_cases hex : env.prebundle_exists = true
  · by_cases hs : conf.skip_sfm = true
    · have hrun : sfm_reconstruct conf env = sfm_after_prebundle conf env [] [] := by
        simp [sfm_reconstruct, hex, hs]
      rw [hrun]
      simp [hmem, hany, hex, hs]
    · have hrun : sfm_reconstruct conf env
          = Run.after [Event.load_prebundle_from_file env.loaded_viewports env.loaded_matching]
            (sfm_after_prebundle conf env env.loaded_viewports env.loaded_matching) := by
        simp [sfm_reconstruct, hex, hs]
      rw [hrun]
      simp [Run.after, hmem, hany, hex, hs, is_matching_compute, is_save_prebundle,
        is_load_prebundle]
  · by_cases hpm : env.computed_matching.isEmpty = true
    · have hrun : sfm_reconstruct conf env
          = { trace := [Event.rand_seed RAND_SEED_MATCHING, Event.features_compute,
                Event.matching_compute env.computed_matching,
                Event.pairwise_matching_empty true],
              outcome := Outcome.exited 1 } := by
        simp [sfm_reconstruct, features_and_matching, hex, hpm]
      rw [hrun]
      simp [hex, is_matching_compute, is_save_prebundle, is_load_prebundle,
        List.isEmpty_iff.mp hpm]
    · have hrun : sfm_reconstruct conf env
          = Run.after
            [Event.rand_seed RAND_SEED_MATCHING, Event.features_compute,
              Event.matching_compute env.computed_matching,
              Event.pairwise_matching_empty false,
              Event.save_prebundle_to_file env.computed_viewports env.computed_matching]
            (sfm_after_prebundle conf env env.computed_viewports env.computed_matching) := by
        simp [sfm_reconstruct, features_and_matching, hex, hpm, Run.after]
      have hne : env.computed_matching ≠ [] := fun hc => hpm (List.isEmpty_iff.mpr hc)
      rw [hrun]
      simp [Run.after, hmem, hany, hex, hne, is_matching_compute, is_save_prebundle,
        is_load_prebundle]

/-- C12 fails as stated: in the run `no_pairs` the pre-bundle file does not
exist and feature extraction and matching are run, but the matching is empty,
the run ends with `std::exit(1)` at line 120 and the pre-bundle is not
saved. -/
theorem features_and_matching_without_save :
    no_pairs.prebundle_exists = false
    ∧ (sfm_reconstruct default_settings no_pairs).trace
      = [Event.rand_seed 0, Event.features_compute, Event.matching_compute [],
          Event.pairwise_matching_empty true]
    ∧ (sfm_reconstruct default_settings no_pairs).trace.any is_save_prebundle = false
    ∧ (sfm_reconstruct default_settings no_pairs).outcome = Outcome.exited 1 := by
  decide

/-! ## Probing the pre-bundle path -/

/-- C13: `check_prebundle` ends the run with `std::exit(1)` iff the path does
not exist and the stream opened for writing is not good; if the path exists
it returns without any operation on the file; if the path does not exist and
the file could be opened, the file is closed and unlinked before the
function returns. -/
theorem check_prebundle_outcomes :
    (∀ path_exists out_good,
      (check_prebundle path_exists out_good).2 = Outcome.exited 1
        ↔ path_exists = false ∧ out_good = false)
    ∧ (∀ out_good, check_prebundle true out_good = ([], Outcome.returned))
    ∧ check_prebundle false true
      = ([FileOp.open_for_writing, FileOp.close, FileOp.unlink], Outcome.returned)
    ∧ check_prebundle false false
      = ([FileOp.open_for_writing, FileOp.close], Outcome.exited 1) := by
  refine ⟨?_, ?_, rfl, rfl⟩
  · intro path_exists out_good
    cases path_exists <;> cases out_good <;> simp [check_prebundle]
  · intro out_good
    rfl

/-! ## The camera-count check -/

theorem try_next_views_growth_events (cands : List (Int × Bool)) :
    ∀ e ∈ (try_next_views cands).1, growth_event e = true := by
  induction cands with
  | nil => simp [try_next_views]
  | cons x rest ih =>
    obtain ⟨v, ok⟩ := x
    cases ok
    · intro e he
      simp only [try_next_views, Bool.false_eq_true, if_false, List.mem_cons] at he
      rcases he with rfl | he
      · rfl
      · exact ih e he
    · intro e he
      simp only [try_next_views, if_true, List.mem_singleton] at he
      subst he
      rfl

theorem growth_loop_growth_events (conf : AppSettings) (script : List (List (Int × Bool))) :
    ∀ n c, ∀ e ∈ (growth_loop conf script n c).events, growth_event e = true := by
  induction script with
  | nil => intro n c e he; simp [growth_loop] at he
  | cons cands script ih =>
    intro n c e he
    have htry := try_next_views_growth_events cands
    rw [growth_loop] at he
    split_ifs at he
    · simp only [List.mem_singleton] at he
      subst he; rfl
    · simp only [List.mem_cons] at he
      rcases he with rfl | he
      · rfl
      · exact htry e he
    · simp only [Growth.after, List.cons_append, List.mem_cons, List.mem_append,
        List.mem_singleton] at he
      rcases he with rfl | (he | rfl | rfl | rfl | rfl | hfalse) | he
      · rfl
      · exact htry e he
      · rfl
      · rfl
      · rfl
      · rfl
      · cases hfalse
      · exact ih _ _ e he
    · simp only [Growth.after, List.cons_append, List.mem_cons, List.mem_append,
        List.mem_singleton] at he
      rcases he with rfl | (he | rfl | rfl | rfl | rfl | hfalse) | he
      · rfl
      · exact htry e he
      · rfl
      · rfl
      · rfl
      · rfl
      · cases hfalse
      · exact ih _ _ e he

theorem run_after_after (a b : List Event) (r : Run) :
    Run.after a (Run.after b r) = Run.after (a ++ b) r := by
  simp [Run.after]

theorem run_after_nil_trace (a : List Event) (o : Outcome) :
    (Run.after a { trace := [], outcome := o }).trace = a := by
  simp [Run.after]

theorem incremental_sfm_finish (conf : AppSettings) (env : Env) (view_1_id view_2_id : Int) :
    ∃ pre, (∀ e ∈ pre, e ≠ Event.create_bundle ∧ e ≠ Event.apply_bundle_cameras)
      ∧ ((incremental_sfm conf env view_1_id view_2_id).trace = pre
        ∨ ∃ k, incremental_sfm conf env view_1_id view_2_id
            = Run.after pre (finish_reconstruction env k)) := by
  refine ⟨[Event.pairwise_matching_clear, Event.incremental_init,
      Event.reconstruct_initial_pair view_1_id view_2_id,
      Event.triangulate_new_tracks, Event.invalidate_large_error_tracks,
      Event.bundle_adjustment_full] ++ (growth_loop conf env.growth 2 0).events, ?_, ?_⟩
  · intro e he
    rcases List.mem_append.mp he with h | h
    · simp only [List.mem_cons, List.mem_singleton, List.not_mem_nil, or_false] at h
      rcases h with rfl | rfl | rfl | rfl | rfl | rfl <;> simp
    · have hg := growth_loop_growth_events conf env.growth 2 0 e h
      constructor <;> (intro hc; subst hc; simp [growth_event] at hg)
  · unfold incremental_sfm
    cases (growth_loop conf env.growth 2 0).status with
    | pending => exact Or.inl (run_after_nil_trace _ _)
    | finished => exact Or.inr ⟨_, rfl⟩
    | no_valid_view => exact Or.inr ⟨_, rfl⟩

theorem sfm_after_prebundle_finish (conf : AppSettings) (env : Env)
    (viewports : ViewportList) (pairwise_matching : PairwiseMatching) :
    ∃ pre, (∀ e ∈ pre, e ≠ Event.create_bundle ∧ e ≠ Event.apply_bundle_cameras)
      ∧ ((sfm_after_prebundle conf env viewports pairwise_matching).trace = pre
        ∨ ∃ k, sfm_after_prebundle conf env viewports pairwise_matching
            = Run.after pre (finish_reconstruction env k)) := by
  have hinc := incremental_sfm_finish conf env
  have hstep : ∀ (a : List Event) (v1 v2 : Int),
      (∀ e ∈ a, e ≠ Event.create_bundle ∧ e ≠ Event.apply_bundle_cameras) →
      ∃ pre, (∀ e ∈ pre, e ≠ Event.create_bundle ∧ e ≠ Event.apply_bundle_cameras)
        ∧ ((Run.after a (incremental_sfm conf env v1 v2)).trace = pre
          ∨ ∃ k, Run.after a (incremental_sfm conf env v1 v2)
              = Run.after pre (finish_reconstruction env k)) := by
    intro a v1 v2 ha
    obtain ⟨pre, hpre, h | ⟨k, h⟩⟩ := hinc v1 v2
    · refine ⟨a ++ pre, ?_, Or.inl ?_⟩
      · intro e he
        rcases List.mem_append.mp he with h1 | h1
        · exact ha e h1
        · exact hpre e h1
      · show a ++ (incremental_sfm conf env v1 v2).trace = a ++ pre
        rw [h]
    · refine ⟨a ++ pre, ?_, Or.inr ⟨k, ?_⟩⟩
      · intro e he
        rcases List.mem_append.mp he with h1 | h1
        · exact ha e h1
        · exact hpre e h1
      · rw [h, run_after_after]
  unfold sfm_after_prebundle
  split_ifs
  · exact ⟨[], by simp, Or.inl rfl⟩
  · exact ⟨_, by simp, Or.inl rfl⟩
  · exact ⟨_, by simp, Or.inl (run_after_nil_trace _ _)⟩
  · exact hstep _ _ _ (by simp)
  · exact ⟨_, by simp, Or.inl (run_after_nil_trace _ _)⟩
  · exact hstep _ _ _ (by simp)

theorem sfm_reconstruct_finish (conf : AppSettings) (env : Env) :
    ∃ pre, (∀ e ∈ pre, e ≠ Event.create_bundle ∧ e ≠ Event.apply_bundle_cameras)
      ∧ ((sfm_reconstruct conf env).trace = pre
        ∨ ∃ k, sfm_reconstruct conf env = Run.after pre (finish_reconstruction env k)) := by
  have hT := sfm_after_prebundle_finish conf env
  have hstep : ∀ (a : List Event) (vps : ViewportList) (pm : PairwiseMatching),
      (∀ e ∈ a, e ≠ Event.create_bundle ∧ e ≠ Event.apply_bundle_cameras) →
      ∃ pre, (∀ e ∈ pre, e ≠ Event.create_bundle ∧ e ≠ Event.apply_bundle_cameras)
        ∧ ((Run.after a (sfm_after_prebundle conf env vps pm)).trace = pre
          ∨ ∃ k, Run.after a (sfm_after_prebundle conf env vps pm)
              = Run.after pre (finish_reconstruction env k)) := by
    intro a vps pm ha
    obtain ⟨pre, hpre, h | ⟨k, h⟩⟩ := hT vps pm
    · refine ⟨a ++ pre, ?_, Or.inl ?_⟩
      · intro e he
        rcases List.mem_append.mp he with h1 | h1
        · exact ha e h1
        · exact hpre e h1
      · show a ++ (sfm_after_prebundle conf env vps pm).trace = a ++ pre
        rw [h]
    · refine ⟨a ++ pre, ?_, Or.inr ⟨k, ?_⟩⟩
      · intro e he
        rcases List.mem_append.mp he with h1 | h1
        · exact ha e h1
        · exact hpre e h1
      · rw [h, run_after_after]
  by_cases hex : env.prebundle_exists = true
  · by_cases hs : conf.skip_sfm = true
    · have hrun : sfm_reconstruct conf env = sfm_after_prebundle conf env [] [] := by
        simp [sfm_reconstruct, hex, hs]
      rw [hrun]
      exact hT [] []
    · have hrun : sfm_reconstruct conf env
          = Run.after [Event.load_prebundle_from_file env.loaded_viewports env.loaded_matching]
            (sfm_after_prebundle conf env env.loaded_viewports env.loaded_matching) := by
        simp [sfm_reconstruct, hex, hs]
      rw [hrun]
      exact hstep _ _ _ (by simp)
  · by_cases hpm : env.computed_matching.isEmpty = true
    · have hrun : sfm_reconstruct conf env
          = { trace := [Event.rand_seed RAND_SEED_MATCHING, Event.features_compute,
                Event.matching_compute env.computed_matching,
                Event.pairwise_matching_empty true],
              outcome := Outcome.exited 1 } := by
        simp [sfm_reconstruct, features_and_matching, hex, hpm]
      rw [hrun]
      exact ⟨_, by simp, Or.inl rfl⟩
    · have hrun : sfm_reconstruct conf env
          = Run.after
            [Event.rand_seed RAND_SEED_MATCHING, Event.features_compute,
              Event.matching_compute env.computed_matching,
              Event.pairwise_matching_empty false,
              Event.save_prebundle_to_file env.computed_viewports env.computed_matching]
            (sfm_after_prebundle conf env env.computed_viewports env.computed_matching) := by
        simp [sfm_reconstruct, features_and_matching, hex, hpm, Run.after]
      rw [hrun]
      exact hstep _ _ _ (by simp)

/-- C14: if the number of cameras of the created bundle differs from the
number of views of the scene, a run of `sfm_reconstruct` that has created the
bundle ends with `std::exit(1)` directly after `save_mve_bundle`, and in no
run is the loop that sets and saves the cameras of the views entered. -/
theorem camera_count_mismatch_is_fatal (conf : AppSettings) (env : Env)
    (hne : env.bundle_cameras ≠ env.scene_views) :
    Event.apply_bundle_cameras ∉ (sfm_reconstruct conf env).trace
    ∧ (Event.create_bundle ∈ (sfm_reconstruct conf env).trace →
        (sfm_reconstruct conf env).outcome = Outcome.exited 1)
    ∧ (∀ k, finish_reconstruction env k
        = { trace := final_bundle_adjustment k
              ++ [Event.normalize_scene, Event.create_bundle, Event.save_mve_bundle],
            outcome := Outcome.exited 1 }) := by
  have hfin : ∀ k, finish_reconstruction env k
      = { trace := final_bundle_adjustment k
            ++ [Event.normalize_scene, Event.create_bundle, Event.save_mve_bundle],
          outcome := Outcome.exited 1 } := by
    intro k
    unfold finish_reconstruction
    rw [if_pos hne]
    simp [Run.after]
  have hfa : ∀ k, Event.apply_bundle_cameras ∉ final_bundle_adjustment k := by
    intro k
    unfold final_bundle_adjustment
    split_ifs <;> simp
  obtain ⟨pre, hpre, h | ⟨k, h⟩⟩ := sfm_reconstruct_finish conf env
  · refine ⟨?_, ?_, hfin⟩
    · rw [h]
      exact fun hc => (hpre _ hc).2 rfl
    · rw [h]
      exact fun hc => absurd rfl (hpre _ hc).1
  · refine ⟨?_, ?_, hfin⟩
    · rw [h, hfin k]
      intro hc
      have hc' : Event.apply_bundle_cameras ∈ pre ++ (final_bundle_adjustment k
          ++ [Event.normalize_scene, Event.create_bundle, Event.save_mve_bundle]) := hc
      rcases List.mem_append.mp hc' with h1 | h1
      · exact (hpre _ h1).2 rfl
      · rcases List.mem_append.mp h1 with h2 | h2
        · exact hfa k h2
        · simp at h2
    · intro _
      rw [h, hfin k]
      rfl

theorem camera_count_mismatch_is_fatal_witness :
    ({ sixteen_views with bundle_cameras := 15 } : Env).bundle_cameras
      ≠ ({ sixteen_views with bundle_cameras := 15 } : Env).scene_views
    ∧ Event.create_bundle
      ∈ (sfm_reconstruct default_settings { sixteen_views with bundle_cameras := 15 }).trace
    ∧ (sfm_reconstruct default_settings { sixteen_views with bundle_cameras := 15 }).outcome
      = Outcome.exited 1
    ∧ Event.apply_bundle_cameras
      ∉ (sfm_reconstruct default_settings { sixteen_views with bundle_cameras := 15 }).trace :=
  ⟨by decide, by decide,
    (camera_count_mismatch_is_fatal default_settings
      { sixteen_views with bundle_cameras := 15 } (by decide)).2.1 (by decide),
    (camera_count_mismatch_is_fatal default_settings
      { sixteen_views with bundle_cameras := 15 } (by decide)).1⟩

/-! ## The steps of a view addition -/

theorem try_next_views_all_failed (cands : List (Int × Bool))
    (hall : ∀ x ∈ cands, x.2 = false) :
    try_next_views cands
      = (cands.map (fun x => Event.reconstruct_next_view x.1 false), -1) := by
  induction cands with
  | nil => rfl
  | cons x rest ih =>
    obtain ⟨v, ok⟩ := x
    have hok : ok = false := hall (v, ok) (List.mem_cons_self _ _)
    have hrest : ∀ y ∈ rest, y.2 = false := fun y hy => hall y (List.mem_cons_of_mem _ hy)
    subst hok
    simp [try_next_views, ih hrest]

theorem try_next_views_steps (cands : List (Int × Bool)) (hv : valid_view_ids cands) :
    (try_next_views cands).1.filterMap single_cam_view = []
    ∧ (try_next_views cands).1.count Event.triangulate_new_tracks = 0
    ∧ (try_next_views cands).1.count Event.invalidate_large_error_tracks = 0
    ∧ (try_next_views cands).1.filterMap reconstructed_view
      = (if (try_next_views cands).2 < 0 then [] else [(try_next_views cands).2]) := by
  induction cands with
  | nil => simp [try_next_views]
  | cons x rest ih =>
    obtain ⟨v, ok⟩ := x
    have hv0 : 0 ≤ v := hv (v, ok) (List.mem_cons_self _ _)
    have hvr : valid_view_ids rest := fun y hy => hv y (List.mem_cons_of_mem _ hy)
    obtain ⟨h1, h2, h3, h4⟩ := ih hvr
    cases ok
    · simp only [try_next_views, Bool.false_eq_true, if_false]
      refine ⟨?_, ?_, ?_, ?_⟩
      · simpa [single_cam_view] using h1
      · simpa [List.count_cons] using h2
      · simpa [List.count_cons] using h3
      · simpa [reconstructed_view] using h4
    · have hnot : ¬ v < 0 := not_lt.mpr hv0
      simp [try_next_views, single_cam_view, reconstructed_view, hnot]

theorem growth_loop_addition_steps (conf : AppSettings) (script : List (List (Int × Bool)))
    (hvs : ∀ x ∈ script, valid_view_ids x) :
    ∀ n c, (growth_loop conf script n c).events.filterMap single_cam_view
        = (growth_loop conf script n c).events.filterMap reconstructed_view
      ∧ (growth_loop conf script n c).num_cameras_reconstructed
        = n + ((growth_loop conf script n c).events.filterMap reconstructed_view).length
      ∧ (growth_loop conf script n c).events.count Event.triangulate_new_tracks
        = ((growth_loop conf script n c).events.filterMap reconstructed_view).length
      ∧ (growth_loop conf script n c).events.count Event.invalidate_large_error_tracks
        = ((growth_loop conf script n c).events.filterMap reconstructed_view).length := by
  induction script with
  | nil => intro n c; simp [growth_loop]
  | cons cands script ih =>
    intro n c
    have hv : valid_view_ids cands := hvs cands (List.mem_cons_self _ _)
    have hr : ∀ x ∈ script, valid_view_ids x := fun x hx => hvs x (List.mem_cons_of_mem _ hx)
    obtain ⟨t1, t2, t3, t4⟩ := try_next_views_steps cands hv
    rw [growth_loop]
    split_ifs with he hneg hlt
    · simp [single_cam_view, reconstructed_view]
    · rw [if_pos hneg] at t4
      simp [single_cam_view, reconstructed_view, t1, t2, t3, t4]
    · rw [if_neg hneg] at t4
      obtain ⟨i1, i2, i3, i4⟩ := ih hr (n + 1) (c + 1)
      simp only [Growth.after, List.cons_append, List.filterMap_cons, List.filterMap_append,
        single_cam_view, reconstructed_view, t1, t4, List.nil_append, List.filterMap_nil,
        List.count_cons, List.count_append, t2, t3, i1, i2, i3, i4, List.length_cons,
        List.length_append, List.length_nil, List.count_nil]
      simp
      omega
    · rw [if_neg hneg] at t4
      obtain ⟨i1, i2, i3, i4⟩ := ih hr (n + 1) 0
      simp only [Growth.after, List.cons_append, List.filterMap_cons, List.filterMap_append,
        single_cam_view, reconstructed_view, t1, t4, List.nil_append, List.filterMap_nil,
        List.count_cons, List.count_append, t2, t3, i1, i2, i3, i4, List.length_cons,
        List.length_append, List.length_nil, List.count_nil]
      simp
      omega

/-- C15: in an iteration of the growth loop in which `reconstruct_next_view`
succeeds for view v (after failing for the candidates ranked before it),
single-camera bundle adjustment is run for v, then `triangulate_new_tracks`,
then `invalidate_large_error_tracks`, and the camera count grows by 1; an
iteration in which every candidate fails runs none of these and leaves the
count unchanged.  Over the whole loop the views of the single-camera bundle
adjustments are exactly the successfully reconstructed views, in order, and
the camera count, the triangulations and the invalidations each grow by one
per successfully reconstructed view. -/
theorem view_addition_steps (conf : AppSettings)
    (failed rest : List (Int × Bool)) (v : Int)
    (hfail : ∀ x ∈ failed, x.2 = false) (hv : 0 ≤ v) (n c : Nat)
    (cands : List (Int × Bool)) (hall : ∀ x ∈ cands, x.2 = false)
    (script : List (List (Int × Bool))) (hvs : ∀ x ∈ script, valid_view_ids x)
    (m d : Nat) :
    (∃ decision,
      (growth_loop conf [failed ++ (v, true) :: rest] n c).events
        = Event.find_next_views ((failed ++ (v, true) :: rest).map Prod.fst)
          :: (failed.map (fun x => Event.reconstruct_next_view x.1 false)
            ++ [Event.reconstruct_next_view v true,
                Event.bundle_adjustment_single_cam v,
                Event.triangulate_new_tracks,
                Event.invalidate_large_error_tracks,
                decision])
      ∧ ba_decision decision ≠ none)
    ∧ (growth_loop conf [failed ++ (v, true) :: rest] n c).num_cameras_reconstructed = n + 1
    ∧ (growth_loop conf [cands] n c).events
      = Event.find_next_views (cands.map Prod.fst)
        :: cands.map (fun x => Event.reconstruct_next_view x.1 false)
    ∧ (growth_loop conf [cands] n c).num_cameras_reconstructed = n
    ∧ (growth_loop conf script m d).events.filterMap single_cam_view
      = (growth_loop conf script m d).events.filterMap reconstructed_view
    ∧ (growth_loop conf script m d).num_cameras_reconstructed
      = m + ((growth_loop conf script m d).events.filterMap reconstructed_view).length
    ∧ (growth_loop conf script m d).events.count Event.triangulate_new_tracks
      = ((growth_loop conf script m d).events.filterMap reconstructed_view).length
    ∧ (growth_loop conf script m d).events.count Event.invalidate_large_error_tracks
      = ((growth_loop conf script m d).events.filterMap reconstructed_view).length := by
  have htry := try_next_views_first_success failed rest v hfail
  have hne : (failed ++ (v, true) :: rest).isEmpty = false := by
    cases failed <;> rfl
  have hpos : ¬ v < 0 := not_lt.mpr hv
  have hfailed := try_next_views_all_failed cands hall
  obtain ⟨s1, s2, s3, s4⟩ := growth_loop_addition_steps conf script hvs m d
  refine ⟨?_, ?_, ?_, ?_, s1, s2, s3, s4⟩
  · rw [growth_loop]
    simp only [hne, htry, hpos, if_false, Bool.false_eq_true]
    by_cases hlt : c < full_ba_skip_views conf (n + 1)
    · exact ⟨Event.skip_full_ba (full_ba_skip_views conf (n + 1)),
        by simp [hlt, Growth.after, growth_loop], by simp [ba_decision]⟩
    · exact ⟨Event.bundle_adjustment_full,
        by simp [hlt, Growth.after, growth_loop], by simp [ba_decision]⟩
  · rw [growth_loop]
    simp only [hne, htry, hpos, if_false, Bool.false_eq_true]
    by_cases hlt : c < full_ba_skip_views conf (n + 1)
    · simp [hlt, Growth.after, growth_loop]
    · simp [hlt, Growth.after, growth_loop]
  · rw [growth_loop]
    cases cands with
    | nil => simp
    | cons x xs => simp [hfailed]
  · rw [growth_loop]
    cases cands with
    | nil => simp
    | cons x xs => simp [hfailed]

theorem view_addition_steps_witness :
    (∀ x ∈ [((9 : Int), false)], x.2 = false)
    ∧ (0 : Int) ≤ 7
    ∧ (∀ x ∈ [((3 : Int), false), (8, false)], x.2 = false)
    ∧ (∀ x ∈ sixteen_views.growth, valid_view_ids x)
    ∧ (growth_loop default_settings [[(9, false)] ++ (7, true) :: [(3, true)]] 2 0
        ).num_cameras_reconstructed = 2 + 1
    ∧ (growth_loop default_settings [[(3, false), (8, false)]] 2 0).num_cameras_reconstructed
      = 2
    ∧ (growth_loop default_settings sixteen_views.growth 2 0).events.filterMap single_cam_view
      = (growth_loop default_settings sixteen_views.growth 2 0).events.filterMap
          reconstructed_view := by
  have h := view_addition_steps default_settings [(9, false)] [(3, true)] 7
    (by decide) (by decide) 2 0 [(3, false), (8, false)] (by decide)
    sixteen_views.growth (by decide) 2 0
  exact ⟨by decide, by decide, by decide, by decide, h.2.1, h.2.2.2.1, h.2.2.2.2.1⟩

/-! ## Defaults and options of `main` -/

/-- C18: without options the settings of `main` have new-track error
threshold 10, track error threshold factor 25, initial pair (-1, -1),
`always_full_ba = false`, `fixed_intrinsics = false`, `video_matching = 0` and
`max_image_size = 6000000`; each of the options track-error-thres,
track-thres-factor, always-full-ba and fixed-intrinsics changes its own
setting and no other; and the two thresholds and `fixed_intrinsics` are
copied unchanged into the options of the incremental reconstructor. -/
theorem settings_defaults_and_options (scene_path : String) (conf : AppSettings) (v : ℚ) :
    main_settings scene_path [] = Except.ok (main_defaults scene_path)
    ∧ (main_defaults scene_path).new_track_error_thres = 10
    ∧ (main_defaults scene_path).track_error_thres_factor = 25
    ∧ (main_defaults scene_path).initial_pair_1 = -1
    ∧ (main_defaults scene_path).initial_pair_2 = -1
    ∧ (main_defaults scene_path).always_full_ba = false
    ∧ (main_defaults scene_path).fixed_intrinsics = false
    ∧ (main_defaults scene_path).video_matching = 0
    ∧ (main_defaults scene_path).max_image_size = 6000000
    ∧ read_option conf (CmdOption.track_error_thres v)
      = Except.ok { conf with new_track_error_thres := v }
    ∧ read_option conf (CmdOption.track_thres_factor v)
      = Except.ok { conf with track_error_thres_factor := v }
    ∧ read_option conf CmdOption.always_full_ba
      = Except.ok { conf with always_full_ba := true }
    ∧ read_option conf CmdOption.fixed_intrinsics
      = Except.ok { conf with fixed_intrinsics := true }
    ∧ main_settings scene_path [CmdOption.track_error_thres v]
      = Except.ok { main_defaults scene_path with new_track_error_thres := v }
    ∧ main_settings scene_path [CmdOption.track_thres_factor v]
      = Except.ok { main_defaults scene_path with track_error_thres_factor := v }
    ∧ main_settings scene_path [CmdOption.always_full_ba]
      = Except.ok { main_defaults scene_path with always_full_ba := true }
    ∧ main_settings scene_path [CmdOption.fixed_intrinsics]
      = Except.ok { main_defaults scene_path with fixed_intrinsics := true }
    ∧ (incremental_opts conf).new_track_error_threshold = conf.new_track_error_thres
    ∧ (incremental_opts conf).track_error_threshold_factor = conf.track_error_thres_factor
    ∧ (incremental_opts conf).ba_fixed_intrinsics = conf.fixed_intrinsics :=
  ⟨rfl, rfl, rfl, rfl, rfl, rfl, rfl, rfl, rfl, rfl, rfl, rfl, rfl, rfl, rfl, rfl, rfl,
    rfl, rfl, rfl⟩

/-! ## Applying the bundle cameras -/

/-- C19: in the pose-application loop, entry i of the result is the body of
the loop applied to view i and bundle camera i.  A null view, and a view
whose camera and whose bundle camera both have focal length 0, are left as
they are with no operation performed; every other view gets the bundle
camera set (`set_camera` is the first operation on it).  A view whose bundle
camera has focal length 0 therefore ends with a camera of focal length 0. -/
theorem pose_application (conf : AppSettings) (views : List (Option View))
    (bundle_cams : List CameraInfo) (i : Nat)
    (hv : i < views.length) (hc : i < bundle_cams.length) :
    (apply_cameras conf views bundle_cams)[i]?
      = some (apply_camera conf views[i] bundle_cams[i])
    ∧ ((apply_camera conf views[i] bundle_cams[i]).2 = []
      ↔ views[i] = none
        ∨ ∃ v, views[i] = some v ∧ v.camera.flen = 0 ∧ bundle_cams[i].flen = 0)
    ∧ ((apply_camera conf views[i] bundle_cams[i]).2 = []
      → (apply_camera conf views[i] bundle_cams[i]).1 = views[i])
    ∧ ((apply_camera conf views[i] bundle_cams[i]).2 ≠ []
      → (∃ w, (apply_camera conf views[i] bundle_cams[i]).1 = some w
          ∧ w.camera = bundle_cams[i])
        ∧ (apply_camera conf views[i] bundle_cams[i]).2.head?
          = some (ViewOp.set_camera bundle_cams[i]))
    ∧ (bundle_cams[i].flen = 0
      → ∀ w, (apply_camera conf views[i] bundle_cams[i]).1 = some w → w.camera.flen = 0) := by
  refine ⟨?_, ?_, ?_, ?_, ?_⟩
  · unfold apply_cameras
    rw [List.getElem?_zipWith, List.getElem?_eq_getElem hv, List.getElem?_eq_getElem hc]
  · cases hview : views[i] with
    | none => simp [apply_camera]
    | some v =>
      by_cases hz : v.camera.flen = 0 ∧ bundle_cams[i].flen = 0
      · simp [apply_camera, hz]
      · unfold apply_camera
        simp only [hz, if_false]
        split_ifs <;> simp [hz]
  · cases hview : views[i] with
    | none => simp [apply_camera]
    | some v =>
      by_cases hz : v.camera.flen = 0 ∧ bundle_cams[i].flen = 0
      · simp [apply_camera, hz]
      · unfold apply_camera
        simp only [hz, if_false]
        split_ifs <;> simp
  · cases hview : views[i] with
    | none => simp [apply_camera]
    | some v =>
      by_cases hz : v.camera.flen = 0 ∧ bundle_cams[i].flen = 0
      · simp [apply_camera, hz]
      · unfold apply_camera
        simp only [hz, if_false]
        split_ifs <;> simp [View.set_image]
  · intro hflen w hw
    cases hview : views[i] with
    | none => rw [hview] at hw; simp [apply_camera] at hw
    | some v =>
      rw [hview] at hw
      by_cases hz : v.camera.flen = 0 ∧ bundle_cams[i].flen = 0
      · simp [apply_camera, hz] at hw
        rw [← hw]; exact hz.1
      · unfold apply_camera at hw
        simp only [hz, if_false] at hw
        split_ifs at hw <;> simp [View.set_image] at hw <;> rw [← hw] <;> exact hflen


theorem pose_application_witness :
    1 < [none, some ({ camera := { flen := 0, dist := (0, 0), trans := [], rot := [] },
                       byte_images := ["original"] } : View)].length
    ∧ 1 < [({ flen := 1, dist := (0, 0), trans := [0, 0, 0], rot := [] } : CameraInfo),
           { flen := 0, dist := (0, 0), trans := [1, 2, 3], rot := [] }].length
    ∧ (apply_cameras default_settings
        [none, some { camera := { flen := 0, dist := (0, 0), trans := [], rot := [] },
                      byte_images := ["original"] }]
        [{ flen := 1, dist := (0, 0), trans := [0, 0, 0], rot := [] },
         { flen := 0, dist := (0, 0), trans := [1, 2, 3], rot := [] }])[1]?
      = some (some { camera := { flen := 0, dist := (0, 0), trans := [], rot := [] },
                     byte_images := ["original"] }, []) := by
  refine ⟨by decide, by decide, ?_⟩
  rw [(pose_application default_settings
    [none, some { camera := { flen := 0, dist := (0, 0), trans := [], rot := [] },
                  byte_images := ["original"] }]
    [{ flen := 1, dist := (0, 0), trans := [0, 0, 0], rot := [] },
     { flen := 0, dist := (0, 0), trans := [1, 2, 3], rot := [] }] 1
    (by decide) (by decide)).1]
  rfl
/-! ## Invariant of the skip counter -/

theorem full_ba_skip_views_le (conf : AppSettings) (n : Nat) :
    full_ba_skip_views conf n ≤ min 5 (n / 15) := by
  unfold full_ba_skip_views
  split_ifs <;> omega

theorem skip_runs_within_no_six (l : List Bool) :
    ∀ budget, budget ≤ 5 → skip_runs_within budget l = true →
      ∀ pre post, l ≠ pre ++ List.replicate 6 false ++ post := by
  have hrun : ∀ (k : Nat) (l : List Bool) (post : List Bool) (budget : Nat),
      skip_runs_within budget (List.replicate k false ++ post) = true → k ≤ budget := by
    intro k
    induction k with
    | zero => intro l post budget _; omega
    | succ k ih =>
      intro l post budget h
      simp only [List.replicate_succ, List.cons_append, skip_runs_within, Bool.and_eq_true,
        decide_eq_true_eq] at h
      have := ih l post (budget - 1) h.2
      omega
  induction l with
  | nil =>
    intro budget _ _ pre post hcon
    have := congrArg List.length hcon
    simp at this
    omega
  | cons a l ih =>
    intro budget hb h pre post hcon
    cases pre with
    | nil =>
      rw [hcon] at h
      have := hrun 6 l post budget (by simpa using h)
      omega
    | cons p pre =>
      simp only [List.cons_append, List.cons.injEq] at hcon
      obtain ⟨_, hl⟩ := hcon
      cases a with
      | true =>
        simp only [skip_runs_within] at h
        exact ih 5 (le_refl 5) h pre post (by simpa using hl)
      | false =>
        simp only [skip_runs_within, Bool.and_eq_true, decide_eq_true_eq] at h
        exact ih (budget - 1) (by omega) h.2 pre post (by simpa using hl)

theorem growth_loop_counter_invariant (conf : AppSettings)
    (script : List (List (Int × Bool))) :
    ∀ n c, c ≤ min 5 (n / 15) →
      (growth_loop conf script n c).full_ba_num_skipped
          ≤ min 5 ((growth_loop conf script n c).num_cameras_reconstructed / 15)
      ∧ n ≤ (growth_loop conf script n c).num_cameras_reconstructed
      ∧ skip_runs_within (5 - c) (ba_decisions (growth_loop conf script n c).events) = true
      ∧ ((growth_loop conf script n c).num_cameras_reconstructed < 15 →
          ∀ d ∈ ba_decisions (growth_loop conf script n c).events, d = true) := by
  induction script with
  | nil => intro n c hc; simp [growth_loop, ba_decisions, skip_runs_within, hc]
  | cons cands script ih =>
    intro n c hc
    have hd := try_next_views_fst_decisions cands
    unfold ba_decisions at hd
    have hle := full_ba_skip_views_le conf (n + 1)
    rw [growth_loop]
    split_ifs with he hneg hlt
    · simp [ba_decisions, ba_decision, skip_runs_within, hc]
    · simp [ba_decisions, ba_decision, skip_runs_within, hc, hd]
    · obtain ⟨i1, i2, i3, i4⟩ := ih (n + 1) (c + 1) (by omega)
      unfold ba_decisions at i3 i4
      have hdec : ba_decisions ((growth_loop conf script (n + 1) (c + 1)).after
          (Event.find_next_views (cands.map Prod.fst)
            :: (try_next_views cands).1
            ++ [Event.bundle_adjustment_single_cam (try_next_views cands).2,
                Event.triangulate_new_tracks,
                Event.invalidate_large_error_tracks,
                Event.skip_full_ba (full_ba_skip_views conf (n + 1))])).events
          = false :: ba_decisions (growth_loop conf script (n + 1) (c + 1)).events := by
        simp [ba_decisions, Growth.after, ba_decision, hd]
      rw [hdec]
      unfold ba_decisions
      refine ⟨i1, by simp only [Growth.after]; omega, ?_, ?_⟩
      · simp only [skip_runs_within, Bool.and_eq_true, decide_eq_true_eq]
        refine ⟨by omega, ?_⟩
        have e : 5 - c - 1 = 5 - (c + 1) := by omega
        rw [e]; exact i3
      · intro hlt15
        simp only [Growth.after] at hlt15
        omega
    · obtain ⟨i1, i2, i3, i4⟩ := ih (n + 1) 0 (by omega)
      unfold ba_decisions at i3 i4
      have hdec : ba_decisions ((growth_loop conf script (n + 1) 0).after
          (Event.find_next_views (cands.map Prod.fst)
            :: (try_next_views cands).1
            ++ [Event.bundle_adjustment_single_cam (try_next_views cands).2,
                Event.triangulate_new_tracks,
                Event.invalidate_large_error_tracks,
                Event.bundle_adjustment_full])).events
          = true :: ba_decisions (growth_loop conf script (n + 1) 0).events := by
        simp [ba_decisions, Growth.after, ba_decision, hd]
      rw [hdec]
      unfold ba_decisions
      refine ⟨i1, by simp only [Growth.after]; omega, ?_, ?_⟩
      · simpa [skip_runs_within] using i3
      · intro hlt15
        simp only [Growth.after] at hlt15
        intro d hmem
        rcases List.mem_cons.mp hmem with rfl | hmem
        · rfl
        · exact i4 hlt15 d hmem

/-- C25: after every iteration of the growth loop (started with 2 cameras and
counter 0) the counter of skipped additions is at most min(5, n / 15), which
is at most 5, where n is the number of reconstructed cameras; the decisions
of the loop never contain 6 skipped additions in a row; and as long as n is
below 15 no addition is skipped. -/
theorem skip_counter_invariant (conf : AppSettings) (script : List (List (Int × Bool))) :
    (growth_loop conf script 2 0).full_ba_num_skipped
        ≤ min 5 ((growth_loop conf script 2 0).num_cameras_reconstructed / 15)
    ∧ min 5 ((growth_loop conf script 2 0).num_cameras_reconstructed / 15) ≤ 5
    ∧ (∀ pre post, ba_decisions (growth_loop conf script 2 0).events
        ≠ pre ++ List.replicate 6 false ++ post)
    ∧ ((growth_loop conf script 2 0).num_cameras_reconstructed < 15 →
        ∀ d ∈ ba_decisions (growth_loop conf script 2 0).events, d = true) := by
  obtain ⟨h1, _, h3, h4⟩ := growth_loop_counter_invariant conf script 2 0 (by omega)
  exact ⟨h1, by omega, skip_runs_within_no_six _ 5 (le_refl 5) h3, h4⟩

/-! ## Validation of the initial pair -/

theorem growth_loop_congr (conf conf1 : AppSettings)
    (h : conf.always_full_ba = conf1.always_full_ba) (script : List (List (Int × Bool))) :
    ∀ n c, growth_loop conf script n c = growth_loop conf1 script n c := by
  have hs : ∀ m, full_ba_skip_views conf m = full_ba_skip_views conf1 m := fun m => by
    simp [full_ba_skip_views, h]
  induction script with
  | nil => intro n c; rfl
  | cons cands script ih =>
    intro n c
    rw [growth_loop, growth_loop, hs, ih, ih]

theorem incremental_sfm_congr (conf conf1 : AppSettings)
    (h : conf.always_full_ba = conf1.always_full_ba) (env : Env) (v1 v2 : Int) :
    incremental_sfm conf env v1 v2 = incremental_sfm conf1 env v1 v2 := by
  unfold incremental_sfm
  rw [growth_loop_congr conf conf1 h]

theorem sfm_after_prebundle_selector (conf : AppSettings) (env : Env)
    (viewports : ViewportList) (pairwise_matching : PairwiseMatching)
    (hsel : conf.initial_pair_1 < 0 ∨ conf.initial_pair_2 < 0)
    (hskip : conf.skip_sfm = false) (hpm : pairwise_matching ≠ []) :
    sfm_after_prebundle conf env viewports pairwise_matching
      = Run.after
          [Event.cache_cleanup, Event.clear_descriptors,
            Event.pairwise_matching_empty false, Event.sort_pairwise_matching,
            Event.rand_seed RAND_SEED_SFM,
            Event.tracks_compute (sort_pairwise_matching pairwise_matching)
              (viewports.map Viewport.clear_descriptors),
            Event.clear_colors,
            Event.init_pair_compute
              ((viewports.map Viewport.clear_descriptors).map Viewport.clear_colors)
              (sort_pairwise_matching pairwise_matching)]
          (if env.selected_pair.1 < 0 ∨ env.selected_pair.2 < 0
              ∨ env.selected_pair.1 ≥ static_cast_int viewports.length
              ∨ env.selected_pair.2 ≥ static_cast_int viewports.length then
            { trace := [], outcome := Outcome.exited 1 }
          else incremental_sfm conf env env.selected_pair.1 env.selected_pair.2) := by
  have hne : pairwise_matching.isEmpty = false := by
    cases pairwise_matching with
    | nil => exact absurd rfl hpm
    | cons _ _ => rfl
  have hres : init_pair_result conf env = env.selected_pair := by
    unfold init_pair_result
    rw [if_pos hsel]
  unfold sfm_after_prebundle
  rw [hres]
  simp only [hskip, hne, if_pos hsel, Bool.false_eq_true, if_false, List.cons_append,
    List.nil_append]

theorem sfm_after_prebundle_explicit (conf : AppSettings) (env : Env)
    (viewports : ViewportList) (pairwise_matching : PairwiseMatching)
    (h1 : 0 ≤ conf.initial_pair_1) (h2 : 0 ≤ conf.initial_pair_2)
    (hin1 : conf.initial_pair_1 < viewports.length)
    (hin2 : conf.initial_pair_2 < viewports.length)
    (hskip : conf.skip_sfm = false) (hpm : pairwise_matching ≠ [])
    (hsize : viewports.length < 2 ^ 31) :
    sfm_after_prebundle conf env viewports pairwise_matching
      = Run.after
          [Event.cache_cleanup, Event.clear_descriptors,
            Event.pairwise_matching_empty false, Event.sort_pairwise_matching,
            Event.rand_seed RAND_SEED_SFM,
            Event.tracks_compute (sort_pairwise_matching pairwise_matching)
              (viewports.map Viewport.clear_descriptors),
            Event.clear_colors]
          (incremental_sfm conf env conf.initial_pair_1 conf.initial_pair_2) := by
  have hsel : ¬ (conf.initial_pair_1 < 0 ∨ conf.initial_pair_2 < 0) := by omega
  have hne : pairwise_matching.isEmpty = false := by
    cases pairwise_matching with
    | nil => exact absurd rfl hpm
    | cons _ _ => rfl
  have hres : init_pair_result conf env = (conf.initial_pair_1, conf.initial_pair_2) := by
    unfold init_pair_result
    rw [if_neg hsel]
  have hout : ¬ (conf.initial_pair_1 < 0 ∨ conf.initial_pair_2 < 0
      ∨ conf.initial_pair_1 ≥ (viewports.length : Int)
      ∨ conf.initial_pair_2 ≥ (viewports.length : Int)) := by omega
  unfold sfm_after_prebundle
  rw [hres, static_cast_int_of_lt _ hsize]
  simp only [hskip, hne, if_neg hsel, Bool.false_eq_true, if_false, List.append_nil]
  rw [if_neg hout]

/-- C27: the validation of the initial pair does not ask for two distinct
views: in a run that reaches the initial-pair stage, the explicit pair (a, a)
with 0 <= a < number of viewports passes the validation and
`reconstruct_initial_pair(a, a)` is called.  If exactly one of the configured
indices (x, y) is negative, `init_pair.compute` is run and the run is the
same as the one with the pair (-1, -1): the other index is ignored. -/
theorem initial_pair_validation (conf : AppSettings) (env : Env)
    (viewports : ViewportList) (pairwise_matching : PairwiseMatching)
    (hskip : conf.skip_sfm = false) (hpm : pairwise_matching ≠ [])
    (hsize : viewports.length < 2 ^ 31)
    (a : Int) (ha0 : 0 ≤ a) (ha1 : a < viewports.length)
    (x y : Int) (hone : (x < 0 ∧ 0 ≤ y) ∨ (0 ≤ x ∧ y < 0)) :
    sfm_after_prebundle { conf with initial_pair_1 := a, initial_pair_2 := a } env
        viewports pairwise_matching
      = Run.after
          [Event.cache_cleanup, Event.clear_descriptors,
            Event.pairwise_matching_empty false, Event.sort_pairwise_matching,
            Event.rand_seed RAND_SEED_SFM,
            Event.tracks_compute (sort_pairwise_matching pairwise_matching)
              (viewports.map Viewport.clear_descriptors),
            Event.clear_colors]
          (incremental_sfm { conf with initial_pair_1 := a, initial_pair_2 := a } env a a)
    ∧ Event.reconstruct_initial_pair a a
      ∈ (sfm_after_prebundle { conf with initial_pair_1 := a, initial_pair_2 := a } env
          viewports pairwise_matching).trace
    ∧ Event.init_pair_compute
        ((viewports.map Viewport.clear_descriptors).map Viewport.clear_colors)
        (sort_pairwise_matching pairwise_matching)
      ∈ (sfm_after_prebundle { conf with initial_pair_1 := x, initial_pair_2 := y } env
          viewports pairwise_matching).trace
    ∧ init_pair_result { conf with initial_pair_1 := x, initial_pair_2 := y } env
      = env.selected_pair
    ∧ sfm_after_prebundle { conf with initial_pair_1 := x, initial_pair_2 := y } env
        viewports pairwise_matching
      = sfm_after_prebundle { conf with initial_pair_1 := -1, initial_pair_2 := -1 } env
        viewports pairwise_matching := by
  have hA := sfm_after_prebundle_explicit
    { conf with initial_pair_1 := a, initial_pair_2 := a } env viewports pairwise_matching
    ha0 ha0 ha1 ha1 hskip hpm hsize
  have hselxy : ({ conf with initial_pair_1 := x, initial_pair_2 := y }
      : AppSettings).initial_pair_1 < 0
      ∨ ({ conf with initial_pair_1 := x, initial_pair_2 := y }
      : AppSettings).initial_pair_2 < 0 := by
    rcases hone with ⟨h, _⟩ | ⟨_, h⟩
    · exact Or.inl h
    · exact Or.inr h
  have hselm : ({ conf with initial_pair_1 := -1, initial_pair_2 := -1 }
      : AppSettings).initial_pair_1 < 0
      ∨ ({ conf with initial_pair_1 := -1, initial_pair_2 := -1 }
      : AppSettings).initial_pair_2 < 0 := Or.inl (show (-1 : Int) < 0 by omega)
  have hX := sfm_after_prebundle_selector
    { conf with initial_pair_1 := x, initial_pair_2 := y } env viewports pairwise_matching
    hselxy hskip hpm
  have hM := sfm_after_prebundle_selector
    { conf with initial_pair_1 := -1, initial_pair_2 := -1 } env viewports pairwise_matching
    hselm hskip hpm
  have hcongr := incremental_sfm_congr
    { conf with initial_pair_1 := x, initial_pair_2 := y }
    { conf with initial_pair_1 := -1, initial_pair_2 := -1 } rfl env
  refine ⟨hA, ?_, ?_, ?_, ?_⟩
  · rw [hA]
    simp [Run.after, incremental_sfm]
  · rw [hX]
    simp [Run.after]
  · unfold init_pair_result
    rw [if_pos hselxy]
  · rw [hX, hM, hcongr]

theorem initial_pair_validation_witness :
    default_settings.skip_sfm = false
    ∧ sixteen_views.computed_matching ≠ []
    ∧ sixteen_views.computed_viewports.length < 2 ^ 31
    ∧ (0 : Int) ≤ 4
    ∧ (4 : Int) < sixteen_views.computed_viewports.length
    ∧ (((-3 : Int) < 0 ∧ (0 : Int) ≤ 5) ∨ ((0 : Int) ≤ -3 ∧ (5 : Int) < 0))
    ∧ Event.reconstruct_initial_pair 4 4
      ∈ (sfm_after_prebundle { default_settings with initial_pair_1 := 4, initial_pair_2 := 4 }
          sixteen_views sixteen_views.computed_viewports
          sixteen_views.computed_matching).trace
    ∧ init_pair_result { default_settings with initial_pair_1 := -3, initial_pair_2 := 5 }
        sixteen_views
      = sixteen_views.selected_pair := by
  have h := initial_pair_validation default_settings sixteen_views
    sixteen_views.computed_viewports sixteen_views.computed_matching rfl (by decide)
    (by decide) 4 (by decide) (by decide) (-3) 5 (Or.inl ⟨by decide, by decide⟩)
  exact ⟨rfl, by decide, by decide, by decide, by decide,
    Or.inl ⟨by decide, by decide⟩, h.2.1, h.2.2.2.1⟩

/-! ## Clearing the pairwise matching -/

theorem incremental_sfm_after_clear (conf : AppSettings) (env : Env)
    (view_1_id view_2_id : Int) :
    ∃ post, (incremental_sfm conf env view_1_id view_2_id).trace
        = Event.pairwise_matching_clear :: Event.incremental_init
          :: Event.reconstruct_initial_pair view_1_id view_2_id :: post
      ∧ ∀ e ∈ post, e ≠ Event.pairwise_matching_clear
          ∧ reads_pairwise_matching e = false := by
  have hfin : ∀ k, ∀ x ∈ (finish_reconstruction env k).trace,
      x ≠ Event.pairwise_matching_clear ∧ reads_pairwise_matching x = false := by
    intro k
    unfold finish_reconstruction final_bundle_adjustment
    split_ifs <;> simp [Run.after, reads_pairwise_matching]
  have hg : ∀ x ∈ (growth_loop conf env.growth 2 0).events,
      x ≠ Event.pairwise_matching_clear ∧ reads_pairwise_matching x = false := by
    intro x hx
    have := growth_loop_growth_events conf env.growth 2 0 x hx
    cases x <;> simp_all [growth_event, reads_pairwise_matching]
  refine ⟨(incremental_sfm conf env view_1_id view_2_id).trace.drop 3, ?_, ?_⟩
  · unfold incremental_sfm
    simp [Run.after]
  · intro e he
    unfold incremental_sfm at he
    simp only [Run.after, List.cons_append, List.nil_append, List.drop_succ_cons,
      List.drop_zero, List.mem_cons, List.mem_append] at he
    rcases he with rfl | rfl | rfl | h | h
    · simp [reads_pairwise_matching]
    · simp [reads_pairwise_matching]
    · simp [reads_pairwise_matching]
    · exact hg e h
    · cases hst : (growth_loop conf env.growth 2 0).status with
      | pending => rw [hst] at h; simp at h
      | finished => rw [hst] at h; exact hfin _ e h
      | no_valid_view => rw [hst] at h; exact hfin _ e h

theorem sfm_after_prebundle_clear (conf : AppSettings) (env : Env)
    (viewports : ViewportList) (pairwise_matching : PairwiseMatching) :
    (∀ pm vps,
        Event.tracks_compute pm vps
            ∈ (sfm_after_prebundle conf env viewports pairwise_matching).trace →
          ((0 ≤ (init_pair_result conf env).1 ∧ 0 ≤ (init_pair_result conf env).2
              ∧ (init_pair_result conf env).1 < static_cast_int vps.length
              ∧ (init_pair_result conf env).2 < static_cast_int vps.length) →
            ∃ pre post,
              (sfm_after_prebundle conf env viewports pairwise_matching).trace
                = pre ++ Event.pairwise_matching_clear :: Event.incremental_init
                  :: Event.reconstruct_initial_pair (init_pair_result conf env).1
                      (init_pair_result conf env).2 :: post
              ∧ (∀ e ∈ pre, incremental_event e = false)
              ∧ ∀ e ∈ post, e ≠ Event.pairwise_matching_clear
                  ∧ reads_pairwise_matching e = false)
          ∧ (¬ (0 ≤ (init_pair_result conf env).1 ∧ 0 ≤ (init_pair_result conf env).2
              ∧ (init_pair_result conf env).1 < static_cast_int vps.length
              ∧ (init_pair_result conf env).2 < static_cast_int vps.length) →
            Event.pairwise_matching_clear
                ∉ (sfm_after_prebundle conf env viewports pairwise_matching).trace
              ∧ (sfm_after_prebundle conf env viewports pairwise_matching).outcome
                = Outcome.exited 1))
    ∧ ((∀ pm vps, Event.tracks_compute pm vps
          ∉ (sfm_after_prebundle conf env viewports pairwise_matching).trace) →
        Event.pairwise_matching_clear
          ∉ (sfm_after_prebundle conf env viewports pairwise_matching).trace) := by
  by_cases hskip : conf.skip_sfm = true
  · have htr : (sfm_after_prebundle conf env viewports pairwise_matching).trace = [] := by
      simp [sfm_after_prebundle, hskip]
    rw [htr]
    simp
  by_cases hpm : pairwise_matching.isEmpty = true
  · have htr : (sfm_after_prebundle conf env viewports pairwise_matching).trace
        = [Event.cache_cleanup, Event.clear_descriptors, Event.pairwise_matching_empty true] := by
      simp [sfm_after_prebundle, hskip, hpm]
    rw [htr]
    simp
  obtain ⟨post, hinc, hpost⟩ := incremental_sfm_after_clear conf env
    (init_pair_result conf env).1 (init_pair_result conf env).2
  have hincr := incremental_sfm_events conf env
    (init_pair_result conf env).1 (init_pair_result conf env).2
  by_cases hbad : (init_pair_result conf env).1 < 0 ∨ (init_pair_result conf env).2 < 0
      ∨ (init_pair_result conf env).1 ≥ static_cast_int viewports.length
      ∨ (init_pair_result conf env).2 ≥ static_cast_int viewports.length
  · have hrun : sfm_after_prebundle conf env viewports pairwise_matching
        = { trace := [Event.cache_cleanup, Event.clear_descriptors,
              Event.pairwise_matching_empty false, Event.sort_pairwise_matching,
              Event.rand_seed RAND_SEED_SFM,
              Event.tracks_compute (sort_pairwise_matching pairwise_matching)
                (viewports.map Viewport.clear_descriptors),
              Event.clear_colors]
              ++ (if conf.initial_pair_1 < 0 ∨ conf.initial_pair_2 < 0 then
                    [Event.init_pair_compute
                      ((viewports.map Viewport.clear_descriptors).map Viewport.clear_colors)
                      (sort_pairwise_matching pairwise_matching)]
                  else []),
            outcome := Outcome.exited 1 } := by
      unfold sfm_after_prebundle
      simp only [hskip, hpm, if_false, Bool.false_eq_true]
      rw [if_pos hbad]
      simp [Run.after]
    have hnoclear : Event.pairwise_matching_clear
        ∉ (sfm_after_prebundle conf env viewports pairwise_matching).trace := by
      rw [hrun]
      split_ifs <;> simp
    refine ⟨?_, fun _ => hnoclear⟩
    intro pm vps hmem
    have hlen : vps.length = viewports.length := by
      rw [hrun] at hmem
      split_ifs at hmem <;>
        simp only [List.cons_append, List.nil_append, List.append_nil, List.mem_cons,
          List.mem_singleton, List.not_mem_nil, or_false, reduceCtorEq, false_or, or_false,
          Event.tracks_compute.injEq] at hmem <;>
        (rw [hmem.2]; simp)
    rw [hlen]
    refine ⟨fun hvalid => ?_, fun _ => ⟨hnoclear, by rw [hrun]⟩⟩
    omega
  · have hrun : (sfm_after_prebundle conf env viewports pairwise_matching).trace
        = ([Event.cache_cleanup, Event.clear_descriptors,
              Event.pairwise_matching_empty false, Event.sort_pairwise_matching,
              Event.rand_seed RAND_SEED_SFM,
              Event.tracks_compute (sort_pairwise_matching pairwise_matching)
                (viewports.map Viewport.clear_descriptors),
              Event.clear_colors]
              ++ (if conf.initial_pair_1 < 0 ∨ conf.initial_pair_2 < 0 then
                    [Event.init_pair_compute
                      ((viewports.map Viewport.clear_descriptors).map Viewport.clear_colors)
                      (sort_pairwise_matching pairwise_matching)]
                  else []))
          ++ Event.pairwise_matching_clear :: Event.incremental_init
            :: Event.reconstruct_initial_pair (init_pair_result conf env).1
                (init_pair_result conf env).2 :: post := by
      unfold sfm_after_prebundle
      simp only [hskip, hpm, if_false, Bool.false_eq_true]
      rw [if_neg hbad]
      show _ ++ (incremental_sfm conf env _ _).trace = _
      rw [hinc]
    have hpre : ∀ e ∈ ([Event.cache_cleanup, Event.clear_descriptors,
              Event.pairwise_matching_empty false, Event.sort_pairwise_matching,
              Event.rand_seed RAND_SEED_SFM,
              Event.tracks_compute (sort_pairwise_matching pairwise_matching)
                (viewports.map Viewport.clear_descriptors),
              Event.clear_colors]
              ++ (if conf.initial_pair_1 < 0 ∨ conf.initial_pair_2 < 0 then
                    [Event.init_pair_compute
                      ((viewports.map Viewport.clear_descriptors).map Viewport.clear_colors)
                      (sort_pairwise_matching pairwise_matching)]
                  else [])), incremental_event e = false := by
      intro e he
      split_ifs at he <;>
        simp only [List.cons_append, List.nil_append, List.append_nil, List.mem_cons,
          List.mem_singleton, List.not_mem_nil, or_false] at he <;>
        rcases he with rfl | rfl | rfl | rfl | rfl | rfl | rfl | rfl <;> rfl
    refine ⟨?_, fun hno => ?_⟩
    · intro pm vps hmem
      have hlen : vps.length = viewports.length := by
        rw [hrun] at hmem
        rcases List.mem_append.mp hmem with h | h
        · split_ifs at h <;>
            simp only [List.cons_append, List.nil_append, List.append_nil, List.mem_cons,
              List.mem_singleton, List.not_mem_nil, or_false, reduceCtorEq, false_or,
              Event.tracks_compute.injEq] at h <;>
            (rw [h.2]; simp)
        · have hin : Event.tracks_compute pm vps
              ∈ (incremental_sfm conf env (init_pair_result conf env).1
                  (init_pair_result conf env).2).trace := by
            rw [hinc]; exact h
          have := hincr _ hin
          simp [incremental_event] at this
      rw [hlen]
      refine ⟨fun _ => ⟨_, post, hrun, hpre, hpost⟩, fun hnv => ?_⟩
      exfalso
      apply hnv
      omega
    · exfalso
      apply hno (sort_pairwise_matching pairwise_matching)
        (viewports.map Viewport.clear_descriptors)
      rw [hrun]
      simp

theorem clear_after_prefix (a t : List Event) (o : Outcome) (v1 v2 : Int)
    (valid : Nat → Prop)
    (ha : ∀ e ∈ a, incremental_event e = false ∧ is_tracks_compute e = false)
    (h : (∀ pm vps, Event.tracks_compute pm vps ∈ t →
          (valid vps.length →
            ∃ pre post,
              t = pre ++ Event.pairwise_matching_clear :: Event.incremental_init
                  :: Event.reconstruct_initial_pair v1 v2 :: post
              ∧ (∀ e ∈ pre, incremental_event e = false)
              ∧ ∀ e ∈ post, e ≠ Event.pairwise_matching_clear
                  ∧ reads_pairwise_matching e = false)
          ∧ (¬ valid vps.length →
            Event.pairwise_matching_clear ∉ t ∧ o = Outcome.exited 1))
      ∧ ((∀ pm vps, Event.tracks_compute pm vps ∉ t) →
          Event.pairwise_matching_clear ∉ t)) :
    (∀ pm vps, Event.tracks_compute pm vps ∈ a ++ t →
          (valid vps.length →
            ∃ pre post,
              a ++ t = pre ++ Event.pairwise_matching_clear :: Event.incremental_init
                  :: Event.reconstruct_initial_pair v1 v2 :: post
              ∧ (∀ e ∈ pre, incremental_event e = false)
              ∧ ∀ e ∈ post, e ≠ Event.pairwise_matching_clear
                  ∧ reads_pairwise_matching e = false)
          ∧ (¬ valid vps.length →
            Event.pairwise_matching_clear ∉ a ++ t ∧ o = Outcome.exited 1))
      ∧ ((∀ pm vps, Event.tracks_compute pm vps ∉ a ++ t) →
          Event.pairwise_matching_clear ∉ a ++ t) := by
  have hca : Event.pairwise_matching_clear ∉ a := by
    intro hc
    have := (ha _ hc).1
    simp [incremental_event] at this
  refine ⟨?_, ?_⟩
  · intro pm vps hmem
    have hin : Event.tracks_compute pm vps ∈ t := by
      rcases List.mem_append.mp hmem with h1 | h1
      · have := (ha _ h1).2
        simp [is_tracks_compute] at this
      · exact h1
    obtain ⟨hv, hnv⟩ := h.1 pm vps hin
    refine ⟨fun hval => ?_, fun hval => ?_⟩
    · obtain ⟨pre, post, ht, hpre, hpost⟩ := hv hval
      refine ⟨a ++ pre, post, ?_, ?_, hpost⟩
      · rw [ht, List.append_assoc]
      · intro e he
        rcases List.mem_append.mp he with h1 | h1
        · exact (ha e h1).1
        · exact hpre e h1
    · obtain ⟨h1, h2⟩ := hnv hval
      refine ⟨?_, h2⟩
      intro hc
      rcases List.mem_append.mp hc with h3 | h3
      · exact hca h3
      · exact h1 h3
  · intro hno hc
    rcases List.mem_append.mp hc with h3 | h3
    · exact hca h3
    · exact h.2 (fun pm vps hm => hno pm vps (List.mem_append_right _ hm)) h3

/-- C9, as the code has it: after `bundler_tracks.compute` the pairwise
matching is read by one call only, `init_pair.compute`, and only in runs
without an explicit initial pair; after `pairwise_matching.clear()` no call
reads it.  The matching is cleared in exactly the runs that build tracks and
whose initial pair passes the validation (both indices at least 0 and below
the number of viewports): there `pairwise_matching.clear()` is called once,
after every call of the earlier stages and directly before
`incremental.initialize` and `reconstruct_initial_pair`; a run whose pair
fails the validation exits with status 1 without clearing, and a run that
builds no tracks never clears. -/
theorem pairwise_matching_lifetime (conf : AppSettings) (env : Env) :
    (∀ e ∈ events_after is_tracks_compute (sfm_reconstruct conf env).trace,
        reads_pairwise_matching e = true →
          is_init_pair_compute e = true
          ∧ (conf.initial_pair_1 < 0 ∨ conf.initial_pair_2 < 0))
    ∧ (∀ e ∈ events_after is_pairwise_matching_clear (sfm_reconstruct conf env).trace,
        reads_pairwise_matching e = false)
    ∧ (∀ pm vps, Event.tracks_compute pm vps ∈ (sfm_reconstruct conf env).trace →
          ((0 ≤ (init_pair_result conf env).1 ∧ 0 ≤ (init_pair_result conf env).2
              ∧ (init_pair_result conf env).1 < static_cast_int vps.length
              ∧ (init_pair_result conf env).2 < static_cast_int vps.length) →
            ∃ pre post,
              (sfm_reconstruct conf env).trace
                = pre ++ Event.pairwise_matching_clear :: Event.incremental_init
                  :: Event.reconstruct_initial_pair (init_pair_result conf env).1
                      (init_pair_result conf env).2 :: post
              ∧ (∀ e ∈ pre, incremental_event e = false)
              ∧ ∀ e ∈ post, e ≠ Event.pairwise_matching_clear
                  ∧ reads_pairwise_matching e = false)
          ∧ (¬ (0 ≤ (init_pair_result conf env).1 ∧ 0 ≤ (init_pair_result conf env).2
              ∧ (init_pair_result conf env).1 < static_cast_int vps.length
              ∧ (init_pair_result conf env).2 < static_cast_int vps.length) →
            Event.pairwise_matching_clear ∉ (sfm_reconstruct conf env).trace
              ∧ (sfm_reconstruct conf env).outcome = Outcome.exited 1))
    ∧ ((∀ pm vps, Event.tracks_compute pm vps ∉ (sfm_reconstruct conf env).trace) →
        Event.pairwise_matching_clear ∉ (sfm_reconstruct conf env).trace) := by
  have hreads : (∀ e ∈ events_after is_tracks_compute (sfm_reconstruct conf env).trace,
        reads_pairwise_matching e = true →
          is_init_pair_compute e = true
          ∧ (conf.initial_pair_1 < 0 ∨ conf.initial_pair_2 < 0))
      ∧ (∀ e ∈ events_after is_pairwise_matching_clear (sfm_reconstruct conf env).trace,
        reads_pairwise_matching e = false) := by
    obtain ⟨pre, vps, pm, hpre, htr | htr⟩ := sfm_reconstruct_trace conf env
    · rw [htr, events_after_of_none _ pre (fun e he => (hpre e he).1),
        events_after_of_none _ pre (fun e he => (hpre e he).2.1)]
      simp
    · rw [htr, events_after_append_of_none _ pre _ (fun e he => (hpre e he).1),
        events_after_append_of_none _ pre _ (fun e he => (hpre e he).2.1)]
      exact sfm_after_prebundle_reads conf env vps pm
  refine ⟨hreads.1, hreads.2, ?_⟩
  have hlift : ∀ (a : List Event) (vps : ViewportList) (pm : PairwiseMatching),
      (∀ e ∈ a, incremental_event e = false ∧ is_tracks_compute e = false) →
      sfm_reconstruct conf env = Run.after a (sfm_after_prebundle conf env vps pm) →
      (∀ pm vps, Event.tracks_compute pm vps ∈ (sfm_reconstruct conf env).trace →
          ((0 ≤ (init_pair_result conf env).1 ∧ 0 ≤ (init_pair_result conf env).2
              ∧ (init_pair_result conf env).1 < static_cast_int vps.length
              ∧ (init_pair_result conf env).2 < static_cast_int vps.length) →
            ∃ pre post,
              (sfm_reconstruct conf env).trace
                = pre ++ Event.pairwise_matching_clear :: Event.incremental_init
                  :: Event.reconstruct_initial_pair (init_pair_result conf env).1
                      (init_pair_result conf env).2 :: post
              ∧ (∀ e ∈ pre, incremental_event e = false)
              ∧ ∀ e ∈ post, e ≠ Event.pairwise_matching_clear
                  ∧ reads_pairwise_matching e = false)
          ∧ (¬ (0 ≤ (init_pair_result conf env).1 ∧ 0 ≤ (init_pair_result conf env).2
              ∧ (init_pair_result conf env).1 < static_cast_int vps.length
              ∧ (init_pair_result conf env).2 < static_cast_int vps.length) →
            Event.pairwise_matching_clear ∉ (sfm_reconstruct conf env).trace
              ∧ (sfm_reconstruct conf env).outcome = Outcome.exited 1))
      ∧ ((∀ pm vps, Event.tracks_compute pm vps ∉ (sfm_reconstruct conf env).trace) →
          Event.pairwise_matching_clear ∉ (sfm_reconstruct conf env).trace) := by
    intro a vps pm ha hrun
    rw [hrun]
    exact clear_after_prefix a (sfm_after_prebundle conf env vps pm).trace
      (sfm_after_prebundle conf env vps pm).outcome
      (init_pair_result conf env).1 (init_pair_result conf env).2
      (fun n => 0 ≤ (init_pair_result conf env).1 ∧ 0 ≤ (init_pair_result conf env).2
        ∧ (init_pair_result conf env).1 < static_cast_int n
        ∧ (init_pair_result conf env).2 < static_cast_int n)
      ha (sfm_after_prebundle_clear conf env vps pm)
  by_cases hex : env.prebundle_exists = true
  · by_cases hskip : conf.skip_sfm = true
    · exact hlift [] [] [] (by simp) (by simp [sfm_reconstruct, hex, hskip, Run.after])
    · exact hlift [Event.load_prebundle_from_file env.loaded_viewports env.loaded_matching]
        env.loaded_viewports env.loaded_matching
        (by simp [incremental_event, is_tracks_compute])
        (by simp [sfm_reconstruct, hex, hskip])
  · by_cases hpm : env.computed_matching.isEmpty = true
    · have htr : (sfm_reconstruct conf env).trace
          = [Event.rand_seed RAND_SEED_MATCHING, Event.features_compute,
              Event.matching_compute env.computed_matching,
              Event.pairwise_matching_empty true] := by
        simp [sfm_reconstruct, hex, features_and_matching, hpm]
      rw [htr]
      simp
    · exact hlift (Event.rand_seed RAND_SEED_MATCHING :: (features_and_matching env).trace
          ++ [Event.save_prebundle_to_file env.computed_viewports env.computed_matching])
        env.computed_viewports env.computed_matching
        (by simp [features_and_matching, incremental_event, is_tracks_compute])
        (by simp [sfm_reconstruct, hex, features_and_matching, hpm])

end SfmRecon

namespace Sfm

/-! ## The squared distance -/

theorem sq_distance_eq_sq_difference (q : List Int) :
    ∀ c : List Int, q.length = c.length → sq_distance q c = sq_difference q c := by
  induction q with
  | nil =>
    intro c h
    cases c with
    | nil => rfl
    | cons _ _ => simp at h
  | cons a q ih =>
    intro c h
    cases c with
    | nil => simp at h
    | cons b c =>
      have hlen : q.length = c.length := by simpa using h
      have := ih c hlen
      unfold sq_distance sq_norm at this ⊢
      simp only [inner_product, sq_difference]
      rw [← this]
      ring

theorem sq_difference_nonneg (q : List Int) : ∀ c : List Int, 0 ≤ sq_difference q c := by
  induction q with
  | nil => intro c; simp [sq_difference]
  | cons a q ih =>
    intro c
    cases c with
    | nil => simp [sq_difference]
    | cons b c =>
      have := ih c
      simp only [sq_difference]
      positivity

theorem sq_difference_eq_zero (q : List Int) :
    ∀ c : List Int, q.length = c.length → sq_difference q c = 0 → q = c := by
  induction q with
  | nil =>
    intro c h _
    cases c with
    | nil => rfl
    | cons _ _ => simp at h
  | cons a q ih =>
    intro c h h0
    cases c with
    | nil => simp at h
    | cons b c =>
      have hlen : q.length = c.length := by simpa using h
      simp only [sq_difference] at h0
      have h1 := sq_difference_nonneg q c
      have h2 : 0 ≤ (a - b) ^ 2 := by positivity
      have h3 : (a - b) ^ 2 = 0 := by omega
      have h4 : sq_difference q c = 0 := by omega
      have h5 : a - b = 0 := by simpa using h3
      have h6 : a = b := by omega
      rw [h6, ih c hlen h4]

theorem sq_difference_self (q : List Int) : sq_difference q q = 0 := by
  induction q with
  | nil => rfl
  | cons a q ih => simp [sq_difference, ih]

/-- C17: for vectors Q and C of the same dimension the squared distance
`||Q - C||^2` equals `||Q||^2 + ||C||^2 - 2 <Q, C>`; among candidates that
all have the same squared norm a candidate has the smallest squared distance
to Q iff it has the largest inner product with Q; and when Q has that squared
norm N too, the squared distance is `2 N - 2 <Q, C>`. -/
theorem distance_from_inner_product (q c : List Int) (hlen : q.length = c.length)
    (cs : List (List Int)) (N : Int) (hN : ∀ x ∈ cs, sq_norm x = N) (hc : c ∈ cs) :
    sq_difference q c = sq_norm q + sq_norm c - 2 * inner_product q c
    ∧ ((∀ x ∈ cs, sq_distance q c ≤ sq_distance q x)
      ↔ (∀ x ∈ cs, inner_product q x ≤ inner_product q c))
    ∧ (sq_norm q = N → sq_distance q c = 2 * N - 2 * inner_product q c) := by
  refine ⟨?_, ?_, ?_⟩
  · rw [← sq_distance_eq_sq_difference q c hlen]
    rfl
  · have hcN := hN c hc
    constructor
    · intro h x hx
      have h1 := h x hx
      have h2 := hN x hx
      unfold sq_distance at h1
      omega
    · intro h x hx
      have h1 := h x hx
      have h2 := hN x hx
      unfold sq_distance
      omega
  · intro hq
    have hcN := hN c hc
    unfold sq_distance
    omega

theorem distance_from_inner_product_witness :
    [(3 : Int), 4].length = [(4 : Int), 3].length
    ∧ (∀ x ∈ [[(4 : Int), 3], [5, 0], [0, -5]], sq_norm x = 25)
    ∧ [(4 : Int), 3] ∈ [[(4 : Int), 3], [5, 0], [0, -5]]
    ∧ sq_difference [3, 4] [4, 3] = sq_norm [3, 4] + sq_norm [4, 3] - 2 * inner_product [3, 4] [4, 3]
    ∧ sq_distance [3, 4] [4, 3] = 2 * 25 - 2 * inner_product [3, 4] [4, 3] := by
  have h := distance_from_inner_product [3, 4] [4, 3] rfl [[4, 3], [5, 0], [0, -5]] 25
    (by decide) (by decide)
  exact ⟨rfl, by decide, by decide, h.1, h.2.2 (by decide)⟩

/-! ## Exact self-match -/

theorem nearest_spec (l : List (Nat × Int)) :
    ∀ x, nearest l = some x → x ∈ l ∧ ∀ y ∈ l, x.2 ≤ y.2 := by
  induction l with
  | nil => intro x h; simp [nearest] at h
  | cons a rest ih =>
    intro x h
    rw [nearest] at h
    cases hr : nearest rest with
    | none =>
      rw [hr] at h
      simp only [Option.some.injEq] at h
      subst h
      have hnil : rest = [] := by
        cases rest with
        | nil => rfl
        | cons b rest' =>
          rw [nearest] at hr
          cases h2 : nearest rest' <;> rw [h2] at hr <;> simp at hr
          split_ifs at hr
      subst hnil
      simp
    | some z =>
      rw [hr] at h
      obtain ⟨hz1, hz2⟩ := ih z hr
      simp only at h
      split_ifs at h with hlt
      · simp only [Option.some.injEq] at h
        subst h
        refine ⟨List.mem_cons_of_mem _ hz1, ?_⟩
        intro y hy
        rcases List.mem_cons.mp hy with rfl | hy
        · omega
        · exact hz2 y hy
      · simp only [Option.some.injEq] at h
        subst h
        refine ⟨List.mem_cons_self _ _, ?_⟩
        intro y hy
        rcases List.mem_cons.mp hy with rfl | hy
        · exact le_refl _
        · have := hz2 y hy
          omega

theorem nearest_first (l : List (Nat × Int)) (hsorted : l.Pairwise (fun a b => a.1 < b.1)) :
    ∀ x, nearest l = some x → ∀ y ∈ l, y.2 ≤ x.2 → x.1 ≤ y.1 := by
  induction l with
  | nil => intro x h; simp [nearest] at h
  | cons a rest ih =>
    intro x h y hy hle
    obtain ⟨hhead, htail⟩ := List.pairwise_cons.mp hsorted
    rw [nearest] at h
    cases hr : nearest rest with
    | none =>
      rw [hr] at h
      simp only [Option.some.injEq] at h
      subst h
      rcases List.mem_cons.mp hy with rfl | hy
      · exact le_refl _
      · exact le_of_lt (hhead y hy)
    | some z =>
      rw [hr] at h
      simp only at h
      split_ifs at h with hlt
      · simp only [Option.some.injEq] at h
        subst h
        rcases List.mem_cons.mp hy with rfl | hy
        · omega
        · exact ih htail z hr y hy hle
      · simp only [Option.some.injEq] at h
        subst h
        rcases List.mem_cons.mp hy with rfl | hy
        · exact le_refl _
        · exact le_of_lt (hhead y hy)

theorem element_length (nn : NearestNeighbor) (i : Nat)
    (hwf : nn.elements.length = nn.num_elements * nn.dimensions) (hi : i < nn.num_elements) :
    (nn.element i).length = nn.dimensions := by
  unfold NearestNeighbor.element
  rw [List.length_take, List.length_drop, hwf]
  have h1 : (i + 1) * nn.dimensions ≤ nn.num_elements * nn.dimensions :=
    Nat.mul_le_mul_right _ hi
  have h2 : (i + 1) * nn.dimensions = i * nn.dimensions + nn.dimensions := by ring
  omega

theorem distances_sorted (nn : NearestNeighbor) (query : List Int) :
    (nn.distances query).Pairwise (fun a b => a.1 < b.1) := by
  unfold NearestNeighbor.distances
  rw [List.pairwise_map]
  exact List.pairwise_lt_range nn.num_elements

theorem find_first_best (nn : NearestNeighbor) (no_match : Result) (query : List Int)
    (x : Nat × Int) (h : nearest (nn.distances query) = some x) :
    (nn.find no_match query).dist_1st_best = x.2
    ∧ (nn.find no_match query).index_1st_best = (x.1 : Int) := by
  unfold NearestNeighbor.find
  rw [h]
  simp only
  split <;> exact ⟨rfl, rfl⟩

/-- C16: when the query is the candidate at index j of a well-formed memory
block, `find` returns squared distance 0 as `dist_1st_best`, and
`index_1st_best` is an index i <= j at which the candidate equals the query
(the first such index); if the query occurs at index j only, the index
returned is j. -/
theorem find_self_match (nn : NearestNeighbor) (no_match : Result) (query : List Int)
    (j : Nat) (hwf : nn.elements.length = nn.num_elements * nn.dimensions)
    (hj : j < nn.num_elements) (hq : nn.element j = query) :
    (nn.find no_match query).dist_1st_best = 0
    ∧ (∃ i : Nat, (nn.find no_match query).index_1st_best = (i : Int) ∧ i ≤ j
        ∧ i < nn.num_elements ∧ nn.element i = query)
    ∧ ((∀ k, k < nn.num_elements → nn.element k = query → k = j) →
        (nn.find no_match query).index_1st_best = (j : Int)) := by
  have hqlen : query.length = nn.dimensions := by
    rw [← hq]; exact element_length nn j hwf hj
  have hjmem : (j, sq_distance query (nn.element j)) ∈ nn.distances query := by
    unfold NearestNeighbor.distances
    exact List.mem_map.mpr ⟨j, List.mem_range.mpr hj, rfl⟩
  have hj0 : sq_distance query (nn.element j) = 0 := by
    rw [hq, sq_distance_eq_sq_difference query query rfl, sq_difference_self]
  obtain ⟨x, hx⟩ : ∃ x, nearest (nn.distances query) = some x := by
    cases hn : nearest (nn.distances query) with
    | some x => exact ⟨x, rfl⟩
    | none =>
      cases hd : nn.distances query with
      | nil => rw [hd] at hjmem; simp at hjmem
      | cons a rest =>
        rw [hd, nearest] at hn
        cases h2 : nearest rest <;> rw [h2] at hn <;> simp at hn
        split_ifs at hn
  obtain ⟨hxmem, hxmin⟩ := nearest_spec _ x hx
  obtain ⟨i, hi, hxi⟩ : ∃ i, i < nn.num_elements
      ∧ x = (i, sq_distance query (nn.element i)) := by
    unfold NearestNeighbor.distances at hxmem
    obtain ⟨i, hi, hxi⟩ := List.mem_map.mp hxmem
    exact ⟨i, List.mem_range.mp hi, hxi.symm⟩
  have hilen : query.length = (nn.element i).length := by
    rw [hqlen, element_length nn i hwf hi]
  have hle : x.2 ≤ 0 := by
    have := hxmin _ hjmem
    rw [hj0] at this
    exact this
  have hge : 0 ≤ x.2 := by
    rw [hxi, sq_distance_eq_sq_difference query _ hilen]
    exact sq_difference_nonneg _ _
  have hx0 : x.2 = 0 := by omega
  have hieq : nn.element i = query := by
    have h0 : sq_difference query (nn.element i) = 0 := by
      rw [← sq_distance_eq_sq_difference query _ hilen]
      rw [hxi] at hx0
      exact hx0
    exact (sq_difference_eq_zero query _ hilen h0).symm
  have hij : i ≤ j := by
    have := nearest_first _ (distances_sorted nn query) x hx _ hjmem (by rw [hj0, hx0])
    rw [hxi] at this
    exact this
  obtain ⟨hd, hidx⟩ := find_first_best nn no_match query x hx
  have hx1 : x.1 = i := by rw [hxi]
  refine ⟨by rw [hd, hx0], ⟨i, by rw [hidx, hx1], hij, hi, hieq⟩, ?_⟩
  intro huniq
  rw [hidx, hx1, huniq i hi hieq]

theorem find_self_match_witness :
    ({ dimensions := 2, elements := [5, 0, 3, 4, 0, 5], num_elements := 3 }
      : NearestNeighbor).elements.length = 3 * 2
    ∧ 1 < 3
    ∧ ({ dimensions := 2, elements := [5, 0, 3, 4, 0, 5], num_elements := 3 }
      : NearestNeighbor).element 1 = [3, 4]
    ∧ (({ dimensions := 2, elements := [5, 0, 3, 4, 0, 5], num_elements := 3 }
      : NearestNeighbor).find
        { dist_1st_best := 0, dist_2nd_best := 0, index_1st_best := -1, index_2nd_best := -1 }
        [3, 4]).dist_1st_best = 0 :=
  ⟨rfl, by decide, rfl,
    (find_self_match { dimensions := 2, elements := [5, 0, 3, 4, 0, 5], num_elements := 3 }
      { dist_1st_best := 0, dist_2nd_best := 0, index_1st_best := -1, index_2nd_best := -1 }
      [3, 4] 1 rfl (by decide) rfl).1⟩

end Sfm

namespace MakeScene

/-! ## `main`: appending and importing images only -/

theorem foldl_read_option_paths (opts : List CmdOption) :
    ∀ conf : AppSettings, (opts.foldl read_option conf).input_path = conf.input_path
      ∧ (opts.foldl read_option conf).output_path = conf.output_path := by
  induction opts with
  | nil => intro conf; exact ⟨rfl, rfl⟩
  | cons o rest ih =>
    intro conf
    simp only [List.foldl_cons]
    obtain ⟨h1, h2⟩ := ih (read_option conf o)
    rw [h1, h2]
    cases o <;> exact ⟨rfl, rfl⟩

theorem foldl_read_option_flags (opts : List CmdOption) :
    ∀ conf : AppSettings,
      (opts.foldl read_option conf).append_images
        = (conf.append_images || decide (CmdOption.append_images ∈ opts))
      ∧ (opts.foldl read_option conf).images_only
        = (conf.images_only || decide (CmdOption.images_only ∈ opts)) := by
  induction opts with
  | nil => intro conf; simp
  | cons o rest ih =>
    intro conf
    simp only [List.foldl_cons]
    obtain ⟨h1, h2⟩ := ih (read_option conf o)
    rw [h1, h2]
    cases o <;> simp [read_option, Bool.or_assoc]

/-- C20: `main` returns 1 and calls neither `import_images` nor
`import_bundle` when the option append-images is given and images-only is
not, and also when append-images is given and the output directory does not
exist.  With images-only, without append-images and with non-empty paths it
returns 0 after calling `import_images` with `append_images = false`, the mode
that creates the scene directories and numbers the views from 0 (the user is
asked to confirm first when the output directory already exists). -/
theorem main_append_and_images_only (input_path output_path : String)
    (opts : List CmdOption) (output_path_exists : Bool) :
    (CmdOption.append_images ∈ opts → CmdOption.images_only ∉ opts →
      (main input_path output_path opts output_path_exists).2 = 1
      ∧ ∀ c ∈ (main input_path output_path opts output_path_exists).1,
          c = Call.generate_helptext)
    ∧ (CmdOption.append_images ∈ opts →
      (main input_path output_path opts false).2 = 1
      ∧ ∀ c ∈ (main input_path output_path opts false).1, c = Call.generate_helptext)
    ∧ (CmdOption.images_only ∈ opts → CmdOption.append_images ∉ opts →
      input_path.isEmpty = false → output_path.isEmpty = false →
      ∃ conf, conf.append_images = false ∧ conf.images_only = true
        ∧ conf.views_path = output_path ++ "/" ++ "views/"
        ∧ main input_path output_path opts output_path_exists
          = ((if output_path_exists then [Call.wait_for_user_confirmation] else [])
              ++ [Call.import_images conf], 0)) := by
  obtain ⟨hin, hout⟩ := foldl_read_option_paths opts (main_defaults input_path output_path)
  obtain ⟨hfa, hfi⟩ := foldl_read_option_flags opts (main_defaults input_path output_path)
  have hin' : (main_defaults input_path output_path).input_path = input_path := rfl
  have hout' : (main_defaults input_path output_path).output_path = output_path := rfl
  have ha0 : (main_defaults input_path output_path).append_images = false := rfl
  have hi0 : (main_defaults input_path output_path).images_only = false := rfl
  rw [hin'] at hin
  rw [hout'] at hout
  rw [ha0, Bool.false_or] at hfa
  rw [hi0, Bool.false_or] at hfi
  refine ⟨?_, ?_, ?_⟩
  · intro hma hmi
    have ha : (opts.foldl read_option (main_defaults input_path output_path)).append_images
        = true := by rw [hfa]; exact decide_eq_true hma
    have hi : (opts.foldl read_option (main_defaults input_path output_path)).images_only
        = false := by rw [hfi]; exact decide_eq_false hmi
    unfold main
    simp only [hin, hout, ha, hi]
    by_cases he : (input_path.isEmpty || output_path.isEmpty) = true <;> simp [he]
  · intro hma
    have ha : (opts.foldl read_option (main_defaults input_path output_path)).append_images
        = true := by rw [hfa]; exact decide_eq_true hma
    unfold main
    simp only [hin, hout, ha]
    by_cases he : (input_path.isEmpty || output_path.isEmpty) = true
    · simp [he]
    · cases hi : (opts.foldl read_option (main_defaults input_path output_path)).images_only
        <;> simp [he]
  · intro hmi hma he1 he2
    have ha : (opts.foldl read_option (main_defaults input_path output_path)).append_images
        = false := by rw [hfa]; exact decide_eq_false hma
    have hi : (opts.foldl read_option (main_defaults input_path output_path)).images_only
        = true := by rw [hfi]; exact decide_eq_true hmi
    refine ⟨{ (opts.foldl read_option (main_defaults input_path output_path)) with
        views_path := output_path ++ "/" ++ "views/",
        bundle_path := input_path ++ "/" ++ "bundle/" }, ha, hi, rfl, ?_⟩
    unfold main
    simp only [hin, hout, ha, hi, he1, he2]
    cases output_path_exists <;> simp

/-! ## `remove_file_extension` -/

theorem find_last_of_none (s : List Char) (ch : Char) :
    find_last_of s ch = none ↔ ch ∉ s := by
  induction s with
  | nil => simp [find_last_of]
  | cons c rest ih =>
    rw [find_last_of]
    cases h : find_last_of rest ch with
    | some p =>
      have : ¬ (ch ∉ rest) := fun hc => by rw [ih.mpr hc] at h; cases h
      simp only [reduceCtorEq, false_iff, List.mem_cons, not_or, not_and, not_not]
      intro _
      by_contra hc
      exact this hc
    | none =>
      have hnot : ch ∉ rest := ih.mp h
      by_cases hcc : c = ch
      · simp [hcc]
      · have hcc' : ¬ ch = c := fun e => hcc e.symm
        simp [hcc, hcc', hnot]

theorem find_last_of_some (s : List Char) (ch : Char) :
    ∀ pos, find_last_of s ch = some pos →
      ∃ ext, s = s.take pos ++ ch :: ext ∧ ch ∉ ext := by
  induction s with
  | nil => intro pos h; simp [find_last_of] at h
  | cons c rest ih =>
    intro pos h
    rw [find_last_of] at h
    cases hr : find_last_of rest ch with
    | some p =>
      rw [hr] at h
      simp only [Option.some.injEq] at h
      subst h
      obtain ⟨ext, h1, h2⟩ := ih p hr
      refine ⟨ext, ?_, h2⟩
      simp only [List.take_succ_cons, List.cons_append]
      rw [← h1]
    | none =>
      rw [hr] at h
      have hnot : ch ∉ rest := (find_last_of_none rest ch).mp hr
      by_cases hcc : c = ch
      · simp only [hcc, if_true, Option.some.injEq] at h
        subst h
        exact ⟨rest, by simp [hcc], hnot⟩
      · simp [hcc] at h

/-- C28: `remove_file_extension(s)` is s when s contains no '.', and otherwise
the part of s before its last '.': the result is a prefix of s, and when s
contains a '.', s is the result followed by '.' and an extension without
'.'.  A name that starts with its only '.' gives the empty string, and on a
name with two dots a second application removes more. -/
theorem remove_file_extension_spec (s : List Char) :
    ('.' ∉ s → remove_file_extension s = s)
    ∧ remove_file_extension s <+: s
    ∧ ('.' ∈ s → ∃ ext, s = remove_file_extension s ++ '.' :: ext ∧ '.' ∉ ext)
    ∧ remove_file_extension ".bashrc".toList = []
    ∧ remove_file_extension "a.tar.gz".toList = "a.tar".toList
    ∧ remove_file_extension (remove_file_extension "a.tar.gz".toList) = "a".toList := by
  refine ⟨?_, ?_, ?_, by decide, by decide, by decide⟩
  · intro h
    unfold remove_file_extension
    rw [(find_last_of_none s '.').mpr h]
  · unfold remove_file_extension
    cases h : find_last_of s '.' with
    | none => exact List.prefix_refl s
    | some pos => exact List.take_prefix pos s
  · intro h
    unfold remove_file_extension
    cases hf : find_last_of s '.' with
    | none => exact absurd h ((find_last_of_none s '.').mp hf)
    | some pos => exact find_last_of_some s '.' pos hf

/-! ## `limit_image_size` -/

theorem half_size_smaller (img : Image) (max_pixels : Int) (hmax : 1 ≤ max_pixels)
    (h : (img.get_pixel_amount : Int) > max_pixels) :
    (rescale_half_size img).width + (rescale_half_size img).height
      < img.width + img.height := by
  unfold Image.get_pixel_amount at h
  have h2 : 2 ≤ img.width * img.height := by omega
  have hw : 1 ≤ img.width := by
    rcases Nat.eq_zero_or_pos img.width with h0 | h0
    · rw [h0, Nat.zero_mul] at h2; omega
    · exact h0
  have hh : 1 ≤ img.height := by
    rcases Nat.eq_zero_or_pos img.height with h0 | h0
    · rw [h0, Nat.mul_zero] at h2; omega
    · exact h0
  have hne : ¬ (img.width = 1 ∧ img.height = 1) := by
    rintro ⟨h1, h3⟩
    rw [h1, h3] at h2
    omega
  unfold rescale_half_size
  simp only
  omega

theorem limit_image_size_enough_fuel (max_pixels : Int) (hmax : 1 ≤ max_pixels) :
    ∀ fuel (img : Image), img.width + img.height ≤ fuel →
      ∃ result k, limit_image_size fuel img max_pixels = some result
        ∧ (result.get_pixel_amount : Int) ≤ max_pixels
        ∧ result = rescale_half_size^[k] img
        ∧ ((img.get_pixel_amount : Int) ≤ max_pixels → result = img) := by
  intro fuel
  induction fuel with
  | zero =>
    intro img h
    have hw : img.width = 0 := by omega
    have hp : (img.get_pixel_amount : Int) ≤ max_pixels := by
      unfold Image.get_pixel_amount
      rw [hw, Nat.zero_mul]
      omega
    refine ⟨img, 0, ?_, hp, rfl, fun _ => rfl⟩
    unfold limit_image_size
    rw [if_neg (not_lt.mpr hp)]
  | succ fuel ih =>
    intro img h
    by_cases hp : (img.get_pixel_amount : Int) > max_pixels
    · have hsmall := half_size_smaller img max_pixels hmax hp
      obtain ⟨result, k, h1, h2, h3, _⟩ := ih (rescale_half_size img) (by omega)
      refine ⟨result, k + 1, ?_, h2, ?_, fun hle => absurd hp (not_lt.mpr hle)⟩
      · rw [limit_image_size, if_pos hp, h1]
      · rw [h3, Function.iterate_succ_apply]
    · refine ⟨img, 0, ?_, not_lt.mp hp, rfl, fun _ => rfl⟩
      rw [limit_image_size, if_neg hp]

theorem limit_image_size_more_fuel (max_pixels : Int) :
    ∀ fuel (img result : Image), limit_image_size fuel img max_pixels = some result →
      limit_image_size (fuel + 1) img max_pixels = some result := by
  intro fuel
  induction fuel with
  | zero =>
    intro img result h
    unfold limit_image_size at h
    split_ifs at h with hp
    rw [limit_image_size, if_neg hp]
    exact h
  | succ fuel ih =>
    intro img result h
    rw [limit_image_size] at h
    split_ifs at h with hp
    · rw [limit_image_size, if_pos hp]
      exact ih _ _ h
    · rw [limit_image_size, if_neg hp]
      exact h

/-- C24: for every image and every `max_pixels >= 1` the loop of
`limit_image_size` ends after at most width + height passes (with that much
fuel, and with any more, it returns the same image); the image returned has
at most `max_pixels` pixels and is the input half-sized k times for some k,
and an input that already has at most `max_pixels` pixels is returned as it
is. -/
theorem limit_image_size_terminates (img : Image) (max_pixels : Int)
    (hmax : 1 ≤ max_pixels) :
    ∃ result k,
      (∀ fuel, img.width + img.height ≤ fuel →
        limit_image_size fuel img max_pixels = some result)
      ∧ (result.get_pixel_amount : Int) ≤ max_pixels
      ∧ result = rescale_half_size^[k] img
      ∧ ((img.get_pixel_amount : Int) ≤ max_pixels → result = img) := by
  obtain ⟨result, k, h1, h2, h3, h4⟩ :=
    limit_image_size_enough_fuel max_pixels hmax (img.width + img.height) img (le_refl _)
  refine ⟨result, k, ?_, h2, h3, h4⟩
  intro fuel hfuel
  obtain ⟨d, rfl⟩ := Nat.exists_eq_add_of_le hfuel
  induction d with
  | zero => exact h1
  | succ d ih => exact limit_image_size_more_fuel max_pixels _ img result (ih (by omega))

theorem limit_image_size_terminates_witness :
    (1 : Int) ≤ 6
    ∧ ∃ result k,
      (∀ fuel, ({ width := 5, height := 3 } : Image).width
          + ({ width := 5, height := 3 } : Image).height ≤ fuel →
        limit_image_size fuel { width := 5, height := 3 } 6 = some result)
      ∧ (result.get_pixel_amount : Int) ≤ 6
      ∧ result = rescale_half_size^[k] { width := 5, height := 3 }
      ∧ ((({ width := 5, height := 3 } : Image).get_pixel_amount : Int) ≤ 6 →
          result = { width := 5, height := 3 }) :=
  ⟨by decide, limit_image_size_terminates { width := 5, height := 3 } 6 (by decide)⟩

/-! ## The Noah-Bundler camera conversion -/

theorem noah_convert_nonneg_flen (cam : CameraInfo) (h : 0 ≤ cam.flen) :
    noah_convert cam
      = { cam with rot3 := -cam.rot3, rot4 := -cam.rot4, rot5 := -cam.rot5,
                   rot6 := -cam.rot6, rot7 := -cam.rot7, rot8 := -cam.rot8,
                   trans1 := -cam.trans1, trans2 := -cam.trans2 }
    ∧ rot_determinant (noah_convert cam) = rot_determinant cam := by
  have hnot : ¬ cam.flen < 0 := not_lt.mpr h
  have e : noah_convert cam
      = { cam with rot3 := -cam.rot3, rot4 := -cam.rot4, rot5 := -cam.rot5,
                   rot6 := -cam.rot6, rot7 := -cam.rot7, rot8 := -cam.rot8,
                   trans1 := -cam.trans1, trans2 := -cam.trans2 } := by
    unfold noah_convert fix_negative_flen
    rw [if_neg hnot]
    rfl
  refine ⟨e, ?_⟩
  rw [e]
  unfold rot_determinant
  simp only
  ring

theorem noah_convert_neg_flen (cam : CameraInfo) (h : cam.flen < 0) :
    noah_convert cam
      = { cam with flen := -cam.flen,
                   rot0 := -cam.rot0, rot1 := -cam.rot1, rot2 := -cam.rot2,
                   trans0 := -cam.trans0 }
    ∧ rot_determinant (noah_convert cam) = -rot_determinant cam := by
  have e : noah_convert cam
      = { cam with flen := -cam.flen,
                   rot0 := -cam.rot0, rot1 := -cam.rot1, rot2 := -cam.rot2,
                   trans0 := -cam.trans0 } := by
    unfold noah_convert fix_negative_flen
    rw [if_pos h]
    simp [negate_lower_rows]
  refine ⟨e, ?_⟩
  rw [e]
  unfold rot_determinant
  simp only
  ring

theorem converted_determinant_negative (cam : CameraInfo) :
    rot_determinant (noah_convert cam) < 0
      ↔ (0 ≤ cam.flen ∧ rot_determinant cam < 0)
        ∨ (cam.flen < 0 ∧ 0 < rot_determinant cam) := by
  by_cases h : cam.flen < 0
  · rw [(noah_convert_neg_flen cam h).2]
    constructor
    · intro hd
      exact Or.inr ⟨h, by linarith⟩
    · rintro (⟨h0, _⟩ | ⟨_, hd⟩)
      · exact absurd h (not_lt.mpr h0)
      · linarith
  · have h0 : 0 ≤ cam.flen := not_lt.mp h
    rw [(noah_convert_nonneg_flen cam h0).2]
    constructor
    · intro hd
      exact Or.inl ⟨h0, hd⟩
    · rintro (⟨_, hd⟩ | ⟨hlt, _⟩)
      · exact hd
      · exact absurd hlt h

/-- C26, the claim as stated fails: with the default settings
(`skip_invalid` set) and a Noah-Bundler bundle, a camera with focal length 0
whose rotation has determinant -1 is skipped as "Invalid camera" at line 710
and never reaches the conversion, so it is not skipped as "Bad rotation
matrix", although its focal length is >= 0 and the determinant of its
rotation is negative. -/
theorem invalid_camera_skipped_before_conversion :
    (main_defaults "in" "out").skip_invalid = true
    ∧ 0 ≤ mirrored_camera.flen
    ∧ rot_determinant mirrored_camera < 0
    ∧ import_bundle (main_defaults "in" "out") (noah_bundle_of mirrored_camera)
        = ImportResult.imported BundleFormat.noah_bundler false false
            [CameraFate.invalid_camera]
    ∧ ¬ (camera_fate (main_defaults "in" "out").skip_invalid BundleFormat.noah_bundler
            mirrored_camera = CameraFate.bad_rotation
          ↔ (0 ≤ mirrored_camera.flen ∧ rot_determinant mirrored_camera < 0)
            ∨ (mirrored_camera.flen < 0 ∧ 0 < rot_determinant mirrored_camera)) := by
  have hskip : (main_defaults "in" "out").skip_invalid = true := rfl
  have hflen : mirrored_camera.flen = 0 := rfl
  have hdet : rot_determinant mirrored_camera < 0 := by
    simp only [rot_determinant, mirrored_camera]
    norm_num
  have hfate : camera_fate true BundleFormat.noah_bundler mirrored_camera
      = CameraFate.invalid_camera := by
    unfold camera_fate
    rw [if_pos ⟨hflen, Or.inl rfl⟩]
  refine ⟨hskip, le_of_eq hflen.symm, hdet, ?_, ?_⟩
  · have hfmt : detect_format (noah_bundle_of mirrored_camera) = BundleFormat.noah_bundler := rfl
    unfold import_bundle
    simp only [hfmt]
    simp [noah_bundle_of, hskip, hfate, main_defaults]
  · rw [hskip, hfate]
    intro hiff
    have := hiff.mpr (Or.inl ⟨le_of_eq hflen.symm, hdet⟩)
    cases this

/-- C26, amended: in exact arithmetic the Noah-Bundler conversion of a camera
with focal length >= 0 negates rows 2 and 3 of the rotation and components 2
and 3 of the translation and keeps the determinant; for focal length < 0 the
focal length is negated and, in total, only row 1 of the rotation and
component 1 of the translation are negated, and the determinant changes
sign.  A camera of a Noah-Bundler bundle is skipped as "Invalid camera",
before the conversion, iff its focal length is 0 and `skip_invalid` is set;
it is skipped as "Bad rotation matrix" iff it is not skipped as invalid and
flen >= 0 and det(rot) < 0, or flen < 0 and det(rot) > 0, for the rotation as
read; in every other case the view is created with the converted camera. -/
theorem noah_conversion (cam : CameraInfo) (skip_invalid : Bool) :
    (0 ≤ cam.flen →
      noah_convert cam
        = { cam with rot3 := -cam.rot3, rot4 := -cam.rot4, rot5 := -cam.rot5,
                     rot6 := -cam.rot6, rot7 := -cam.rot7, rot8 := -cam.rot8,
                     trans1 := -cam.trans1, trans2 := -cam.trans2 }
      ∧ rot_determinant (noah_convert cam) = rot_determinant cam)
    ∧ (cam.flen < 0 →
      noah_convert cam
        = { cam with flen := -cam.flen,
                     rot0 := -cam.rot0, rot1 := -cam.rot1, rot2 := -cam.rot2,
                     trans0 := -cam.trans0 }
      ∧ rot_determinant (noah_convert cam) = -rot_determinant cam)
    ∧ (rot_determinant (noah_convert cam) < 0
      ↔ (0 ≤ cam.flen ∧ rot_determinant cam < 0)
        ∨ (cam.flen < 0 ∧ 0 < rot_determinant cam))
    ∧ (camera_fate skip_invalid BundleFormat.noah_bundler cam = CameraFate.invalid_camera
      ↔ (cam.flen = 0 ∧ skip_invalid = true))
    ∧ (camera_fate skip_invalid BundleFormat.noah_bundler cam = CameraFate.bad_rotation
      ↔ (¬ (cam.flen = 0 ∧ skip_invalid = true)
          ∧ ((0 ≤ cam.flen ∧ rot_determinant cam < 0)
            ∨ (cam.flen < 0 ∧ 0 < rot_determinant cam))))
    ∧ (∀ c, camera_fate skip_invalid BundleFormat.noah_bundler cam = CameraFate.view_created c
      ↔ (c = noah_convert cam
          ∧ ¬ (cam.flen = 0 ∧ skip_invalid = true)
          ∧ ¬ ((0 ≤ cam.flen ∧ rot_determinant cam < 0)
            ∨ (cam.flen < 0 ∧ 0 < rot_determinant cam)))) := by
  have hdet := converted_determinant_negative cam
  refine ⟨noah_convert_nonneg_flen cam, noah_convert_neg_flen cam, hdet, ?_, ?_, ?_⟩
  · unfold camera_fate
    by_cases hinv : cam.flen = 0 ∧ skip_invalid = true
    · rw [if_pos ⟨hinv.1, Or.inl hinv.2⟩]
      simp [hinv]
    · have hc : ¬ (cam.flen = 0
          ∧ (skip_invalid = true ∨ BundleFormat.noah_bundler = BundleFormat.photosynther)) := by
        rintro ⟨h1, h2 | h2⟩
        · exact hinv ⟨h1, h2⟩
        · cases h2
      rw [if_neg hc, if_pos rfl]
      split_ifs <;> simp [hinv]
  · unfold camera_fate
    by_cases hinv : cam.flen = 0 ∧ skip_invalid = true
    · rw [if_pos ⟨hinv.1, Or.inl hinv.2⟩]
      simp [hinv]
    · have hc : ¬ (cam.flen = 0
          ∧ (skip_invalid = true ∨ BundleFormat.noah_bundler = BundleFormat.photosynther)) := by
        rintro ⟨h1, h2 | h2⟩
        · exact hinv ⟨h1, h2⟩
        · cases h2
      rw [if_neg hc, if_pos rfl]
      by_cases hd : rot_determinant (noah_convert cam) < 0
      · rw [if_pos hd]
        exact ⟨fun _ => ⟨hinv, hdet.mp hd⟩, fun _ => rfl⟩
      · rw [if_neg hd]
        constructor
        · intro hcon; cases hcon
        · rintro ⟨_, h2⟩
          exact absurd (hdet.mpr h2) hd
  · intro c
    unfold camera_fate
    by_cases hinv : cam.flen = 0 ∧ skip_invalid = true
    · rw [if_pos ⟨hinv.1, Or.inl hinv.2⟩]
      constructor
      · intro hcon; cases hcon
      · rintro ⟨_, h2, _⟩
        exact absurd hinv h2
    · have hc : ¬ (cam.flen = 0
          ∧ (skip_invalid = true ∨ BundleFormat.noah_bundler = BundleFormat.photosynther)) := by
        rintro ⟨h1, h2 | h2⟩
        · exact hinv ⟨h1, h2⟩
        · cases h2
      rw [if_neg hc, if_pos rfl]
      by_cases hd : rot_determinant (noah_convert cam) < 0
      · rw [if_pos hd]
        constructor
        · intro hcon; cases hcon
        · rintro ⟨_, _, h3⟩
          exact absurd (hdet.mp hd) h3
      · rw [if_neg hd]
        constructor
        · intro hcon
          simp only [CameraFate.view_created.injEq] at hcon
          exact ⟨hcon.symm, hinv, fun h3 => hd (hdet.mpr h3)⟩
        · rintro ⟨h1, _, _⟩
          rw [h1]

/-! ## View ids of `import_images` -/

theorem rot_determinant_noah_convert (cam : CameraInfo) (h : cam.flen = 0) :
    rot_determinant (noah_convert cam) = rot_determinant cam := by
  have hfix : fix_negative_flen cam = cam := by
    unfold fix_negative_flen
    rw [if_neg (by rw [h]; exact lt_irrefl 0)]
  unfold noah_convert
  rw [hfix]
  simp only [rot_determinant, negate_lower_rows]
  ring

theorem noah_convert_zero_flen (cam : CameraInfo) (h : cam.flen = 0) :
    noah_convert cam = negate_lower_rows cam := by
  unfold noah_convert fix_negative_flen
  rw [if_neg (by rw [h]; exact lt_irrefl 0)]

theorem mirrored_camera_fate :
    camera_fate false BundleFormat.noah_bundler mirrored_camera = CameraFate.bad_rotation := by
  have hdet : rot_determinant (noah_convert mirrored_camera) < 0 := by
    rw [rot_determinant_noah_convert _ rfl]
    simp only [rot_determinant, mirrored_camera]
    norm_num
  unfold camera_fate
  rw [if_neg (by simp), if_pos rfl, if_pos hdet]

/-- C21, the claim as stated fails: with `--keep-invalid` and a
Noah-Bundler bundle, a camera with focal length 0 whose rotation has a
negative determinant is skipped ("Bad rotation matrix", no view is created
for it), although neither `skip_invalid` is set nor the format is
Photosynther. -/
theorem zero_flen_skipped_for_bad_rotation :
    mirrored_camera.flen = 0
    ∧ keep_invalid_settings.skip_invalid = false
    ∧ import_bundle keep_invalid_settings (noah_bundle_of mirrored_camera)
        = ImportResult.imported BundleFormat.noah_bundler false false [CameraFate.bad_rotation]
    ∧ ¬ ((∀ c, camera_fate keep_invalid_settings.skip_invalid BundleFormat.noah_bundler
              mirrored_camera ≠ CameraFate.view_created c)
          ↔ (keep_invalid_settings.skip_invalid = true
              ∨ BundleFormat.noah_bundler = BundleFormat.photosynther)) := by
  have hskip : keep_invalid_settings.skip_invalid = false := rfl
  refine ⟨rfl, hskip, ?_, ?_⟩
  · have hfmt : detect_format (noah_bundle_of mirrored_camera) = BundleFormat.noah_bundler := rfl
    unfold import_bundle
    simp only [hfmt]
    simp [noah_bundle_of, hskip, mirrored_camera_fate, keep_invalid_settings, read_option,
      main_defaults]
  · rw [hskip, mirrored_camera_fate]
    simp

/-- C21, amended: for a camera with focal length 0, `import_bundle` skips it
as an invalid camera iff `skip_invalid` is set or the format is Photosynther;
it skips it for a bad rotation matrix iff `skip_invalid` is not set, the
format is Noah's Bundler and the determinant of its rotation is negative;
and it goes on to create the view iff `skip_invalid` is not set and the
format is not Photosynther and, for Noah's Bundler, the determinant is not
negative. With a Photosynther bundle a camera with focal length 0 is skipped
whatever `skip_invalid` is, and the loop runs with `import_original` false,
the user being asked to confirm exactly when `import_orig` was set. -/
theorem zero_focal_length_camera (conf : AppSettings) (env : BundleEnv)
    (fmt : BundleFormat) (cam : CameraInfo) (h : cam.flen = 0) :
    (camera_fate conf.skip_invalid fmt cam = CameraFate.invalid_camera
        ↔ (conf.skip_invalid = true ∨ fmt = BundleFormat.photosynther))
    ∧ (camera_fate conf.skip_invalid fmt cam = CameraFate.bad_rotation
        ↔ (conf.skip_invalid = false ∧ fmt = BundleFormat.noah_bundler
            ∧ rot_determinant cam < 0))
    ∧ ((∃ c, camera_fate conf.skip_invalid fmt cam = CameraFate.view_created c)
        ↔ (conf.skip_invalid = false ∧ fmt ≠ BundleFormat.photosynther
            ∧ (fmt = BundleFormat.noah_bundler → 0 ≤ rot_determinant cam)))
    ∧ camera_fate false BundleFormat.photosynther cam = CameraFate.invalid_camera
    ∧ (env.is_nvm = false → env.has_views_txt = false →
        detect_format env = BundleFormat.photosynther →
        ∀ cams, env.cameras = some cams →
          import_bundle conf env
            = ImportResult.imported BundleFormat.photosynther false conf.import_orig
                (cams.map (camera_fate conf.skip_invalid BundleFormat.photosynther))) := by
  have hdet := rot_determinant_noah_convert cam h
  refine ⟨?_, ?_, ?_, ?_, ?_⟩
  · unfold camera_fate
    rw [hdet]
    cases conf.skip_invalid <;> cases fmt <;> simp [h]
    split_ifs <;> simp
  · unfold camera_fate
    rw [hdet]
    cases conf.skip_invalid <;> cases fmt <;> simp [h]
  · unfold camera_fate
    rw [hdet]
    cases conf.skip_invalid <;> cases fmt <;> simp [h]
    split_ifs <;> simp_all
  · unfold camera_fate
    simp [h]
  · intro hnvm htxt hfmt cams hcams
    unfold import_bundle
    simp [hnvm, htxt, hfmt, hcams]

theorem zero_focal_length_camera_witness :
    unregistered_camera.flen = 0
    ∧ (camera_fate keep_invalid_settings.skip_invalid BundleFormat.noah_bundler
          unregistered_camera = CameraFate.invalid_camera
        ↔ (keep_invalid_settings.skip_invalid = true
            ∨ BundleFormat.noah_bundler = BundleFormat.photosynther)) :=
  ⟨rfl, (zero_focal_length_camera keep_invalid_settings (noah_bundle_of unregistered_camera)
    BundleFormat.noah_bundler unregistered_camera rfl).1⟩

end MakeScene
